import Mathlib

/-!
# Grid layout of `src/lv_core/lv_grid.c`

A shallow embedding of the grid calculator and of the item repositioner.

* `lv_coord_t` values are integers; every store into an `lv_coord_t` goes through
  `GridEnv.coord`, the two's complement conversion to the coordinate width.
* `uint32_t` arithmetic on track weights goes through `u32`; `int` and `unsigned`
  have 32 bits, so a product of two `lv_coord_t` is an `int` and its conversion to
  `uint32_t` is `u32` of the exact product.
* Track counts, loop counters and cursor positions are natural numbers: they are
  bounded by the number of children and tracks of one container.
* The scratch buffers of `_lv_grid_calc_t` are `Buf`: a memory that can be written
  at any index, the number of entries asked from `_lv_mem_buf_get`, and the log of
  the indices written.
* The macros and constants of `lv_grid.h` and the queries of `lv_obj.c` are not part
  of the file; the macros are the fields of `GridEnv`, the query results are fields
  of `lv_obj_t`.
-/

namespace LvGrid

/-! ## Machine integers -/

/-- Conversion of an integer to a signed two's complement integer of `bits` bits. -/
def wrap_signed (bits : Nat) (v : Int) : Int :=
  (v + 2 ^ (bits - 1)) % 2 ^ bits - 2 ^ (bits - 1)

/-- Conversion of an integer to `uint32_t`. -/
def u32 (v : Int) : Int := v % 4294967296

/-- The four alignment flags of a cell (`LV_GRID_START` ... `LV_GRID_STRETCH`). -/
inductive lv_grid_align where
  | START
  | CENTER
  | END
  | STRETCH
deriving DecidableEq, Repr

/-- Declarations of `lv_grid.h`, `lv_area.h` and `lv_obj.h` used by `lv_grid.c`:
the width of `lv_coord_t`, the helper macros and the size constants. -/
structure GridEnv where
  /-- Number of bits of `lv_coord_t`. -/
  coord_bits : Nat
  /-- The macro `_GRID_IS_FR`. -/
  is_fr : Int → Bool
  /-- The macro `_GRID_GET_FR`. -/
  get_fr : Int → Int
  /-- The macro `_GRID_IS_CELL`. -/
  is_cell : Int → Bool
  /-- The macro `_GRID_GET_CELL_POS`. -/
  get_cell_pos : Int → Nat
  /-- The macro `_GRID_GET_CELL_SPAN`. -/
  get_cell_span : Int → Nat
  /-- The macro `_GRID_GET_CELL_FLAG`, compared with the `LV_GRID_*` constants. -/
  get_cell_flag : Int → lv_grid_align
  /-- The constant `LV_SIZE_AUTO`. -/
  size_auto : Int
  /-- The constant `LV_SIZE_STRETCH`. -/
  size_stretch : Int

/-- Store of an integer expression into an `lv_coord_t`. -/
def GridEnv.coord (E : GridEnv) (v : Int) : Int := wrap_signed E.coord_bits v

/-- The value is representable in `lv_coord_t`. -/
def GridEnv.in_coord (E : GridEnv) (v : Int) : Prop :=
  -(2 ^ (E.coord_bits - 1)) ≤ v ∧ v < 2 ^ (E.coord_bits - 1)

/-! ## Scratch buffers -/

/-- A buffer obtained from `_lv_mem_buf_get`: `cap` entries were asked for, `mem` is
the memory at and after the buffer start, `writes` logs the indices written (latest
first). -/
structure Buf where
  cap : Nat
  mem : Nat → Int
  writes : List Nat

/-- The call `_lv_mem_buf_get(sizeof(lv_coord_t) * n)`; `init` is the content the
pool happens to hold. -/
def Buf.get (init : Nat → Int) (n : Nat) : Buf := ⟨n, init, []⟩

/-- The assignment `buf[i] = v`. -/
def Buf.write (b : Buf) (i : Nat) (v : Int) : Buf :=
  ⟨b.cap, fun j => if j = i then v else b.mem j, i :: b.writes⟩

/-! ## Data model -/

/-- The type `lv_area_t`. -/
structure lv_area_t where
  x1 : Int
  y1 : Int
  x2 : Int
  y2 : Int
deriving DecidableEq, Repr

/-- The type `lv_grid_t`: a descriptor pointer and its length are one optional list
(`none` for `NULL`); `addr` is the address of the definition, by which two pointers
to grid definitions are compared. -/
structure lv_grid_t where
  col_dsc : Option (List Int)
  row_dsc : Option (List Int)
  addr : Nat
deriving DecidableEq, Repr

/-- The field `col_dsc_len`. -/
def lv_grid_t.col_dsc_len (g : lv_grid_t) : Nat := (g.col_dsc.getD []).length

/-- The field `row_dsc_len`. -/
def lv_grid_t.row_dsc_len (g : lv_grid_t) : Nat := (g.row_dsc.getD []).length

/-- The fields of `lv_obj_t` read by `lv_grid.c`, with the results of the queries
answered by `lv_obj.c` for this object (`width_fit` for `lv_obj_get_width_fit`,
`auto_w`/`auto_h` for `_lv_obj_calc_auto_size`, the paddings and scroll offsets).
The list `children` is in the order of `lv_obj_get_child_back`. -/
inductive lv_obj_t where
  | mk (coords : lv_area_t) (x_set y_set w_set h_set : Int) (grid : Option lv_grid_t)
      (width_fit height_fit auto_w auto_h : Int)
      (pad_left pad_top scroll_left scroll_top : Int)
      (children : List lv_obj_t)

namespace lv_obj_t

def coords : lv_obj_t → lv_area_t
  | mk c _ _ _ _ _ _ _ _ _ _ _ _ _ _ => c
def x_set : lv_obj_t → Int
  | mk _ v _ _ _ _ _ _ _ _ _ _ _ _ _ => v
def y_set : lv_obj_t → Int
  | mk _ _ v _ _ _ _ _ _ _ _ _ _ _ _ => v
def w_set : lv_obj_t → Int
  | mk _ _ _ v _ _ _ _ _ _ _ _ _ _ _ => v
def h_set : lv_obj_t → Int
  | mk _ _ _ _ v _ _ _ _ _ _ _ _ _ _ => v
def grid : lv_obj_t → Option lv_grid_t
  | mk _ _ _ _ _ g _ _ _ _ _ _ _ _ _ => g
def width_fit : lv_obj_t → Int
  | mk _ _ _ _ _ _ v _ _ _ _ _ _ _ _ => v
def height_fit : lv_obj_t → Int
  | mk _ _ _ _ _ _ _ v _ _ _ _ _ _ _ => v
def auto_w : lv_obj_t → Int
  | mk _ _ _ _ _ _ _ _ v _ _ _ _ _ _ => v
def auto_h : lv_obj_t → Int
  | mk _ _ _ _ _ _ _ _ _ v _ _ _ _ _ => v
def pad_left : lv_obj_t → Int
  | mk _ _ _ _ _ _ _ _ _ _ v _ _ _ _ => v
def pad_top : lv_obj_t → Int
  | mk _ _ _ _ _ _ _ _ _ _ _ v _ _ _ => v
def scroll_left : lv_obj_t → Int
  | mk _ _ _ _ _ _ _ _ _ _ _ _ v _ _ => v
def scroll_top : lv_obj_t → Int
  | mk _ _ _ _ _ _ _ _ _ _ _ _ _ v _ => v
def children : lv_obj_t → List lv_obj_t
  | mk _ _ _ _ _ _ _ _ _ _ _ _ _ _ cs => cs

end lv_obj_t

/-- The type `_lv_grid_calc_t`. -/
structure lv_grid_calc_t where
  x : Buf
  y : Buf
  w : Buf
  h : Buf
  col_num : Nat
  row_num : Nat
  grid_w : Int
  grid_h : Int

/-! ## Explicit tracks -/

/-- First loop of `calc_explicit_cols` / `calc_explicit_rows` from track `i` on:
the weights of the fractional tracks are added to `fr_cnt` (a `uint32_t`), a fixed
track is stored in the size buffer and added to `grid_sz` (an `lv_coord_t`). -/
def explicit_scan (E : GridEnv) : List Int → Nat → Int → Int → Buf → Int × Int × Buf
  | [], _, fr_cnt, grid_sz, sz => (fr_cnt, grid_sz, sz)
  | x :: xs, i, fr_cnt, grid_sz, sz =>
    if E.is_fr x then explicit_scan E xs (i + 1) (u32 (fr_cnt + E.get_fr x)) grid_sz sz
    else explicit_scan E xs (i + 1) fr_cnt (E.coord (grid_sz + x)) (sz.write i x)

/-- Second loop of `calc_explicit_cols` / `calc_explicit_rows` from track `i` on:
a fractional track gets 0 on an auto-sized axis and `(free * f) / fr_cnt` otherwise.
The product is an `int`, converted to `uint32_t` by the division with the
`uint32_t` divisor; the quotient is stored in an `lv_coord_t`. A division by zero
has no result. -/
def explicit_fr (E : GridEnv) (auto_sz : Bool) (free fr_cnt : Int) :
    List Int → Nat → Buf → Option Buf
  | [], _, sz => some sz
  | x :: xs, i, sz =>
    if E.is_fr x then
      if auto_sz then explicit_fr E auto_sz free fr_cnt xs (i + 1) (sz.write i 0)
      else
        let f := E.coord (E.get_fr x)
        if fr_cnt = 0 then none
        else explicit_fr E auto_sz free fr_cnt xs (i + 1)
          (sz.write i (E.coord (u32 (free * f) / fr_cnt)))
    else explicit_fr E auto_sz free fr_cnt xs (i + 1) sz

/-- The size stored for a fractional track by the second loop (lines 255-258). -/
def fr_value (E : GridEnv) (auto_sz : Bool) (free fr_cnt x : Int) : Int :=
  if auto_sz then 0 else E.coord (u32 (free * E.coord (E.get_fr x)) / fr_cnt)

/-- The loop `for(i = 0; i < n; i++) off[i + 1] = off[i] + sz[i]` from `i` on, with
`k` iterations left. -/
def prefix_loop (E : GridEnv) (sz : Buf) : Nat → Nat → Buf → Buf
  | 0, _, off => off
  | k + 1, i, off => prefix_loop E sz k (i + 1) (off.write (i + 1) (E.coord (off.mem i + sz.mem i)))

/-- Body shared by `calc_explicit_cols` and `calc_explicit_rows`: the descriptor
`dsc`, the auto flag and the content extent of the axis, the two fresh buffers.
Returns the offsets and the sizes. With no track `dsc_len - 1` wraps around and the
loops leave the buffers: no result. -/
def calc_explicit (E : GridEnv) (dsc : List Int) (auto_sz : Bool) (fit : Int)
    (off sz : Buf) : Option (Buf × Buf) :=
  if dsc.length = 0 then none
  else
    let (fr_cnt, grid_sz, sz1) := explicit_scan E dsc 0 0 0 sz
    let free := E.coord (fit - grid_sz)
    match explicit_fr E auto_sz free fr_cnt dsc 0 sz1 with
    | none => none
    | some sz2 =>
      let off1 := off.write 0 0
      some (prefix_loop E sz2 (dsc.length - 1) 0 off1, sz2)

/-- Content of the pool buffers handed out by `_lv_mem_buf_get`, one per array. -/
structure Scratch where
  x : Nat → Int
  y : Nat → Int
  w : Nat → Int
  h : Nat → Int

/-- The function `calc_explicit_cols` (lines 227-267). -/
def calc_explicit_cols (E : GridEnv) (S : Scratch) (cont : lv_obj_t) (grid : lv_grid_t)
    (c : lv_grid_calc_t) : Option lv_grid_calc_t :=
  let col_num := grid.col_dsc_len
  let x := Buf.get S.x col_num
  let w := Buf.get S.w col_num
  let auto_w := decide (cont.w_set = E.size_auto)
  match calc_explicit E (grid.col_dsc.getD []) auto_w cont.width_fit x w with
  | none => none
  | some (x1, w1) => some { c with col_num := col_num, x := x1, w := w1 }

/-- The function `calc_explicit_rows` (lines 269-311). -/
def calc_explicit_rows (E : GridEnv) (S : Scratch) (cont : lv_obj_t) (grid : lv_grid_t)
    (c : lv_grid_calc_t) : Option lv_grid_calc_t :=
  let row_num := grid.row_dsc_len
  let y := Buf.get S.y row_num
  let h := Buf.get S.h row_num
  let auto_h := decide (cont.h_set = E.size_auto)
  match calc_explicit E (grid.row_dsc.getD []) auto_h cont.height_fit y h with
  | none => none
  | some (y1, h1) => some { c with row_num := row_num, y := y1, h := h1 }

/-! ## Implicit tracks -/

/-- Modelled from the spec: `lv_obj_get_width` of `lv_obj.c` is not part of the
file; it is the current width of the object, `lv_area_get_width` of its coordinates,
`x2 - x1 + 1` stored in an `lv_coord_t`. -/
def lv_obj_get_width (E : GridEnv) (obj : lv_obj_t) : Int :=
  E.coord (obj.coords.x2 - obj.coords.x1 + 1)

/-- Modelled from the spec: `lv_obj_get_height` of `lv_obj.c` is not part of the
file; it is the current height of the object, `lv_area_get_height` of its
coordinates, `y2 - y1 + 1` stored in an `lv_coord_t`. -/
def lv_obj_get_height (E : GridEnv) (obj : lv_obj_t) : Int :=
  E.coord (obj.coords.y2 - obj.coords.y1 + 1)

/-- The test `_GRID_IS_CELL(child->x_set) && _GRID_IS_CELL(child->y_set)`. -/
def is_grid_cell (E : GridEnv) (child : lv_obj_t) : Bool :=
  E.is_cell child.x_set && E.is_cell child.y_set

/-- Width measured by `calc_implicit_cols` for a child (lines 332-334). -/
def natural_width (E : GridEnv) (child : lv_obj_t) : Int :=
  if E.get_cell_flag child.x_set = lv_grid_align.STRETCH then child.auto_w
  else lv_obj_get_width E child

/-- Height measured by `calc_implicit_rows` for a child (lines 372-374). -/
def natural_height (E : GridEnv) (child : lv_obj_t) : Int :=
  if E.get_cell_flag child.y_set = lv_grid_align.STRETCH then child.auto_h
  else lv_obj_get_height E child

/-- The `while(child)` loop of `calc_implicit_cols` / `calc_implicit_rows` over the
remaining children: `e` is the cursor on the explicit axis (wrapping at `n`), `t`
the cursor on the implicit axis, `sz` the size buffer of the implicit axis. -/
def implicit_scan (E : GridEnv) (n : Nat) (nat_sz : lv_obj_t → Int) :
    List lv_obj_t → Nat → Nat → Buf → Nat × Nat × Buf
  | [], e, t, sz => (e, t, sz)
  | child :: rest, e, t, sz =>
    if is_grid_cell E child then
      let sz1 := sz.write t (max (sz.mem t) (nat_sz child))
      if e + 1 = n then implicit_scan E n nat_sz rest 0 (t + 1) (sz1.write (t + 1) 0)
      else implicit_scan E n nat_sz rest (e + 1) t sz1
    else implicit_scan E n nat_sz rest e t sz

/-- The index of the implicit track at which the `while(child)` loop of
`calc_implicit_rows` / `calc_implicit_cols` measures each grid-cell child of the
remaining children (`row_i` in the assignment to `calc->h[row_i]` of line 375,
`col_i` in the one to `calc->w[col_i]` of line 335), in the order of the visit; the
cursor `(e, t)` moves as in `implicit_scan`. -/
def implicit_scan_tracks (E : GridEnv) (n : Nat) : List lv_obj_t → Nat → Nat → List Nat
  | [], _, _ => []
  | child :: rest, e, t =>
    if is_grid_cell E child then
      if e + 1 = n then t :: implicit_scan_tracks E n rest 0 (t + 1)
      else t :: implicit_scan_tracks E n rest (e + 1) t
    else implicit_scan_tracks E n rest e t

/-- The function `calc_implicit_cols` (lines 314-352); `lv_obj_count_children` is
the number of children of the container. The division by a zero `row_dsc_len` has
no result. -/
def calc_implicit_cols (E : GridEnv) (S : Scratch) (cont : lv_obj_t) (grid : lv_grid_t)
    (c : lv_grid_calc_t) : Option lv_grid_calc_t :=
  let child_cnt := cont.children.length
  if grid.row_dsc_len = 0 then none
  else
    let col_num := (child_cnt + grid.row_dsc_len - 1) / grid.row_dsc_len + 1
    let w := Buf.get S.w col_num
    let x := Buf.get S.x col_num
    let w0 := w.write 0 0
    let (_, _, w1) := implicit_scan E grid.row_dsc_len (natural_width E) cont.children 0 0 w0
    let x0 := x.write 0 0
    some { c with col_num := col_num, w := w1, x := prefix_loop E w1 (col_num - 1) 0 x0 }

/-- The function `calc_implicit_rows` (lines 355-392); `lv_obj_count_children` is
the number of children of the container. The division by a zero `col_dsc_len` has
no result. -/
def calc_implicit_rows (E : GridEnv) (S : Scratch) (cont : lv_obj_t) (grid : lv_grid_t)
    (c : lv_grid_calc_t) : Option lv_grid_calc_t :=
  let child_cnt := cont.children.length
  if grid.col_dsc_len = 0 then none
  else
    let row_num := (child_cnt + grid.col_dsc_len - 1) / grid.col_dsc_len + 1
    let h := Buf.get S.h row_num
    let y := Buf.get S.y row_num
    let h0 := h.write 0 0
    let (_, _, h1) := implicit_scan E grid.col_dsc_len (natural_height E) cont.children 0 0 h0
    let y0 := y.write 0 0
    some { c with row_num := row_num, h := h1, y := prefix_loop E h1 row_num 0 y0 }

/-! ## The grid calculator -/

/-- Lines 116-117 of `_lv_grid_calc`: the total extents. -/
def calc_extents (E : GridEnv) (c : lv_grid_calc_t) : lv_grid_calc_t :=
  { c with
    grid_w := E.coord (c.x.mem (c.col_num - 1) + c.w.mem (c.col_num - 1) - c.x.mem 0)
    grid_h := E.coord (c.y.mem (c.row_num - 1) + c.h.mem (c.row_num - 1) - c.y.mem 0) }

/-- The function `_lv_grid_calc` (lines 98-119). Without a grid the result is the
untouched `calc_out`; with neither descriptor no branch runs and the extents are read
through uninitialised pointers: no result. -/
def _lv_grid_calc (E : GridEnv) (S : Scratch) (obj : lv_obj_t) (calc_out : lv_grid_calc_t) :
    Option lv_grid_calc_t :=
  match obj.grid with
  | none => some calc_out
  | some grid =>
    match grid.col_dsc, grid.row_dsc with
    | some _, some _ =>
      ((calc_explicit_rows E S obj grid calc_out).bind
        (calc_explicit_cols E S obj grid)).map (calc_extents E)
    | some _, none =>
      ((calc_explicit_cols E S obj grid calc_out).bind
        (calc_implicit_rows E S obj grid)).map (calc_extents E)
    | none, some _ =>
      ((calc_implicit_cols E S obj grid calc_out).bind
        (calc_explicit_rows E S obj grid)).map (calc_extents E)
    | none, none => none

/-! ## Placement of the items -/

/-- The type `lv_point_t`. -/
structure lv_point_t where
  x : Int
  y : Int
deriving DecidableEq, Repr

/-- The type `item_repos_hint_t`. -/
structure item_repos_hint_t where
  col : Nat
  row : Nat
  grid_abs : lv_point_t
deriving DecidableEq, Repr

/-- The cell span chosen by `item_repos` for an item. -/
structure cell_span_t where
  col_pos : Nat
  col_span : Nat
  row_pos : Nat
  row_span : Nat
deriving DecidableEq, Repr

/-- Modelled from the spec: `_lv_obj_is_grid_item` of `lv_obj.c` is not part of the
file; an item is a grid item when its cell assignment is not the sentinel on either
axis (its parent being a container with a grid). -/
def _lv_obj_is_grid_item (E : GridEnv) (item : lv_obj_t) : Bool :=
  is_grid_cell E item

/-- Lines 440-449 of `item_repos`: the number of grid-cell children met by the scan
of the children before it reaches the item, `before` being the children that precede
the item in the order of `lv_obj_get_child_back`. -/
def child_id_scan (E : GridEnv) (before : List lv_obj_t) : Nat :=
  (before.filter (is_grid_cell E)).length

/-- Lines 407-459 of `item_repos`: the cell of `item` and the hint after the call.
`before` is the list of the children of the container that precede the item. The
division by a descriptor length is only reached after `_lv_grid_calc`, which has no
result when that length is zero. -/
def item_repos_cell (E : GridEnv) (grid : lv_grid_t) (before : List lv_obj_t) (item : lv_obj_t)
    (hint : Option item_repos_hint_t) : cell_span_t × Option item_repos_hint_t :=
  if grid.row_dsc.isSome && grid.col_dsc.isSome then
    (⟨E.get_cell_pos item.x_set, E.get_cell_span item.x_set,
      E.get_cell_pos item.y_set, E.get_cell_span item.y_set⟩, hint)
  else
    match hint with
    | some hn =>
      let col_pos := hn.col
      let row_pos := hn.row
      let hn1 :=
        if grid.row_dsc.isNone then
          let hn2 := { hn with col := hn.col + 1 }
          if hn2.col ≥ grid.col_dsc_len then { hn2 with col := 0, row := hn2.row + 1 }
          else hn2
        else
          if hn.row ≥ grid.row_dsc_len then { hn with row := 0, col := hn.col + 1 }
          else hn
      (⟨col_pos, 1, row_pos, 1⟩, some hn1)
    | none =>
      let child_id := child_id_scan E before
      if grid.row_dsc.isNone then
        (⟨child_id % grid.col_dsc_len, 1, child_id / grid.col_dsc_len, 1⟩, none)
      else
        (⟨child_id / grid.row_dsc_len, 1, child_id % grid.row_dsc_len, 1⟩, none)

/-- The `while(item)` loop of `_lv_grid_full_refresh` (lines 191-197) over the
remaining children, `before` being the children already visited: the cell that
`item_repos` gives to each grid-cell child, in the order of the visit. The call of
`item_repos` returns at line 405 for an item that is not a grid item. -/
def full_refresh_cells (E : GridEnv) (grid : lv_grid_t) :
    List lv_obj_t → List lv_obj_t → item_repos_hint_t → List cell_span_t
  | [], _, _ => []
  | item :: rest, before, hint =>
    if is_grid_cell E item then
      if _lv_obj_is_grid_item E item = false then
        full_refresh_cells E grid rest (before ++ [item]) hint
      else
        match item_repos_cell E grid before item (some hint) with
        | (cell, some hint1) => cell :: full_refresh_cells E grid rest (before ++ [item]) hint1
        | (cell, none) => cell :: full_refresh_cells E grid rest (before ++ [item]) hint
    else full_refresh_cells E grid rest (before ++ [item]) hint

/-- The hint built by `_lv_grid_full_refresh` (lines 181-189): the cursor zeroed and
the absolute position of the grid. -/
def full_refresh_hint (E : GridEnv) (cont : lv_obj_t) : item_repos_hint_t :=
  { col := 0, row := 0,
    grid_abs := ⟨E.coord (cont.pad_left + cont.coords.x1 - cont.scroll_left),
                 E.coord (cont.pad_top + cont.coords.y1 - cont.scroll_top)⟩ }

/-- The cells given to the grid-cell children of `cont` by the sweep of
`_lv_grid_full_refresh` (lines 173-197), in the order of `lv_obj_get_child_back`,
lines 461-536 of `item_repos` left out: nothing without a grid; otherwise the grid
is calculated into the local `calc` first, and the children are visited when that
calculation has a result. Whenever `_lv_grid_full_refresh` has a result these are
the cells of its decisions (`full_refresh_cells_link`); the refresh itself has no
result when an index of lines 462 and 466 wraps around or a nested grid cannot be
calculated. -/
def _lv_grid_full_refresh_cells (E : GridEnv) (S : Scratch) (cont : lv_obj_t)
    (c : lv_grid_calc_t) : Option (List cell_span_t) :=
  match cont.grid with
  | none => some []
  | some grid =>
    match _lv_grid_calc E S cont c with
    | none => none
    | some _ => some (full_refresh_cells E grid cont.children [] (full_refresh_hint E cont))

/-! ## Geometry of an item -/

/-- What `item_repos` decides for an item (lines 407-536): its cell span, the
position `x`, `y` handed to `_lv_obj_move_to`, the size `w`, `h` applied to the
item, the values of `w_set` and `h_set` after the call, whether the size test of
line 512 holds (`resized`) and whether `_lv_obj_move_to` is called (`moved`). -/
structure repos_t where
  cell : cell_span_t
  x : Int
  y : Int
  w : Int
  h : Int
  w_set : Int
  h_set : Int
  resized : Bool
  moved : Bool
deriving DecidableEq, Repr

/-- The index `pos + span - 1` of lines 462 and 466, computed in `uint32_t`: for a
span of 0 at position 0 it wraps around to 4294967295. -/
def span_last (pos span : Nat) : Nat := (pos + span + 4294967295) % 4294967296

/-- An index `pos + span - 1` of lines 462 and 466 is 4294967295, the last
`uint32_t`: the read of `calc->x` or `calc->y` at it is outside the memory. -/
def span_wraps (s : cell_span_t) : Bool :=
  decide (span_last s.col_pos s.col_span = 4294967295) ||
    decide (span_last s.row_pos s.row_span = 4294967295)

/-- Lines 461-463 of `item_repos`: `col_w`. -/
def repos_col_w (E : GridEnv) (c : lv_grid_calc_t) (s : cell_span_t) : Int :=
  let col_x1 := c.x.mem s.col_pos
  let col_x2 := E.coord (c.x.mem (span_last s.col_pos s.col_span) +
    c.w.mem (span_last s.col_pos s.col_span))
  E.coord (col_x2 - col_x1)

/-- Lines 465-467 of `item_repos`: `row_h`; the size added to the last offset is
`calc->h[col_pos + col_span - 1]`. -/
def repos_row_h (E : GridEnv) (c : lv_grid_calc_t) (s : cell_span_t) : Int :=
  let row_y1 := c.y.mem s.row_pos
  let row_y2 := E.coord (c.y.mem (span_last s.row_pos s.row_span) +
    c.h.mem (span_last s.col_pos s.col_span))
  E.coord (row_y2 - row_y1)

/-- The `switch(x_flag)` of `item_repos` (lines 477-492): the position `x`, the
width `w` and the value of `item->w_set`. The quotient of the `int` expression
`col_w - w` by 2 is the truncating division of C. -/
def repos_align_x (E : GridEnv) (c : lv_grid_calc_t) (s : cell_span_t) (item : lv_obj_t) :
    Int × Int × Int :=
  let col_w := repos_col_w E c s
  let w := lv_obj_get_width E item
  match E.get_cell_flag item.x_set with
  | lv_grid_align.START => (c.x.mem s.col_pos, w, item.w_set)
  | lv_grid_align.STRETCH => (c.x.mem s.col_pos, col_w, E.size_stretch)
  | lv_grid_align.CENTER =>
    (E.coord (c.x.mem s.col_pos + Int.tdiv (col_w - w) 2), w, item.w_set)
  | lv_grid_align.END =>
    (E.coord (c.x.mem (s.col_pos + 1) - lv_obj_get_width E item), w, item.w_set)

/-- The `switch(y_flag)` of `item_repos` (lines 494-509): the position `y`, the
height `h` and the value of `item->h_set`. -/
def repos_align_y (E : GridEnv) (c : lv_grid_calc_t) (s : cell_span_t) (item : lv_obj_t) :
    Int × Int × Int :=
  let row_h := repos_row_h E c s
  let h := lv_obj_get_height E item
  match E.get_cell_flag item.y_set with
  | lv_grid_align.START => (c.y.mem s.row_pos, h, item.h_set)
  | lv_grid_align.STRETCH => (c.y.mem s.row_pos, row_h, E.size_stretch)
  | lv_grid_align.CENTER =>
    (E.coord (c.y.mem s.row_pos + Int.tdiv (row_h - h) 2), h, item.h_set)
  | lv_grid_align.END =>
    (E.coord (c.y.mem (s.row_pos + 1) - lv_obj_get_height E item), h, item.h_set)

/-- Lines 531-536 of `item_repos`: whether `_lv_obj_move_to` is called. The sums
`hint->grid_abs.x + x` and `hint->grid_abs.y + y` are `int` expressions. -/
def repos_moved (hint : Option item_repos_hint_t) (item : lv_obj_t) (x y : Int) : Bool :=
  match hint with
  | some hn =>
    if hn.grid_abs.x + x = item.coords.x1 ∧ hn.grid_abs.y + y = item.coords.y1 then false
    else true
  | none => true

/-- Lines 461-536 of `item_repos` for the cell span `s`: the decision taken for the
item. The size test of line 512 reads the item before it is resized, the position
test of line 533 reads `coords.x1` and `coords.y1`, which the resize leaves as they
are. -/
def item_repos_geom (E : GridEnv) (c : lv_grid_calc_t) (item : lv_obj_t) (s : cell_span_t)
    (hint : Option item_repos_hint_t) : repos_t :=
  let ax := repos_align_x E c s item
  let ay := repos_align_y E c s item
  { cell := s, x := ax.1, y := ay.1, w := ax.2.1, h := ay.2.1,
    w_set := ax.2.2, h_set := ay.2.2,
    resized := decide (lv_obj_get_width E item ≠ ax.2.1 ∨ lv_obj_get_height E item ≠ ay.2.1),
    moved := repos_moved hint item ax.1 ay.1 }

/-- The function `item_repos` (lines 403-537) as a decision: what it decides for the
item and the hint after the call, `none` when it decides nothing: it returns at line
405 because the item is not a grid item, or an index `pos + span - 1` of lines 462
and 466 has wrapped around (`span_wraps`) and the call has no result.
`item_repos_run` keeps the two apart. `before` is the list of the children of the
container that precede the item. -/
def item_repos (E : GridEnv) (grid : lv_grid_t) (c : lv_grid_calc_t) (before : List lv_obj_t)
    (item : lv_obj_t) (hint : Option item_repos_hint_t) :
    Option (repos_t × Option item_repos_hint_t) :=
  if _lv_obj_is_grid_item E item = false then none
  else
    let sh := item_repos_cell E grid before item hint
    if span_wraps sh.1 then none
    else some (item_repos_geom E c item sh.1 hint, sh.2)

/-! ## Effect of `item_repos` on the item -/

/-- Modelled from the spec: `lv_area_set_width` of `lv_area.c` is not part of the
file; it applies the new width to the box, `x2 = x1 + w - 1`. -/
def lv_area_set_width (E : GridEnv) (a : lv_area_t) (w : Int) : lv_area_t :=
  { a with x2 := E.coord (a.x1 + w - 1) }

/-- Modelled from the spec: `lv_area_set_height` of `lv_area.c` is not part of the
file; it applies the new height to the box, `y2 = y1 + h - 1`. -/
def lv_area_set_height (E : GridEnv) (a : lv_area_t) (h : Int) : lv_area_t :=
  { a with y2 := E.coord (a.y1 + h - 1) }

/-- The absolute position of the content of a container, that of its grid: the
expressions of lines 188-189. -/
def grid_origin (E : GridEnv) (cont : lv_obj_t) : lv_point_t :=
  ⟨E.coord (cont.pad_left + cont.coords.x1 - cont.scroll_left),
   E.coord (cont.pad_top + cont.coords.y1 - cont.scroll_top)⟩

/-- Modelled from the spec: `_lv_obj_move_to` of `lv_obj.c` is not part of the file;
it moves the box of the object, keeping its size, to the absolute target: the
content origin of the parent plus `(x, y)`. -/
def _lv_obj_move_to (E : GridEnv) (origin : lv_point_t) (a : lv_area_t) (x y : Int) :
    lv_area_t :=
  let dx := E.coord (E.coord (x + origin.x) - a.x1)
  let dy := E.coord (E.coord (y + origin.y) - a.y1)
  ⟨E.coord (a.x1 + dx), E.coord (a.y1 + dy), E.coord (a.x2 + dx), E.coord (a.y2 + dy)⟩

/-- The object with new coordinates, size modes and children. -/
def lv_obj_t.update : lv_obj_t → lv_area_t → Int → Int → List lv_obj_t → lv_obj_t
  | lv_obj_t.mk _ xs ys _ _ g wf hf aw ah pl pt sl st _, a, ws, hs, cs =>
    lv_obj_t.mk a xs ys ws hs g wf hf aw ah pl pt sl st cs

/-- The coordinates of the item after `item_repos` has taken the decision `r`
(lines 512-536): the new size is applied when the size test holds, then the item is
moved when `_lv_obj_move_to` is called; `origin` is the content origin of the
container. The invalidations and the signal sent to the item are notifications to
`lv_obj.c`. -/
def repos_coords (E : GridEnv) (origin : lv_point_t) (item : lv_obj_t) (r : repos_t) :
    lv_area_t :=
  let a1 :=
    if r.resized then lv_area_set_height E (lv_area_set_width E item.coords r.w) r.h
    else item.coords
  if r.moved then _lv_obj_move_to E origin a1 r.x r.y else a1

/-! ## Fractional track queries -/

/-- The loop of `_lv_grid_has_fr_col` / `_lv_grid_has_fr_row` over the remaining
entries of the descriptor (lines 144-146, 162-164). -/
def has_fr_loop (E : GridEnv) : List Int → Bool
  | [] => false
  | x :: xs => if E.is_fr x then true else has_fr_loop E xs

/-- The function `_lv_grid_has_fr_col` (lines 138-149). -/
def _lv_grid_has_fr_col (E : GridEnv) (obj : lv_obj_t) : Bool :=
  match obj.grid with
  | none => false
  | some grid =>
    match grid.col_dsc with
    | none => false
    | some dsc => has_fr_loop E dsc

/-- The function `_lv_grid_has_fr_row` (lines 156-167). -/
def _lv_grid_has_fr_row (E : GridEnv) (obj : lv_obj_t) : Bool :=
  match obj.grid with
  | none => false
  | some grid =>
    match grid.row_dsc with
    | none => false
    | some dsc => has_fr_loop E dsc

/-! ## The refresh of a container -/

/-- What the refresh of a container does besides writing the objects: a run of the
track resolution of `_lv_grid_calc`, a decision of `item_repos` for a grid item of
the container, whose content is at the absolute position `origin`, a call of
`lv_obj_set_size` on an auto-sized container, and an event of a refresh that
`item_repos` runs on a child of a resized item (lines 523-529). -/
inductive grid_event where
  | calc_run
  | repos (origin : lv_point_t) (r : repos_t)
  | set_size
  | nested (e : grid_event)
deriving DecidableEq, Repr

mutual
/-- The function `_lv_grid_full_refresh` (lines 173-203): the container after the
refresh and the events of the refresh, nothing when the calculation of a grid has no
result. The call of `lv_obj_set_size` of line 201 is an event: its effect on the
container belongs to `lv_obj.c`. -/
def _lv_grid_full_refresh (E : GridEnv) (S : Scratch) (c0 : lv_grid_calc_t) :
    lv_obj_t → Option (lv_obj_t × List grid_event)
  | lv_obj_t.mk a xs ys ws hs g wf hf aw ah pl pt sl st cs =>
    match g with
    | none => some (lv_obj_t.mk a xs ys ws hs g wf hf aw ah pl pt sl st cs, [])
    | some grid =>
      match _lv_grid_calc E S (lv_obj_t.mk a xs ys ws hs g wf hf aw ah pl pt sl st cs) c0 with
      | none => none
      | some c =>
        match refresh_items E S c0 (lv_obj_t.mk a xs ys ws hs g wf hf aw ah pl pt sl st cs)
            grid c cs []
            (full_refresh_hint E (lv_obj_t.mk a xs ys ws hs g wf hf aw ah pl pt sl st cs)) with
        | none => none
        | some (cs1, ev) =>
          some (lv_obj_t.mk a xs ys ws hs g wf hf aw ah pl pt sl st cs1,
            grid_event.calc_run ::
              (ev ++ if ws = E.size_auto ∨ hs = E.size_auto then [grid_event.set_size] else []))
/-- The `while(item)` loop of `_lv_grid_full_refresh` (lines 191-197) over the
remaining children, `before` being the children already visited: the children after
the loop and the events. -/
def refresh_items (E : GridEnv) (S : Scratch) (c0 : lv_grid_calc_t) (cont : lv_obj_t)
    (grid : lv_grid_t) (c : lv_grid_calc_t) :
    List lv_obj_t → List lv_obj_t → item_repos_hint_t → Option (List lv_obj_t × List grid_event)
  | [], _, _ => some ([], [])
  | item :: rest, before, hint =>
    if is_grid_cell E item then
      match item_repos_run E S c0 cont grid c before (some hint) item with
      | none => none
      | some (item1, hint1, ev1) =>
        match refresh_items E S c0 cont grid c rest (before ++ [item1]) (hint1.getD hint) with
        | none => none
        | some (rest1, ev2) => some (item1 :: rest1, ev1 ++ ev2)
    else
      match refresh_items E S c0 cont grid c rest (before ++ [item]) hint with
      | none => none
      | some (rest1, ev2) => some (item :: rest1, ev2)
/-- The function `item_repos` (lines 403-537) on the state: the item and the hint
after the call and the events, nothing when the call has no result (an index of
lines 462 and 466 has wrapped around, or the refresh of a child has no result). The
item is left as it is when the function returns at line 405; otherwise the size
modes are written, the new size is applied when the size test holds, with a refresh
of the children of the item that are grids with a fractional track, and the item is
moved when the position test asks for it. -/
def item_repos_run (E : GridEnv) (S : Scratch) (c0 : lv_grid_calc_t) (cont : lv_obj_t)
    (grid : lv_grid_t) (c : lv_grid_calc_t) (before : List lv_obj_t)
    (hint : Option item_repos_hint_t) :
    lv_obj_t → Option (lv_obj_t × Option item_repos_hint_t × List grid_event)
  | lv_obj_t.mk a xs ys ws hs g wf hf aw ah pl pt sl st cs =>
    if _lv_obj_is_grid_item E (lv_obj_t.mk a xs ys ws hs g wf hf aw ah pl pt sl st cs) = false then
      some (lv_obj_t.mk a xs ys ws hs g wf hf aw ah pl pt sl st cs, hint, [])
    else
    match item_repos E grid c before (lv_obj_t.mk a xs ys ws hs g wf hf aw ah pl pt sl st cs)
        hint with
    | none => none
    | some (r, hint1) =>
      match (if r.resized then refresh_fr_children E S c0 cs else some (cs, [])) with
      | none => none
      | some (cs1, ev) =>
        some (lv_obj_t.mk
            (repos_coords E (grid_origin E cont)
              (lv_obj_t.mk a xs ys ws hs g wf hf aw ah pl pt sl st cs) r)
            xs ys r.w_set r.h_set g wf hf aw ah pl pt sl st cs1,
          hint1, grid_event.repos (grid_origin E cont) r :: ev.map grid_event.nested)
/-- The loop of lines 523-529 over the remaining children of a resized item, in the
order of `lv_obj_get_child` (the last of the list first): a child that is a grid with
a fractional column or row is refreshed. -/
def refresh_fr_children (E : GridEnv) (S : Scratch) (c0 : lv_grid_calc_t) :
    List lv_obj_t → Option (List lv_obj_t × List grid_event)
  | [] => some ([], [])
  | child :: rest =>
    match refresh_fr_children E S c0 rest with
    | none => none
    | some (rest1, ev1) =>
      if _lv_grid_has_fr_col E child || _lv_grid_has_fr_row E child then
        match _lv_grid_full_refresh E S c0 child with
        | none => none
        | some (child1, ev2) => some (child1 :: rest1, ev1 ++ ev2)
      else some (child :: rest1, ev1)
end

/-- The function `lv_grid_item_refr_pos` (lines 209-221) for the item at the index
`idx` of the children of `parent`, the result of `lv_obj_get_parent`: the item after
the call and the events. -/
def lv_grid_item_refr_pos (E : GridEnv) (S : Scratch) (c0 : lv_grid_calc_t)
    (parent : Option lv_obj_t) (idx : Nat) (item : lv_obj_t) :
    Option (lv_obj_t × List grid_event) :=
  match parent with
  | none => some (item, [])
  | some cont =>
    match cont.grid with
    | none => some (item, [])
    | some grid =>
      match _lv_grid_calc E S cont c0 with
      | none => none
      | some c =>
        match item_repos_run E S c0 cont grid c (cont.children.take idx) none item with
        | none => none
        | some (item1, _, ev) => some (item1, grid_event.calc_run :: ev)

/-! ## The report of a changed grid -/

/-- The outcome of a traversal of the object tree: a result, no result because the
calculation of a grid has none, or a recursion deeper than the bound given to the
traversal. -/
inductive outcome (α : Type) where
  | done (a : α)
  | undefined
  | no_fuel

/-- The continuation of a traversal with its result. -/
def outcome.bind {α β : Type} : outcome α → (α → outcome β) → outcome β
  | outcome.done a, f => f a
  | outcome.undefined, _ => outcome.undefined
  | outcome.no_fuel, _ => outcome.no_fuel

/-- One call of `report_grid_change_core`: the object, named by the indices that lead
to it (display, screen, then at every level the rank of the child in the order of
`lv_obj_get_child`), whether the test of line 547 held and `_lv_grid_full_refresh`
was called, and the events of that call. -/
structure visit where
  path : List Nat
  called : Bool
  events : List grid_event
deriving DecidableEq, Repr

mutual
/-- The number of levels of the tree of an object. -/
def tree_depth : lv_obj_t → Nat
  | lv_obj_t.mk _ _ _ _ _ _ _ _ _ _ _ _ _ _ cs => tree_depth_list cs + 1
/-- The number of levels of the deepest tree of a list of objects. -/
def tree_depth_list : List lv_obj_t → Nat
  | [] => 0
  | c :: cs => max (tree_depth c) (tree_depth_list cs)
end

/-- The `while(child)` loop of `report_grid_change_core` (lines 549-553) over the
children of the object at `path`, in the order of `lv_obj_get_child` (the last of the
list first); `visit_child` is the recursive call of line 551. -/
def report_children (visit_child : List Nat → lv_obj_t → outcome (lv_obj_t × List visit))
    (path : List Nat) : List lv_obj_t → outcome (List lv_obj_t × List visit)
  | [] => outcome.done ([], [])
  | child :: rest =>
    (report_children visit_child path rest).bind fun r1 =>
    (visit_child (path ++ [rest.length]) child).bind fun r2 =>
    outcome.done (r2.1 :: r1.1, r1.2 ++ r2.2)

/-- The function `report_grid_change_core` (lines 545-555) on the object at `path`,
with a bound on the depth of the recursion: the object after the call and the visits
in the order of the calls. The argument `grid` is a pointer, the address of a grid
definition or `none` for `NULL`; the pointer `obj->grid` is the address of the grid
definition of the object, and the test of line 547 compares the two addresses. The
children visited are those of the object after its refresh. -/
def report_grid_change_core (E : GridEnv) (S : Scratch) (c0 : lv_grid_calc_t)
    (grid : Option Nat) : Nat → List Nat → lv_obj_t → outcome (lv_obj_t × List visit)
  | 0, _, _ => outcome.no_fuel
  | fuel + 1, path, obj =>
    let called :=
      decide (obj.grid.map lv_grid_t.addr = grid) || (obj.grid.isSome && grid.isNone)
    match (if called then _lv_grid_full_refresh E S c0 obj else some (obj, [])) with
    | none => outcome.undefined
    | some (obj1, ev) =>
      (report_children (fun p o => report_grid_change_core E S c0 grid fuel p o) path
        obj1.children).bind fun r =>
      outcome.done (obj1.update obj1.coords obj1.w_set obj1.h_set r.1, ⟨path, called, ev⟩ :: r.2)

/-- The `_LV_LL_READ` loop of `lv_obj_report_grid_change` (lines 85-87) over the
remaining screens of the display `d`, `s` being the index of the first of them; the
recursion of `report_grid_change_core` is bounded by the depth of the screen. -/
def report_screens (E : GridEnv) (S : Scratch) (c0 : lv_grid_calc_t) (grid : Option Nat)
    (d : Nat) : Nat → List lv_obj_t → outcome (List lv_obj_t × List visit)
  | _, [] => outcome.done ([], [])
  | s, scr :: rest =>
    (report_grid_change_core E S c0 grid (tree_depth scr) [d, s] scr).bind fun r1 =>
    (report_screens E S c0 grid d (s + 1) rest).bind fun r2 =>
    outcome.done (r1.1 :: r2.1, r1.2 ++ r2.2)

/-- The `while(d)` loop of `lv_obj_report_grid_change` (lines 83-89) over the
remaining displays, each one the list of its screens, `d` being the index of the
first of them. -/
def report_displays (E : GridEnv) (S : Scratch) (c0 : lv_grid_calc_t) (grid : Option Nat) :
    Nat → List (List lv_obj_t) → outcome (List (List lv_obj_t) × List visit)
  | _, [] => outcome.done ([], [])
  | d, scr_ll :: rest =>
    (report_screens E S c0 grid d 0 scr_ll).bind fun r1 =>
    (report_displays E S c0 grid (d + 1) rest).bind fun r2 =>
    outcome.done (r1.1 :: r2.1, r1.2 ++ r2.2)

/-- The function `lv_obj_report_grid_change` (lines 79-90) for the pointer `grid`
(an address, `none` for `NULL`) on the displays in the order of `lv_disp_get_next`,
each one the list `scr_ll` of its screens: the displays after the call and the
visits in the order of the calls. -/
def lv_obj_report_grid_change (E : GridEnv) (S : Scratch) (c0 : lv_grid_calc_t)
    (grid : Option Nat) (displays : List (List lv_obj_t)) :
    outcome (List (List lv_obj_t) × List visit) :=
  report_displays E S c0 grid 0 displays

/-! ## A configuration and two containers for the examples -/

/-- A configuration with a 16 bit `lv_coord_t`: `LV_COORD_MAX` is 24576, a track
above it is fractional with the excess as weight, a coordinate from it on is a cell
with position, span and flag in bit fields of 5, 5 and 2 bits. -/
def env16 : GridEnv where
  coord_bits := 16
  is_fr := fun x => decide (24576 < x)
  get_fr := fun x => x - 24576
  is_cell := fun c => decide (24576 ≤ c)
  get_cell_pos := fun c => (c % 32).toNat
  get_cell_span := fun c => (c / 32 % 32).toNat
  get_cell_flag := fun c =>
    match (c / 1024 % 4).toNat with
    | 0 => lv_grid_align.START
    | 1 => lv_grid_align.CENTER
    | 2 => lv_grid_align.END
    | _ => lv_grid_align.STRETCH
  size_auto := 24577
  size_stretch := 24578

/-- Pool buffers filled with the value 7. -/
def scratch7 : Scratch := ⟨fun _ => 7, fun _ => 7, fun _ => 7, fun _ => 7⟩

/-- A `_lv_grid_calc_t` before the calculation. -/
def calc0 : lv_grid_calc_t :=
  ⟨Buf.get (fun _ => 7) 0, Buf.get (fun _ => 7) 0, Buf.get (fun _ => 7) 0,
   Buf.get (fun _ => 7) 0, 0, 0, 0, 0⟩

/-- An object of the given size at the origin with the given cell assignment. -/
def mk_item (x_set y_set w h : Int) : lv_obj_t :=
  lv_obj_t.mk ⟨0, 0, w - 1, h - 1⟩ x_set y_set w h none w h w h 0 0 0 0 []

/-- A container of 100 by 80 with the given grid, content extents and children. -/
def mk_cont (grid : lv_grid_t) (width_fit height_fit : Int) (children : List lv_obj_t) :
    lv_obj_t :=
  lv_obj_t.mk ⟨0, 0, 99, 79⟩ 0 0 100 80 (some grid) width_fit height_fit 0 0 0 0 0 0 children

/-- Columns of 110 and three fractional columns of weight 1. -/
def grid_over : lv_grid_t := ⟨some [110, 24577, 24577, 24577], none, 1⟩

/-- A container with `grid_over` and a content width of 100: the fixed column
exceeds the content width by 10. -/
def cont_over : lv_obj_t := mk_cont grid_over 100 80 []

/-- Columns of 10 and two fractional columns of weights 1 and 2, rows of 20 and a
fractional row of weight 1. -/
def grid_fr : lv_grid_t := ⟨some [10, 24577, 24578], some [20, 24577], 2⟩

/-- A container with `grid_fr` and a content of 100 by 80. -/
def cont_fr : lv_obj_t := mk_cont grid_fr 100 80 []

/-- A container with `grid_fr` and a content of 100 by 80 whose width and height
are `LV_SIZE_AUTO`. -/
def cont_auto : lv_obj_t :=
  lv_obj_t.mk ⟨0, 0, 99, 79⟩ 0 0 24577 24577 (some grid_fr) 100 80 0 0 0 0 0 0 []

/-- Two fixed columns of 10 and 20 and two fixed rows of 30 and 40. -/
def grid_fixed : lv_grid_t := ⟨some [10, 20], some [30, 40], 3⟩

/-- A container with `grid_fixed` and a content of 100 by 80. -/
def cont_fixed : lv_obj_t := mk_cont grid_fixed 100 80 []

/-- Three fractional columns of weight 1. -/
def grid_thirds : lv_grid_t := ⟨some [24577, 24577, 24577], none, 4⟩

/-- A container with `grid_thirds` whose paddings exceed its width: the content
width is -10. -/
def cont_neg : lv_obj_t := mk_cont grid_thirds (-10) 80 []

/-- A container with `grid_thirds` and a content of 100 by 80. -/
def cont_thirds : lv_obj_t := mk_cont grid_thirds 100 80 []

/-- Two fractional rows of weights 1 and 2, implicit columns. -/
def grid_rows_fr : lv_grid_t := ⟨none, some [24577, 24578], 5⟩

/-- A container with `grid_rows_fr` and a content of 100 by 80. -/
def cont_rows_fr : lv_obj_t := mk_cont grid_rows_fr 100 80 []

/-- Two columns, 10 and one fractional, implicit rows. -/
def grid_cols2 : lv_grid_t := ⟨some [10, 24577], none, 6⟩

/-- Two rows, 10 and one fractional, implicit columns. -/
def grid_rows2 : lv_grid_t := ⟨none, some [10, 24577], 7⟩

/-- A container with `grid_cols2` and three children: a grid cell of 5 by 6 and
two children that are not grid cells. -/
def cont_mixed : lv_obj_t :=
  mk_cont grid_cols2 100 80 [mk_item 24576 24576 5 6, mk_item 0 0 50 60, mk_item 3 4 8 3]

/-- Five grid cells of heights 6, 3, 9, 4, 2 and widths 5, 8, 2, 7, 1. -/
def five_cells : List lv_obj_t :=
  [mk_item 24576 24576 5 6, mk_item 24576 24576 8 3, mk_item 24576 24576 2 9,
   mk_item 24576 24576 7 4, mk_item 24576 24576 1 2]

/-- A container with `grid_cols2` and the five grid cells. -/
def cont_cols5 : lv_obj_t := mk_cont grid_cols2 100 80 five_cells

/-- A container with `grid_rows2` and the five grid cells. -/
def cont_rows5 : lv_obj_t := mk_cont grid_rows2 100 80 five_cells

/-- Two columns of 30 and 50 and two rows of 20 and 40. -/
def grid_2x2 : lv_grid_t := ⟨some [30, 50], some [20, 40], 8⟩

/-- The cell assignment of `env16` with the given position, span and flag (0 for
START, 1 for CENTER, 2 for END, 3 for STRETCH). -/
def cell16 (pos span flag : Int) : Int := 24576 + pos + 32 * span + 1024 * flag

/-- A container with `grid_2x2`, a content of 100 by 80 and one child. -/
def cont_2x2 (item : lv_obj_t) : lv_obj_t := mk_cont grid_2x2 100 80 [item]

/-- A grid cell of 10 by 10 at column 1, row 0 of `grid_2x2`, stretched on both
axes. -/
def item_stretch : lv_obj_t := mk_item (cell16 1 1 3) (cell16 0 1 3) 10 10

/-- A grid cell of 35 by 10 at column 0, row 0 of `grid_2x2`, centered on x. -/
def item_center_wide : lv_obj_t := mk_item (cell16 0 1 1) (cell16 0 1 0) 35 10

/-- A grid cell of 10 by 10 at column 0, row 0 of `grid_2x2`, centered on both
axes. -/
def item_center : lv_obj_t := mk_item (cell16 0 1 1) (cell16 0 1 1) 10 10

/-- A grid cell of 10 by 10 spanning the columns 0 and 1 of `grid_2x2` in row 0,
aligned to the end on x. -/
def item_end_span : lv_obj_t := mk_item (cell16 0 2 2) (cell16 0 1 0) 10 10

/-- A grid cell of 10 by 10 in the last column of `grid_2x2`, row 0, aligned to the
end on x. -/
def item_end_last : lv_obj_t := mk_item (cell16 1 1 2) (cell16 0 1 0) 10 10

/-- Pool buffers filled with the value 9. -/
def scratch9 : Scratch := ⟨fun _ => 9, fun _ => 9, fun _ => 9, fun _ => 9⟩

/-- The calculation of `grid_2x2` in a content of 100 by 80 with the pool buffers
`scratch7`: the offsets are 0, 30 and 0, 20, the sizes 30, 50 and 20, 40. -/
def calc_2x2 : lv_grid_calc_t :=
  (_lv_grid_calc env16 scratch7 (cont_2x2 item_center) calc0).getD calc0

/-- The calculation of `grid_2x2` in a content of 100 by 80 with the pool buffers
`scratch9`. -/
def calc_2x2_9 : lv_grid_calc_t :=
  (_lv_grid_calc env16 scratch9 (cont_2x2 item_center) calc0).getD calc0

/-- A container with `grid_2x2`, a content of 100 by 80 and three grid cells: one
stretched on both axes, one centered on both axes, one wider than its column and
centered on x. -/
def cont_three : lv_obj_t :=
  mk_cont grid_2x2 100 80 [item_stretch, item_center, item_center_wide]

/-- The container `cont_three` and the events after a first
`_lv_grid_full_refresh`. -/
def refreshed_three : lv_obj_t × List grid_event :=
  (_lv_grid_full_refresh env16 scratch7 calc0 cont_three).getD (cont_three, [])

/-- An object of 100 by 80 without a grid and with the given children. -/
def mk_plain (children : List lv_obj_t) : lv_obj_t :=
  lv_obj_t.mk ⟨0, 0, 99, 79⟩ 0 0 100 80 none 100 80 0 0 0 0 0 0 children

/-- A grid cell of column 1 and row 0, stretched on both axes, that is a container
with `grid_fr` and no children. -/
def item_nested : lv_obj_t :=
  lv_obj_t.mk ⟨0, 0, 9, 9⟩ (cell16 1 1 3) (cell16 0 1 3) 10 10 (some grid_fr) 10 10 0 0 0 0 0 0 []

/-- A second grid definition with the content of `grid_2x2`, at another address. -/
def grid_2x2_twin : lv_grid_t := ⟨some [30, 50], some [20, 40], 9⟩

/-- Two displays: the first with two screens, an object without a grid over the
containers `cont_fixed` and `cont_three`, and a container with `grid_2x2` over
`item_nested`; the second with one screen, a container with `grid_2x2_twin` over
`item_center`. -/
def two_displays : List (List lv_obj_t) :=
  [[mk_plain [cont_fixed, cont_three], cont_2x2 item_nested],
   [mk_cont grid_2x2_twin 100 80 [item_center]]]

/-- The displays `two_displays` and the visits after the report of a change of
`grid_2x2`. -/
def reported_two : List (List lv_obj_t) × List visit :=
  match lv_obj_report_grid_change env16 scratch7 calc0 (some grid_2x2.addr) two_displays with
  | outcome.done r => r
  | _ => ([], [])

/-- A container with `grid_fr`, a content of 100 by 80 and one grid cell of 5 by 5
at column 1 and row 0. -/
def cont_fr_cell : lv_obj_t :=
  mk_cont grid_fr 100 80 [mk_item (cell16 1 1 0) (cell16 0 1 0) 5 5]

/-- A grid cell of 10 by 10 at column 1 and row 0, stretched on both axes, without a
grid and with the child `cont_fr_cell`. -/
def item_holder : lv_obj_t :=
  lv_obj_t.mk ⟨0, 0, 9, 9⟩ (cell16 1 1 3) (cell16 0 1 3) 10 10 none 10 10 0 0 0 0 0 0
    [cont_fr_cell]

/-- One display with one screen: a container with `grid_2x2` over `item_holder`. -/
def nested_displays : List (List lv_obj_t) := [[cont_2x2 item_holder]]

/-- The displays `nested_displays` and the visits after the report of a change of
`grid_2x2`. -/
def reported_nested : List (List lv_obj_t) × List visit :=
  match lv_obj_report_grid_change env16 scratch7 calc0 (some grid_2x2.addr) nested_displays with
  | outcome.done r => r
  | _ => ([], [])

/-- Two columns of 10000 and 50 and two rows of 20 and 40. -/
def grid_far : lv_grid_t := ⟨some [10000, 50], some [20, 40], 10⟩

/-- A container with `grid_far` whose box starts at the absolute position
(30000, 0), with one grid cell of 10 by 10 at column 1 and row 0, aligned to the
start on both axes: its absolute target is (40000, 0). -/
def cont_far : lv_obj_t :=
  lv_obj_t.mk ⟨30000, 0, 30099, 79⟩ 0 0 100 80 (some grid_far) 100 80 0 0 0 0 0 0
    [mk_item (cell16 1 1 0) (cell16 0 1 0) 10 10]

/-- The container `cont_far` and the events after a first `_lv_grid_full_refresh`. -/
def refreshed_far : lv_obj_t × List grid_event :=
  (_lv_grid_full_refresh env16 scratch7 calc0 cont_far).getD (cont_far, [])

/-- The container `cont_2x2 item_end_last` and the events after a first
`_lv_grid_full_refresh`, the pool buffers holding 7. -/
def refreshed_end : lv_obj_t × List grid_event :=
  (_lv_grid_full_refresh env16 scratch7 calc0 (cont_2x2 item_end_last)).getD
    (cont_2x2 item_end_last, [])

/-- Three columns of 20000, 20000 and 10, and the same rows. -/
def grid_wide : lv_grid_t := ⟨some [20000, 20000, 10], some [20000, 20000, 10], 11⟩

/-- A container with `grid_wide`, a content of 100 by 80 and no children. -/
def cont_wide : lv_obj_t := mk_cont grid_wide 100 80 []

/-! ## Quantities of the specification -/

/-- Sum of the declared sizes of the fixed tracks of a descriptor. -/
def fixed_total (E : GridEnv) (dsc : List Int) : Int :=
  (dsc.filter (fun x => !E.is_fr x)).sum

/-- Sum of the weights of the fractional tracks of a descriptor. -/
def fr_total (E : GridEnv) (dsc : List Int) : Int :=
  ((dsc.filter E.is_fr).map E.get_fr).sum

/-- Free space of an axis: the content extent minus the fixed sizes. -/
def free_space (E : GridEnv) (dsc : List Int) (fit : Int) : Int :=
  fit - fixed_total E dsc

/-- Sum of the first `n` entries of a buffer. -/
def Buf.sum_to (b : Buf) (n : Nat) : Int :=
  ((List.range n).map b.mem).sum

/-- Explicit-axis fractional sizing as the specification states it: every
fractional track `i` has size `floor(F * w_i / W)` and every fixed track its
declared size, `F` being the free space and `W` the sum of the weights. -/
def fr_sized (E : GridEnv) (dsc : List Int) (fit : Int) (sz : Buf) : Prop :=
  ∀ i x, dsc[i]? = some x →
    sz.mem i =
      if E.is_fr x then Int.fdiv (free_space E dsc fit * E.get_fr x) (fr_total E dsc) else x

/-- The values of an axis are in the range of the machine types: the free space is a
non-negative `lv_coord_t`, every weight is a non-negative `lv_coord_t`, the sum of
the weights is a `uint32_t`, positive when there is a fractional track, and every
product of the free space with a weight is an `int`. -/
def fr_in_range (E : GridEnv) (dsc : List Int) (fit : Int) : Prop :=
  0 ≤ free_space E dsc fit ∧ E.in_coord (free_space E dsc fit) ∧
  (∀ x ∈ dsc, E.is_fr x = true → 0 ≤ E.get_fr x ∧ E.in_coord (E.get_fr x)) ∧
  fr_total E dsc < 4294967296 ∧
  ((∃ x ∈ dsc, E.is_fr x = true) → 0 < fr_total E dsc) ∧
  (∀ x ∈ dsc, E.is_fr x = true → free_space E dsc fit * E.get_fr x < 2147483648)

/-- The total extent of an axis with offsets `off`, sizes `sz` and `n` tracks is
`total`: it is `off[n-1] + sz[n-1] - off[0]` and the sum of the `n` sizes, both
stored in an `lv_coord_t`, and both exactly when no partial sum of the sizes leaves
the range of `lv_coord_t`. -/
def extent_is (E : GridEnv) (off sz : Buf) (n : Nat) (total : Int) : Prop :=
  total = E.coord (off.mem (n - 1) + sz.mem (n - 1) - off.mem 0) ∧
  total = E.coord (sz.sum_to n) ∧
  ((∀ k, k ≤ n → E.in_coord (sz.sum_to k)) →
    total = off.mem (n - 1) + sz.mem (n - 1) - off.mem 0 ∧ total = sz.sum_to n)

/-- What the scan of the children has done when it returns `res` from the cursor
`(e, t)` and the buffer `sz`, `cells` being the grid-cell children visited, the
`k`-th of which lands in the track `(t * n + e + k) / n`: the cursor has advanced by
the number of cells; the tracks before `t` are untouched; the size of a track is at
least the natural size `f` of every cell landing in it, and it is the natural size
of one of them or the start value (the old content for the track `t`, 0 for the
later ones). -/
def scan_post (n : Nat) (f : lv_obj_t → Int) (cells : List lv_obj_t) (e t : Nat) (sz : Buf)
    (res : Nat × Nat × Buf) : Prop :=
  res.2.1 * n + res.1 = t * n + e + cells.length ∧
  res.1 < n ∧
  t ≤ res.2.1 ∧
  (∀ j, j < t → res.2.2.mem j = sz.mem j) ∧
  (∀ k x, cells[k]? = some x → f x ≤ res.2.2.mem ((t * n + e + k) / n)) ∧
  (∀ r, t ≤ r → r ≤ res.2.1 →
    res.2.2.mem r = (if r = t then sz.mem t else 0) ∨
    ∃ k x, cells[k]? = some x ∧ (t * n + e + k) / n = r ∧ res.2.2.mem r = f x) ∧
  (∀ r, t ≤ r → r ≤ res.2.1 → (if r = t then sz.mem t else 0) ≤ res.2.2.mem r)

/-- The ceiling of the quotient `a / n`, taken in the rationals. -/
def ceil_div (a n : Nat) : Nat := ⌈(a : ℚ) / (n : ℚ)⌉₊

/-- The grid-cell children of a container, in the order of
`lv_obj_get_child_back`. -/
def grid_cells (E : GridEnv) (cont : lv_obj_t) : List lv_obj_t :=
  cont.children.filter (is_grid_cell E)

/-- The size `sz[r]` of the implicit track `r` is the maximum of the natural sizes
`f` of the cells landing in it, the `k`-th cell landing in the track `k / n`: it is
at least each of them, and it is one of them as soon as one of them is not
negative (the scan starts every track at 0). -/
def track_is_max (n : Nat) (f : lv_obj_t → Int) (cells : List lv_obj_t) (sz : Buf) (r : Nat) :
    Prop :=
  (∀ k x, cells[k]? = some x → k / n = r → f x ≤ sz.mem r) ∧
  ((∃ k x, cells[k]? = some x ∧ k / n = r ∧ 0 ≤ f x) →
    ∃ k x, cells[k]? = some x ∧ k / n = r ∧ sz.mem r = f x)

/-- The explicit resolution of a descriptor reaches its end: there is a track, and
on an axis that is not auto-sized a fractional track comes with a non-zero
`uint32_t` weight sum. -/
def explicit_ok (E : GridEnv) (dsc : List Int) (auto_sz : Bool) : Prop :=
  dsc ≠ [] ∧ (auto_sz = false → (∃ x ∈ dsc, E.is_fr x = true) → u32 (fr_total E dsc) ≠ 0)

/-- The spans of a cell have a last track: on both axes `1 ≤ pos + span`, and the
index `pos + span - 1` is a `uint32_t` below 4294967295. -/
def span_ok (s : cell_span_t) : Prop :=
  1 ≤ s.col_pos + s.col_span ∧ s.col_pos + s.col_span < 4294967296 ∧
  1 ≤ s.row_pos + s.row_span ∧ s.row_pos + s.row_span < 4294967296

/-- Start of the span of tracks `[pos, pos + span - 1]`: `offset[pos]`. -/
def span_start (off : Buf) (pos : Nat) : Int := off.mem pos

/-- End of the span of tracks `[pos, pos + span - 1]`:
`offset[pos + span - 1] + size[pos + span - 1]`. -/
def span_end (off sz : Buf) (pos span : Nat) : Int :=
  off.mem (pos + span - 1) + sz.mem (pos + span - 1)

/-- Length of the span of tracks `[pos, pos + span - 1]`: its end minus its
start. -/
def span_length (off sz : Buf) (pos span : Nat) : Int :=
  span_end off sz pos span - span_start off pos

/-- Two states of a child that the calculation of the grid does not tell apart: the
same answer to the grid cell test and the same natural width and height. -/
def same_measure (E : GridEnv) (a b : lv_obj_t) : Prop :=
  is_grid_cell E b = is_grid_cell E a ∧ natural_width E b = natural_width E a ∧
  natural_height E b = natural_height E a

/-- The decisions of `item_repos` among the events. -/
def decisions : List grid_event → List repos_t
  | [] => []
  | grid_event.repos _ r :: ev => r :: decisions ev
  | _ :: ev => decisions ev

/-- Every absolute target among the events is representable in `lv_coord_t`: for
every decision `r` taken for an item of a container whose content is at `origin`,
`origin + (r.x, r.y)` is an `lv_coord_t` point. -/
def targets_in_range (E : GridEnv) (ev : List grid_event) : Prop :=
  ∀ o r, grid_event.repos o r ∈ ev → E.in_coord (o.x + r.x) ∧ E.in_coord (o.y + r.y)

/-- The test of `targets_in_range` on the events one by one. -/
def targets_in_range_check (E : GridEnv) : List grid_event → Bool
  | [] => true
  | grid_event.repos o r :: ev =>
    decide (-(2 ^ (E.coord_bits - 1)) ≤ o.x + r.x ∧ o.x + r.x < 2 ^ (E.coord_bits - 1)) &&
    decide (-(2 ^ (E.coord_bits - 1)) ≤ o.y + r.y ∧ o.y + r.y < 2 ^ (E.coord_bits - 1)) &&
    targets_in_range_check E ev
  | _ :: ev => targets_in_range_check E ev

/-- The grid pointers of the tree of an object: the pointer of the object and the
trees of its children. -/
inductive grid_tree where
  | node (grid : Option lv_grid_t) (children : List grid_tree)

mutual
/-- The grid pointers of the tree of an object. -/
def skeleton : lv_obj_t → grid_tree
  | lv_obj_t.mk _ _ _ _ _ g _ _ _ _ _ _ _ _ cs => grid_tree.node g (skeleton_list cs)
/-- The grid pointers of the trees of a list of objects. -/
def skeleton_list : List lv_obj_t → List grid_tree
  | [] => []
  | c :: cs => skeleton c :: skeleton_list cs
end

mutual
/-- The objects of a tree whose root is at `path`, depth first, an object before its
children and the children in the order of `lv_obj_get_child` (the last of the list
first): each object once, with its grid pointer. -/
def preorder : grid_tree → List Nat → List (List Nat × Option lv_grid_t)
  | grid_tree.node g cs, path => (path, g) :: preorder_children cs path
/-- The objects of the trees of the children of the object at `path`, depth first. -/
def preorder_children : List grid_tree → List Nat → List (List Nat × Option lv_grid_t)
  | [], _ => []
  | c :: rest, path => preorder_children rest path ++ preorder c (path ++ [rest.length])
end

/-- The objects of the remaining screens of the display `d`, depth first, screen
after screen. -/
def preorder_screens (d : Nat) : Nat → List lv_obj_t → List (List Nat × Option lv_grid_t)
  | _, [] => []
  | s, scr :: rest => preorder (skeleton scr) [d, s] ++ preorder_screens d (s + 1) rest

/-- The objects of all screens of the remaining displays, depth first, display
after display. -/
def preorder_displays : Nat → List (List lv_obj_t) → List (List Nat × Option lv_grid_t)
  | _, [] => []
  | d, scr_ll :: rest => preorder_screens d 0 scr_ll ++ preorder_displays (d + 1) rest

/-- The call of `_lv_grid_full_refresh` of a visit went past line 176 and ran the
grid calculation. -/
def visit.effective (v : visit) : Bool := decide (grid_event.calc_run ∈ v.events)

/-- A visit agrees with the object `(path, grid definition)` for the reported
pointer `D`: it is a visit of this object; when `D` is not `NULL`, the full refresh
is called, and effective, exactly when the grid pointer of the object, the address
of its grid definition, is `D`; when `D` is `NULL`, the full refresh is effective
exactly when the grid pointer of the object is not `NULL`. -/
def visit_agrees (D : Option Nat) (v : visit) (o : List Nat × Option lv_grid_t) : Prop :=
  v.path = o.1 ∧
  (∀ d, D = some d → ((v.called = true ↔ o.2.map lv_grid_t.addr = some d) ∧
    (v.effective = true ↔ o.2.map lv_grid_t.addr = some d))) ∧
  (D = none → (v.effective = true ↔ o.2 ≠ none))

/-- The visits of a traversal, none without a result. -/
def outcome.visits {α : Type} : outcome (α × List visit) → List visit
  | outcome.done r => r.2
  | _ => []

/-- The event of a refresh, whichever refresh it is an event of. -/
def grid_event.base : grid_event → grid_event
  | grid_event.nested e => grid_event.base e
  | e => e

/-- The number of full refreshes that ran the grid calculation among the events, the
refreshes run by `item_repos` included. -/
def refresh_count (ev : List grid_event) : Nat :=
  ((ev.map grid_event.base).filter (fun e => decide (e = grid_event.calc_run))).length

/-- The values of an axis are in the range of the machine types, with a free space
of either sign: the free space is an `lv_coord_t`, every weight is a non-negative
`lv_coord_t`, the sum of the weights is a `uint32_t`, positive when there is a
fractional track, and every product of the free space with a weight is an `int`. -/
def fr_signed_range (E : GridEnv) (dsc : List Int) (fit : Int) : Prop :=
  E.in_coord (free_space E dsc fit) ∧
  (∀ x ∈ dsc, E.is_fr x = true → 0 ≤ E.get_fr x ∧ E.in_coord (E.get_fr x)) ∧
  fr_total E dsc < 4294967296 ∧
  ((∃ x ∈ dsc, E.is_fr x = true) → 0 < fr_total E dsc) ∧
  (∀ x ∈ dsc, E.is_fr x = true →
    -2147483648 ≤ free_space E dsc fit * E.get_fr x ∧
    free_space E dsc fit * E.get_fr x < 2147483648)

/-- What the code stores for the fractional tracks of an explicit axis, `F` being
the free space and `W` the sum of the weights: the size of every fractional track
`i` is the quotient by `W` of the product `F * w_i` converted to `uint32_t`, stored
in an `lv_coord_t`. With `F ≥ 0` this is `F * w_i / W` truncated toward zero, as the
specification states; with a negative product it is the quotient of
`F * w_i + 2^32`. -/
def fr_unsigned_quotient (E : GridEnv) (dsc : List Int) (fit : Int) (sz : Buf) : Prop :=
  ∀ i x, dsc[i]? = some x → E.is_fr x = true →
    sz.mem i = E.coord (u32 (free_space E dsc fit * E.get_fr x) / fr_total E dsc) ∧
    (0 ≤ free_space E dsc fit →
      sz.mem i = Int.tdiv (free_space E dsc fit * E.get_fr x) (fr_total E dsc)) ∧
    (free_space E dsc fit * E.get_fr x < 0 →
      sz.mem i =
        E.coord ((free_space E dsc fit * E.get_fr x + 4294967296) / fr_total E dsc))

end LvGrid


namespace LvGrid

/-! ## Machine integers: lemmas -/

theorem wrap_signed_modEq (bits : Nat) (v : Int) :
    wrap_signed bits v ≡ v [ZMOD 2 ^ bits] := by
  unfold wrap_signed
  have h := (Int.mod_modEq (v + 2 ^ (bits - 1)) (2 ^ bits)).sub_right (2 ^ (bits - 1))
  simpa using h

theorem wrap_signed_congr {bits : Nat} {a b : Int} (h : a ≡ b [ZMOD 2 ^ bits]) :
    wrap_signed bits a = wrap_signed bits b := by
  unfold wrap_signed
  have h1 : (a + 2 ^ (bits - 1)) % 2 ^ bits = (b + 2 ^ (bits - 1)) % 2 ^ bits :=
    h.add_right _
  rw [h1]

theorem wrap_signed_of_in {bits : Nat} (hb : 1 ≤ bits) {v : Int}
    (h1 : -(2 ^ (bits - 1)) ≤ v) (h2 : v < 2 ^ (bits - 1)) : wrap_signed bits v = v := by
  unfold wrap_signed
  have hm : (2 : Int) ^ bits = 2 * 2 ^ (bits - 1) := by
    obtain ⟨k, rfl⟩ : ∃ k, bits = k + 1 := ⟨bits - 1, by omega⟩
    simp [pow_succ, mul_comm]
  rw [Int.emod_eq_of_lt (by linarith) (by linarith)]
  ring

theorem coord_modEq (E : GridEnv) (v : Int) : E.coord v ≡ v [ZMOD 2 ^ E.coord_bits] :=
  wrap_signed_modEq _ _

theorem coord_congr (E : GridEnv) {a b : Int} (h : a ≡ b [ZMOD 2 ^ E.coord_bits]) :
    E.coord a = E.coord b :=
  wrap_signed_congr h

theorem coord_of_in (E : GridEnv) (hb : 1 ≤ E.coord_bits) {v : Int} (h : E.in_coord v) :
    E.coord v = v :=
  wrap_signed_of_in hb h.1 h.2

theorem u32_of_in {v : Int} (h1 : 0 ≤ v) (h2 : v < 4294967296) : u32 v = v :=
  Int.emod_eq_of_lt h1 h2

theorem u32_add_u32 (a b : Int) : u32 (u32 a + b) = u32 (a + b) := by
  unfold u32
  exact Int.emod_add_cancel_right b |>.mpr (Int.emod_emod_of_dvd a (dvd_refl _))

/-! ## Buffers: lemmas -/

theorem Buf.mem_write (b : Buf) (i j : Nat) (v : Int) :
    (b.write i v).mem j = if j = i then v else b.mem j := rfl

theorem Buf.mem_write_same (b : Buf) (i : Nat) (v : Int) : (b.write i v).mem i = v := by
  simp [Buf.mem_write]

theorem Buf.mem_write_ne (b : Buf) {i j : Nat} (v : Int) (h : j ≠ i) :
    (b.write i v).mem j = b.mem j := by
  simp [Buf.mem_write, h]

/-! ## Explicit tracks: lemmas -/

theorem fixed_total_cons (E : GridEnv) (x : Int) (xs : List Int) :
    fixed_total E (x :: xs) = (if E.is_fr x then 0 else x) + fixed_total E xs := by
  unfold fixed_total
  cases h : E.is_fr x <;> simp [List.filter_cons, h]

theorem fr_total_cons (E : GridEnv) (x : Int) (xs : List Int) :
    fr_total E (x :: xs) = (if E.is_fr x then E.get_fr x else 0) + fr_total E xs := by
  unfold fr_total
  cases h : E.is_fr x <;> simp [List.filter_cons, h]

theorem explicit_scan_fr (E : GridEnv) (xs : List Int) :
    ∀ (i : Nat) (fr g : Int) (sz : Buf), u32 fr = fr →
      (explicit_scan E xs i fr g sz).1 = u32 (fr + fr_total E xs) := by
  induction xs with
  | nil => intro i fr g sz h; simp [explicit_scan, fr_total, h]
  | cons x xs ih =>
    intro i fr g sz h
    rw [explicit_scan, fr_total_cons]
    by_cases hx : E.is_fr x = true
    · simp only [hx, if_true]
      rw [ih _ _ _ _ (by unfold u32; exact Int.emod_emod_of_dvd _ (dvd_refl _)), u32_add_u32,
        add_assoc]
    · simp only [hx, Bool.false_eq_true, if_false]
      rw [ih _ _ _ _ h, zero_add]

theorem explicit_scan_grid (E : GridEnv) (xs : List Int) :
    ∀ (i : Nat) (fr g : Int) (sz : Buf),
      (explicit_scan E xs i fr g sz).2.1 ≡ g + fixed_total E xs [ZMOD 2 ^ E.coord_bits] := by
  induction xs with
  | nil => intro i fr g sz; simp [explicit_scan, fixed_total]
  | cons x xs ih =>
    intro i fr g sz
    rw [explicit_scan, fixed_total_cons]
    by_cases hx : E.is_fr x = true
    · simp only [hx, if_true]
      simpa using ih (i + 1) (u32 (fr + E.get_fr x)) g sz
    · simp only [hx, Bool.false_eq_true, if_false]
      have h1 := ih (i + 1) fr (E.coord (g + x)) (sz.write i x)
      have h2 : E.coord (g + x) + fixed_total E xs ≡ g + x + fixed_total E xs
          [ZMOD 2 ^ E.coord_bits] := (coord_modEq E (g + x)).add_right _
      have h3 := h1.trans h2
      simpa [add_assoc] using h3

theorem explicit_scan_mem_lt (E : GridEnv) (xs : List Int) :
    ∀ (i : Nat) (fr g : Int) (sz : Buf) (j : Nat), j < i →
      (explicit_scan E xs i fr g sz).2.2.mem j = sz.mem j := by
  induction xs with
  | nil => intro i fr g sz j _; simp [explicit_scan]
  | cons x xs ih =>
    intro i fr g sz j hj
    rw [explicit_scan]
    by_cases hx : E.is_fr x = true
    · simp only [hx, if_true]
      exact ih _ _ _ _ j (by omega)
    · simp only [hx, Bool.false_eq_true, if_false]
      rw [ih _ _ _ _ j (by omega), Buf.mem_write_ne _ _ (by omega)]

theorem explicit_scan_mem (E : GridEnv) (xs : List Int) :
    ∀ (i : Nat) (fr g : Int) (sz : Buf) (k : Nat) (x : Int), xs[k]? = some x →
      (explicit_scan E xs i fr g sz).2.2.mem (i + k) =
        if E.is_fr x then sz.mem (i + k) else x := by
  induction xs with
  | nil => intro i fr g sz k x h; simp at h
  | cons y ys ih =>
    intro i fr g sz k x h
    rw [explicit_scan]
    cases k with
    | zero =>
      simp at h
      subst h
      by_cases hx : E.is_fr y = true
      · simp only [hx, if_true]
        exact explicit_scan_mem_lt E ys _ _ _ _ _ (by omega)
      · simp only [hx, Bool.false_eq_true, if_false]
        rw [explicit_scan_mem_lt E ys _ _ _ _ _ (by omega)]
        simp [Buf.mem_write]
    | succ k =>
      simp at h
      have e : i + (k + 1) = (i + 1) + k := by omega
      by_cases hy : E.is_fr y = true
      · simp only [hy, if_true]
        rw [e, ih _ _ _ _ k x h]
      · simp only [hy, Bool.false_eq_true, if_false]
        rw [e, ih _ _ _ _ k x h, Buf.mem_write_ne _ _ (by omega)]

theorem explicit_fr_some (E : GridEnv) (auto_sz : Bool) (free fr_cnt : Int) (xs : List Int)
    (h : auto_sz = false → (∃ x ∈ xs, E.is_fr x = true) → fr_cnt ≠ 0) :
    ∀ (i : Nat) (sz : Buf), ∃ sz1, explicit_fr E auto_sz free fr_cnt xs i sz = some sz1 := by
  induction xs with
  | nil => intro i sz; exact ⟨sz, rfl⟩
  | cons x xs ih =>
    intro i sz
    have h1 : auto_sz = false → (∃ y ∈ xs, E.is_fr y = true) → fr_cnt ≠ 0 := by
      intro ha ⟨y, hy, hfr⟩
      exact h ha ⟨y, List.mem_cons_of_mem _ hy, hfr⟩
    rw [explicit_fr]
    by_cases hx : E.is_fr x = true
    · simp only [hx, if_true]
      by_cases ha : auto_sz = true
      · rw [if_pos ha]
        exact ih h1 (i + 1) _
      · have hne : fr_cnt ≠ 0 := h (by simpa using ha) ⟨x, List.mem_cons_self _ _, hx⟩
        rw [if_neg ha]
        simp only [hne, if_false]
        exact ih h1 (i + 1) _
    · simp only [hx, Bool.false_eq_true, if_false]
      exact ih h1 (i + 1) sz

theorem explicit_fr_mem_lt (E : GridEnv) (auto_sz : Bool) (free fr_cnt : Int) (xs : List Int) :
    ∀ (i : Nat) (sz sz1 : Buf) (j : Nat), explicit_fr E auto_sz free fr_cnt xs i sz = some sz1 →
      j < i → sz1.mem j = sz.mem j := by
  induction xs with
  | nil =>
    intro i sz sz1 j h _
    simp [explicit_fr] at h
    rw [h]
  | cons x xs ih =>
    intro i sz sz1 j h hj
    rw [explicit_fr] at h
    by_cases hx : E.is_fr x = true
    · simp only [hx, if_true] at h
      by_cases ha : auto_sz = true
      · rw [if_pos ha] at h
        rw [ih _ _ _ j h (by omega), Buf.mem_write_ne _ _ (by omega)]
      · rw [if_neg ha] at h
        by_cases h0 : fr_cnt = 0
        · simp [h0] at h
        · simp only [h0, if_false] at h
          rw [ih _ _ _ j h (by omega), Buf.mem_write_ne _ _ (by omega)]
    · simp only [hx, Bool.false_eq_true, if_false] at h
      exact ih _ _ _ j h (by omega)

theorem explicit_fr_mem (E : GridEnv) (auto_sz : Bool) (free fr_cnt : Int) (xs : List Int) :
    ∀ (i : Nat) (sz sz1 : Buf) (k : Nat) (x : Int),
      explicit_fr E auto_sz free fr_cnt xs i sz = some sz1 → xs[k]? = some x →
      sz1.mem (i + k) =
        if E.is_fr x then fr_value E auto_sz free fr_cnt x else sz.mem (i + k) := by
  induction xs with
  | nil => intro i sz sz1 k x _ h; simp at h
  | cons y ys ih =>
    intro i sz sz1 k x h hk
    rw [explicit_fr] at h
    cases k with
    | zero =>
      simp at hk
      subst hk
      by_cases hx : E.is_fr y = true
      · simp only [hx, if_true] at h ⊢
        by_cases ha : auto_sz = true
        · rw [if_pos ha] at h
          rw [explicit_fr_mem_lt E _ _ _ ys _ _ _ _ h (by omega)]
          simp [Buf.mem_write, fr_value, ha]
        · rw [if_neg ha] at h
          by_cases h0 : fr_cnt = 0
          · simp [h0] at h
          · simp only [h0, if_false] at h
            rw [explicit_fr_mem_lt E _ _ _ ys _ _ _ _ h (by omega)]
            simp [Buf.mem_write, fr_value, ha]
      · simp only [hx, Bool.false_eq_true, if_false] at h ⊢
        exact explicit_fr_mem_lt E _ _ _ ys _ _ _ _ h (by omega)
    | succ k =>
      simp at hk
      have e : i + (k + 1) = (i + 1) + k := by omega
      by_cases hy : E.is_fr y = true
      · simp only [hy, if_true] at h
        by_cases ha : auto_sz = true
        · rw [if_pos ha] at h
          rw [e, ih _ _ _ k x h hk, Buf.mem_write_ne _ _ (by omega)]
        · rw [if_neg ha] at h
          by_cases h0 : fr_cnt = 0
          · simp [h0] at h
          · simp only [h0, if_false] at h
            rw [e, ih _ _ _ k x h hk, Buf.mem_write_ne _ _ (by omega)]
      · simp only [hy, Bool.false_eq_true, if_false] at h
        rw [e, ih _ _ _ k x h hk]

theorem prefix_loop_mem_le (E : GridEnv) (sz : Buf) :
    ∀ (k i : Nat) (off : Buf) (j : Nat), j ≤ i →
      (prefix_loop E sz k i off).mem j = off.mem j := by
  intro k
  induction k with
  | zero => intro i off j _; rfl
  | succ k ih =>
    intro i off j hj
    rw [prefix_loop, ih _ _ j (by omega), Buf.mem_write_ne _ _ (by omega)]

theorem prefix_loop_step (E : GridEnv) (sz : Buf) :
    ∀ (k i : Nat) (off : Buf) (j : Nat), i ≤ j → j < i + k →
      (prefix_loop E sz k i off).mem (j + 1) =
        E.coord ((prefix_loop E sz k i off).mem j + sz.mem j) := by
  intro k
  induction k with
  | zero => intro i off j h1 h2; omega
  | succ k ih =>
    intro i off j h1 h2
    rw [prefix_loop]
    by_cases hji : j = i
    · subst hji
      rw [prefix_loop_mem_le E sz k _ _ (j + 1) (le_refl _),
        prefix_loop_mem_le E sz k _ _ j (by omega), Buf.mem_write_same,
        Buf.mem_write_ne _ _ (by omega)]
    · exact ih _ _ j (by omega) (by omega)

/-- The offsets written by the prefix loop are, in `lv_coord_t` arithmetic, the
sums of the sizes before them. -/
theorem prefix_loop_sum (E : GridEnv) (sz off : Buf) (n : Nat) (h0 : off.mem 0 = 0) :
    ∀ j, j ≤ n → (prefix_loop E sz n 0 off).mem j ≡ sz.sum_to j [ZMOD 2 ^ E.coord_bits] := by
  intro j
  induction j with
  | zero =>
    intro _
    rw [prefix_loop_mem_le E sz n 0 off 0 (le_refl _), h0]
    simp [Buf.sum_to]
  | succ j ih =>
    intro hj
    rw [prefix_loop_step E sz n 0 off j (by omega) (by omega)]
    have h1 := (coord_modEq E ((prefix_loop E sz n 0 off).mem j + sz.mem j)).trans
      ((ih (by omega)).add_right (sz.mem j))
    simpa [Buf.sum_to, List.range_succ] using h1

/-- What `calc_explicit` returns: it has a result as soon as `explicit_ok` holds; a
fixed track keeps its declared size, a fractional track gets `fr_value`; the offsets
start at 0 and each next one is the previous offset plus the previous size, stored
in an `lv_coord_t`. -/
theorem calc_explicit_spec (E : GridEnv) (dsc : List Int) (auto_sz : Bool) (fit : Int)
    (off sz : Buf) (hok : explicit_ok E dsc auto_sz) :
    ∃ off1 sz1, calc_explicit E dsc auto_sz fit off sz = some (off1, sz1) ∧
      (∀ k x, dsc[k]? = some x → sz1.mem k =
        if E.is_fr x then
          fr_value E auto_sz (E.coord (free_space E dsc fit)) (u32 (fr_total E dsc)) x
        else x) ∧
      off1.mem 0 = 0 ∧
      (∀ i, i + 1 < dsc.length → off1.mem (i + 1) = E.coord (off1.mem i + sz1.mem i)) ∧
      (∀ j, j < dsc.length → off1.mem j ≡ sz1.sum_to j [ZMOD 2 ^ E.coord_bits]) := by
  obtain ⟨hne, hdiv⟩ := hok
  have hlen : dsc.length ≠ 0 := by
    intro h
    exact hne (List.length_eq_zero.mp h)
  unfold calc_explicit
  rw [if_neg hlen]
  rcases hs : explicit_scan E dsc 0 0 0 sz with ⟨fr_cnt, grid_sz, sz1⟩
  have hfr : fr_cnt = u32 (fr_total E dsc) := by
    have := explicit_scan_fr E dsc 0 0 0 sz rfl
    rw [hs] at this
    simpa using this
  have hgrid : grid_sz ≡ fixed_total E dsc [ZMOD 2 ^ E.coord_bits] := by
    have := explicit_scan_grid E dsc 0 0 0 sz
    rw [hs] at this
    simpa using this
  have hfree : E.coord (fit - grid_sz) = E.coord (free_space E dsc fit) :=
    coord_congr E ((Int.ModEq.refl fit).sub hgrid)
  obtain ⟨sz2, h2⟩ := explicit_fr_some E auto_sz (E.coord (fit - grid_sz)) fr_cnt dsc
    (by rw [hfr]; exact hdiv) 0 sz1
  simp only [h2]
  refine ⟨_, _, rfl, ?_, ?_, ?_, ?_⟩
  · intro k x hk
    have h3 := explicit_fr_mem E _ _ _ dsc 0 sz1 sz2 k x h2 hk
    have h4 := explicit_scan_mem E dsc 0 0 0 sz k x hk
    rw [hs] at h4
    simp only [zero_add] at h3 h4
    rw [h3, hfree, hfr]
    by_cases hx : E.is_fr x = true
    · simp [hx]
    · simp only [hx, Bool.false_eq_true, if_false] at h4 ⊢
      exact h4
  · rw [prefix_loop_mem_le E sz2 _ 0 _ 0 (le_refl _), Buf.mem_write_same]
  · intro i hi
    exact prefix_loop_step E sz2 _ 0 _ i (by omega) (by omega)
  · intro j hj
    exact prefix_loop_sum E sz2 _ _ (Buf.mem_write_same _ _ _) j (by omega)

theorem calc_explicit_cols_eq (E : GridEnv) (S : Scratch) (cont : lv_obj_t) (g : lv_grid_t)
    (c : lv_grid_calc_t) (dsc : List Int) (hd : g.col_dsc = some dsc) (off sz : Buf)
    (h : calc_explicit E dsc (decide (cont.w_set = E.size_auto)) cont.width_fit
      (Buf.get S.x dsc.length) (Buf.get S.w dsc.length) = some (off, sz)) :
    calc_explicit_cols E S cont g c = some { c with col_num := dsc.length, x := off, w := sz } := by
  unfold calc_explicit_cols
  simp only [lv_grid_t.col_dsc_len, hd, Option.getD_some, h]

theorem calc_explicit_rows_eq (E : GridEnv) (S : Scratch) (cont : lv_obj_t) (g : lv_grid_t)
    (c : lv_grid_calc_t) (dsc : List Int) (hd : g.row_dsc = some dsc) (off sz : Buf)
    (h : calc_explicit E dsc (decide (cont.h_set = E.size_auto)) cont.height_fit
      (Buf.get S.y dsc.length) (Buf.get S.h dsc.length) = some (off, sz)) :
    calc_explicit_rows E S cont g c = some { c with row_num := dsc.length, y := off, h := sz } := by
  unfold calc_explicit_rows
  simp only [lv_grid_t.row_dsc_len, hd, Option.getD_some, h]

theorem fr_total_nonneg (E : GridEnv) (dsc : List Int)
    (hw : ∀ x ∈ dsc, E.is_fr x = true → 0 ≤ E.get_fr x) : 0 ≤ fr_total E dsc := by
  induction dsc with
  | nil => simp [fr_total]
  | cons y ys ih =>
    rw [fr_total_cons]
    have h1 := ih (fun x hx => hw x (List.mem_cons_of_mem _ hx))
    by_cases hy : E.is_fr y = true
    · have := hw y (List.mem_cons_self _ _) hy
      simp only [hy, if_true]
      omega
    · simp only [hy, Bool.false_eq_true, if_false]
      omega

theorem get_fr_le_total (E : GridEnv) (dsc : List Int)
    (hw : ∀ x ∈ dsc, E.is_fr x = true → 0 ≤ E.get_fr x) :
    ∀ x ∈ dsc, E.is_fr x = true → E.get_fr x ≤ fr_total E dsc := by
  induction dsc with
  | nil => intro x hx; simp at hx
  | cons y ys ih =>
    intro x hx hfr
    rw [fr_total_cons]
    have hw1 : ∀ x ∈ ys, E.is_fr x = true → 0 ≤ E.get_fr x :=
      fun x hx => hw x (List.mem_cons_of_mem _ hx)
    have h0 := fr_total_nonneg E ys hw1
    rcases List.mem_cons.mp hx with rfl | hx1
    · simp only [hfr, if_true]
      omega
    · have h1 := ih hw1 x hx1 hfr
      by_cases hy : E.is_fr y = true
      · have := hw y (List.mem_cons_self _ _) hy
        simp only [hy, if_true]
        omega
      · simp only [hy, Bool.false_eq_true, if_false]
        omega

/-- In range, the size stored for a fractional track is the floor of
`F * w / W`. -/
theorem fr_value_in_range (E : GridEnv) (hb : 1 ≤ E.coord_bits) (dsc : List Int) (fit : Int)
    (hr : fr_in_range E dsc fit) (x : Int) (hx : x ∈ dsc) (hfr : E.is_fr x = true) :
    fr_value E false (E.coord (free_space E dsc fit)) (u32 (fr_total E dsc)) x =
      Int.fdiv (free_space E dsc fit * E.get_fr x) (fr_total E dsc) := by
  obtain ⟨hF0, hF, hw, hW, hW0, hP⟩ := hr
  have hw0 : ∀ x ∈ dsc, E.is_fr x = true → 0 ≤ E.get_fr x := fun x hx h => (hw x hx h).1
  have hWpos : 0 < fr_total E dsc := hW0 ⟨x, hx, hfr⟩
  have hle := get_fr_le_total E dsc hw0 x hx hfr
  have hx0 := (hw x hx hfr).1
  have hprod0 : 0 ≤ free_space E dsc fit * E.get_fr x := mul_nonneg hF0 hx0
  have hq0 : 0 ≤ free_space E dsc fit * E.get_fr x / fr_total E dsc :=
    Int.ediv_nonneg hprod0 hWpos.le
  have hqle : free_space E dsc fit * E.get_fr x / fr_total E dsc ≤ free_space E dsc fit := by
    apply Int.ediv_le_of_le_mul hWpos
    exact mul_le_mul_of_nonneg_left hle hF0
  unfold fr_value
  rw [coord_of_in E hb hF, coord_of_in E hb (hw x hx hfr).2,
    u32_of_in hprod0 (by linarith [hP x hx hfr]), u32_of_in hWpos.le hW,
    Int.fdiv_eq_ediv _ hWpos.le]
  simp only [Bool.false_eq_true, if_false]
  apply coord_of_in E hb
  constructor
  · have : (0 : Int) ≤ 2 ^ (E.coord_bits - 1) := by positivity
    linarith
  · exact lt_of_le_of_lt hqle hF.2

theorem fr_in_range_ok (E : GridEnv) (dsc : List Int) (fit : Int) (hne : dsc ≠ [])
    (hr : fr_in_range E dsc fit) (auto_sz : Bool) : explicit_ok E dsc auto_sz := by
  obtain ⟨_, _, _, hW, hW0, _⟩ := hr
  refine ⟨hne, fun _ hex => ?_⟩
  have hpos := hW0 hex
  rw [u32_of_in hpos.le hW]
  exact hpos.ne'

theorem calc_explicit_fr_sized (E : GridEnv) (hb : 1 ≤ E.coord_bits) (dsc : List Int) (fit : Int)
    (off sz : Buf) (hne : dsc ≠ []) (hr : fr_in_range E dsc fit) :
    ∃ off1 sz1, calc_explicit E dsc false fit off sz = some (off1, sz1) ∧
      fr_sized E dsc fit sz1 := by
  obtain ⟨off1, sz1, h1, h2, _⟩ :=
    calc_explicit_spec E dsc false fit off sz (fr_in_range_ok E dsc fit hne hr false)
  refine ⟨off1, sz1, h1, ?_⟩
  intro i x hi
  rw [h2 i x hi]
  by_cases hx : E.is_fr x = true
  · simp only [hx, if_true]
    exact fr_value_in_range E hb dsc fit hr x (List.getElem?_mem hi) hx
  · simp only [hx, Bool.false_eq_true, if_false]

/-- C1 (amended): on an explicit axis (columns by `calc_explicit_cols`, rows by
`calc_explicit_rows`) with at least one track, whose container is not
`LV_SIZE_AUTO` on that axis, when the free space `F` is non-negative and the values
are in the range of the machine types (`fr_in_range`), the function returns and every
fractional track `i` has size `floor(F * w_i / W)` and every fixed track its declared
size. -/
theorem C1_explicit_fractional_sizing (E : GridEnv) (S : Scratch) (cont : lv_obj_t)
    (g : lv_grid_t) (c : lv_grid_calc_t) (dsc : List Int) (hb : 1 ≤ E.coord_bits)
    (hne : dsc ≠ []) :
    (g.col_dsc = some dsc → cont.w_set ≠ E.size_auto → fr_in_range E dsc cont.width_fit →
      ∃ c1, calc_explicit_cols E S cont g c = some c1 ∧ c1.col_num = dsc.length ∧
        fr_sized E dsc cont.width_fit c1.w) ∧
    (g.row_dsc = some dsc → cont.h_set ≠ E.size_auto → fr_in_range E dsc cont.height_fit →
      ∃ c1, calc_explicit_rows E S cont g c = some c1 ∧ c1.row_num = dsc.length ∧
        fr_sized E dsc cont.height_fit c1.h) := by
  constructor
  · intro hd ha hr
    have hdec : decide (cont.w_set = E.size_auto) = false := by simpa using ha
    obtain ⟨off1, sz1, h1, h2⟩ := calc_explicit_fr_sized E hb dsc cont.width_fit
      (Buf.get S.x dsc.length) (Buf.get S.w dsc.length) hne hr
    rw [← hdec] at h1
    exact ⟨_, calc_explicit_cols_eq E S cont g c dsc hd off1 sz1 h1, rfl, h2⟩
  · intro hd ha hr
    have hdec : decide (cont.h_set = E.size_auto) = false := by simpa using ha
    obtain ⟨off1, sz1, h1, h2⟩ := calc_explicit_fr_sized E hb dsc cont.height_fit
      (Buf.get S.y dsc.length) (Buf.get S.h dsc.length) hne hr
    rw [← hdec] at h1
    exact ⟨_, calc_explicit_rows_eq E S cont g c dsc hd off1 sz1 h1, rfl, h2⟩

/-- C1, witness: the columns 10, 1fr, 2fr in a content width of 100 and the rows 20,
1fr in a content height of 80. -/
theorem C1_witness :
    (∃ c1, calc_explicit_cols env16 scratch7 cont_fr grid_fr calc0 = some c1 ∧ c1.col_num = 3 ∧
      fr_sized env16 [10, 24577, 24578] 100 c1.w) ∧
    (∃ c1, calc_explicit_rows env16 scratch7 cont_fr grid_fr calc0 = some c1 ∧ c1.row_num = 2 ∧
      fr_sized env16 [20, 24577] 80 c1.h) :=
  ⟨(C1_explicit_fractional_sizing env16 scratch7 cont_fr grid_fr calc0 [10, 24577, 24578]
      (by decide) (by decide)).1 rfl (by decide)
      (by unfold fr_in_range GridEnv.in_coord; decide),
   (C1_explicit_fractional_sizing env16 scratch7 cont_fr grid_fr calc0 [20, 24577]
      (by decide) (by decide)).2 rfl (by decide)
      (by unfold fr_in_range GridEnv.in_coord; decide)⟩

/-- C1, counterexample: with a fixed column of 110 and three columns of weight 1 in
a content width of 100 the free space is -10; the product -10 is converted to
`uint32_t` before the division by the weight sum 3, and the track gets 21842 where
the floor of -10 / 3 is -4. -/
theorem C1_counterexample :
    cont_over.w_set ≠ env16.size_auto ∧ grid_over.col_dsc = some [110, 24577, 24577, 24577] ∧
    free_space env16 [110, 24577, 24577, 24577] cont_over.width_fit = -10 ∧
    ∃ c1, calc_explicit_cols env16 scratch7 cont_over grid_over calc0 = some c1 ∧
      c1.w.mem 1 = 21842 ∧
      ¬ fr_sized env16 [110, 24577, 24577, 24577] cont_over.width_fit c1.w := by
  refine ⟨by decide, rfl, by decide, _, rfl, by decide, ?_⟩
  intro h
  have h1 := h 1 24577 rfl
  revert h1
  decide

theorem calc_implicit_rows_eq (E : GridEnv) (S : Scratch) (cont : lv_obj_t) (g : lv_grid_t)
    (c : lv_grid_calc_t) (h : g.col_dsc_len ≠ 0) :
    ∃ c1, calc_implicit_rows E S cont g c = some c1 ∧ c1.x = c.x ∧ c1.w = c.w ∧
      c1.col_num = c.col_num := by
  unfold calc_implicit_rows
  rw [if_neg h]
  exact ⟨_, rfl, rfl, rfl, rfl⟩

theorem calc_implicit_cols_eq (E : GridEnv) (S : Scratch) (cont : lv_obj_t) (g : lv_grid_t)
    (c : lv_grid_calc_t) (h : g.row_dsc_len ≠ 0) :
    ∃ c1, calc_implicit_cols E S cont g c = some c1 ∧ c1.y = c.y ∧ c1.h = c.h ∧
      c1.row_num = c.row_num := by
  unfold calc_implicit_cols
  rw [if_neg h]
  exact ⟨_, rfl, rfl, rfl, rfl⟩

/-- The columns of the result of `_lv_grid_calc` on a container with a column
descriptor are those of `calc_explicit` on that descriptor. -/
theorem lv_grid_calc_cols (E : GridEnv) (S : Scratch) (cont : lv_obj_t) (g : lv_grid_t)
    (c : lv_grid_calc_t) (cd : List Int) (hg : cont.grid = some g) (hc : g.col_dsc = some cd)
    (hokc : explicit_ok E cd (decide (cont.w_set = E.size_auto)))
    (hokr : ∀ rd, g.row_dsc = some rd → explicit_ok E rd (decide (cont.h_set = E.size_auto))) :
    ∃ c1 off sz, _lv_grid_calc E S cont c = some c1 ∧
      calc_explicit E cd (decide (cont.w_set = E.size_auto)) cont.width_fit
        (Buf.get S.x cd.length) (Buf.get S.w cd.length) = some (off, sz) ∧
      c1.x = off ∧ c1.w = sz ∧ c1.col_num = cd.length ∧
      c1.grid_w = E.coord (off.mem (cd.length - 1) + sz.mem (cd.length - 1) - off.mem 0) := by
  obtain ⟨off, sz, h1, -⟩ := calc_explicit_spec E cd _ cont.width_fit
    (Buf.get S.x cd.length) (Buf.get S.w cd.length) hokc
  unfold _lv_grid_calc
  cases hr : g.row_dsc with
  | none =>
    simp only [hg, hc, hr]
    rw [calc_explicit_cols_eq E S cont g c cd hc off sz h1]
    have hlen : g.col_dsc_len ≠ 0 := by
      simp only [lv_grid_t.col_dsc_len, hc, Option.getD_some]
      exact fun h => hokc.1 (List.length_eq_zero.mp h)
    obtain ⟨c2, h2, hx, hw, hn⟩ := calc_implicit_rows_eq E S cont g
      { c with col_num := cd.length, x := off, w := sz } hlen
    simp only [Option.some_bind, h2, Option.map_some']
    refine ⟨_, off, sz, rfl, h1, ?_, ?_, ?_, ?_⟩
    · simpa [calc_extents] using hx
    · simpa [calc_extents] using hw
    · simpa [calc_extents] using hn
    · simp [calc_extents, hx, hw, hn]
  | some rd =>
    obtain ⟨offr, szr, h3, -⟩ := calc_explicit_spec E rd _ cont.height_fit
      (Buf.get S.y rd.length) (Buf.get S.h rd.length) (hokr rd hr)
    simp only [hg, hc, hr]
    rw [calc_explicit_rows_eq E S cont g c rd hr offr szr h3]
    simp only [Option.some_bind]
    rw [calc_explicit_cols_eq E S cont g _ cd hc off sz h1]
    simp only [Option.map_some']
    exact ⟨_, off, sz, rfl, h1, rfl, rfl, rfl, rfl⟩

/-- The rows of the result of `_lv_grid_calc` on a container with a row descriptor
are those of `calc_explicit` on that descriptor. -/
theorem lv_grid_calc_rows (E : GridEnv) (S : Scratch) (cont : lv_obj_t) (g : lv_grid_t)
    (c : lv_grid_calc_t) (rd : List Int) (hg : cont.grid = some g) (hr : g.row_dsc = some rd)
    (hokr : explicit_ok E rd (decide (cont.h_set = E.size_auto)))
    (hokc : ∀ cd, g.col_dsc = some cd → explicit_ok E cd (decide (cont.w_set = E.size_auto))) :
    ∃ c1 off sz, _lv_grid_calc E S cont c = some c1 ∧
      calc_explicit E rd (decide (cont.h_set = E.size_auto)) cont.height_fit
        (Buf.get S.y rd.length) (Buf.get S.h rd.length) = some (off, sz) ∧
      c1.y = off ∧ c1.h = sz ∧ c1.row_num = rd.length ∧
      c1.grid_h = E.coord (off.mem (rd.length - 1) + sz.mem (rd.length - 1) - off.mem 0) := by
  obtain ⟨off, sz, h1, -⟩ := calc_explicit_spec E rd _ cont.height_fit
    (Buf.get S.y rd.length) (Buf.get S.h rd.length) hokr
  unfold _lv_grid_calc
  cases hc : g.col_dsc with
  | none =>
    simp only [hg, hc, hr]
    have hlen : g.row_dsc_len ≠ 0 := by
      simp only [lv_grid_t.row_dsc_len, hr, Option.getD_some]
      exact fun h => hokr.1 (List.length_eq_zero.mp h)
    obtain ⟨c2, h2, hy, hh, hn⟩ := calc_implicit_cols_eq E S cont g c hlen
    simp only [h2, Option.some_bind]
    rw [calc_explicit_rows_eq E S cont g c2 rd hr off sz h1]
    simp only [Option.map_some']
    exact ⟨_, off, sz, rfl, h1, rfl, rfl, rfl, rfl⟩
  | some cd =>
    obtain ⟨offc, szc, h3, -⟩ := calc_explicit_spec E cd _ cont.width_fit
      (Buf.get S.x cd.length) (Buf.get S.w cd.length) (hokc cd hc)
    simp only [hg, hc, hr]
    rw [calc_explicit_rows_eq E S cont g c rd hr off sz h1]
    simp only [Option.some_bind]
    rw [calc_explicit_cols_eq E S cont g _ cd hc offc szc h3]
    simp only [Option.map_some']
    exact ⟨_, off, sz, rfl, h1, rfl, rfl, rfl, rfl⟩

theorem explicit_ok_auto (E : GridEnv) (dsc : List Int) (hne : dsc ≠ []) :
    explicit_ok E dsc true :=
  ⟨hne, fun h => by simp at h⟩

theorem calc_explicit_auto (E : GridEnv) (dsc : List Int) (fit : Int) (off sz off1 sz1 : Buf)
    (h : calc_explicit E dsc true fit off sz = some (off1, sz1)) :
    ∀ i x, dsc[i]? = some x → E.is_fr x = true → sz1.mem i = 0 := by
  intro i x hi hx
  have hne : dsc ≠ [] := by
    rintro rfl
    simp at hi
  obtain ⟨off2, sz2, h2, hsz, -⟩ := calc_explicit_spec E dsc true fit off sz
    (explicit_ok_auto E dsc hne)
  rw [h] at h2
  obtain ⟨-, rfl⟩ := Prod.mk.inj (Option.some.inj h2)
  rw [hsz i x hi]
  simp [hx, fr_value]

/-- C2: on an axis whose container is `LV_SIZE_AUTO`, `_lv_grid_calc` returns (the
other axis being implicit or an explicit axis whose resolution reaches its end) and
every fractional track of the explicit descriptor has size 0 in its result, for any
weights and any content extent. -/
theorem C2_auto_fractional_zero (E : GridEnv) (S : Scratch) (cont : lv_obj_t) (g : lv_grid_t)
    (c : lv_grid_calc_t) (dsc : List Int) (hg : cont.grid = some g) (hne : dsc ≠ []) :
    (g.col_dsc = some dsc → cont.w_set = E.size_auto →
      (∀ rd, g.row_dsc = some rd → explicit_ok E rd (decide (cont.h_set = E.size_auto))) →
      ∃ c1, _lv_grid_calc E S cont c = some c1 ∧
        ∀ i x, dsc[i]? = some x → E.is_fr x = true → c1.w.mem i = 0) ∧
    (g.row_dsc = some dsc → cont.h_set = E.size_auto →
      (∀ cd, g.col_dsc = some cd → explicit_ok E cd (decide (cont.w_set = E.size_auto))) →
      ∃ c1, _lv_grid_calc E S cont c = some c1 ∧
        ∀ i x, dsc[i]? = some x → E.is_fr x = true → c1.h.mem i = 0) := by
  constructor
  · intro hd ha hok
    have hdec : decide (cont.w_set = E.size_auto) = true := by simpa using ha
    obtain ⟨c1, off, sz, h1, h2, -, hw, -⟩ := lv_grid_calc_cols E S cont g c dsc hg hd
      (hdec ▸ explicit_ok_auto E dsc hne) hok
    rw [hdec] at h2
    exact ⟨c1, h1, hw ▸ calc_explicit_auto E dsc _ _ _ off sz h2⟩
  · intro hd ha hok
    have hdec : decide (cont.h_set = E.size_auto) = true := by simpa using ha
    obtain ⟨c1, off, sz, h1, h2, -, hh, -⟩ := lv_grid_calc_rows E S cont g c dsc hg hd
      (hdec ▸ explicit_ok_auto E dsc hne) hok
    rw [hdec] at h2
    exact ⟨c1, h1, hh ▸ calc_explicit_auto E dsc _ _ _ off sz h2⟩

/-- C2, witness: the container `cont_auto`, auto-sized on both axes, with the
columns 10, 1fr, 2fr and the rows 20, 1fr. -/
theorem C2_witness :
    (∃ c1, _lv_grid_calc env16 scratch7 cont_auto calc0 = some c1 ∧
      ∀ i x, [10, 24577, 24578][i]? = some x → env16.is_fr x = true → c1.w.mem i = 0) ∧
    (∃ c1, _lv_grid_calc env16 scratch7 cont_auto calc0 = some c1 ∧
      ∀ i x, [20, 24577][i]? = some x → env16.is_fr x = true → c1.h.mem i = 0) :=
  ⟨(C2_auto_fractional_zero env16 scratch7 cont_auto grid_fr calc0 [10, 24577, 24578] rfl
      (by decide)).1 rfl rfl
      (by
        intro rd h
        obtain rfl : [20, 24577] = rd := Option.some.inj h
        unfold explicit_ok
        decide),
   (C2_auto_fractional_zero env16 scratch7 cont_auto grid_fr calc0 [20, 24577] rfl
      (by decide)).2 rfl rfl
      (by
        intro cd h
        obtain rfl : [10, 24577, 24578] = cd := Option.some.inj h
        unfold explicit_ok
        decide)⟩

/-- C3 (amended): after `calc_explicit_cols` (resp. `calc_explicit_rows`) on an axis
of at least one track, the first offset is 0 and each next offset is the previous
offset plus the previous size, the sum being stored in an `lv_coord_t`: it is the
exact sum whenever that sum is representable. -/
theorem C3_offsets_prefix_sum (E : GridEnv) (S : Scratch) (cont : lv_obj_t) (g : lv_grid_t)
    (c : lv_grid_calc_t) (dsc : List Int) (hb : 1 ≤ E.coord_bits) :
    (g.col_dsc = some dsc → explicit_ok E dsc (decide (cont.w_set = E.size_auto)) →
      ∃ c1, calc_explicit_cols E S cont g c = some c1 ∧ c1.x.mem 0 = 0 ∧
        ∀ i, i + 1 < dsc.length →
          c1.x.mem (i + 1) = E.coord (c1.x.mem i + c1.w.mem i) ∧
          (E.in_coord (c1.x.mem i + c1.w.mem i) →
            c1.x.mem (i + 1) = c1.x.mem i + c1.w.mem i)) ∧
    (g.row_dsc = some dsc → explicit_ok E dsc (decide (cont.h_set = E.size_auto)) →
      ∃ c1, calc_explicit_rows E S cont g c = some c1 ∧ c1.y.mem 0 = 0 ∧
        ∀ i, i + 1 < dsc.length →
          c1.y.mem (i + 1) = E.coord (c1.y.mem i + c1.h.mem i) ∧
          (E.in_coord (c1.y.mem i + c1.h.mem i) →
            c1.y.mem (i + 1) = c1.y.mem i + c1.h.mem i)) := by
  constructor
  · intro hd hok
    obtain ⟨off, sz, h1, -, h0, hstep, -⟩ := calc_explicit_spec E dsc _ cont.width_fit
      (Buf.get S.x dsc.length) (Buf.get S.w dsc.length) hok
    refine ⟨_, calc_explicit_cols_eq E S cont g c dsc hd off sz h1, h0, fun i hi => ?_⟩
    refine ⟨hstep i hi, fun hin => ?_⟩
    show off.mem (i + 1) = off.mem i + sz.mem i
    rw [hstep i hi, coord_of_in E hb hin]
  · intro hd hok
    obtain ⟨off, sz, h1, -, h0, hstep, -⟩ := calc_explicit_spec E dsc _ cont.height_fit
      (Buf.get S.y dsc.length) (Buf.get S.h dsc.length) hok
    refine ⟨_, calc_explicit_rows_eq E S cont g c dsc hd off sz h1, h0, fun i hi => ?_⟩
    refine ⟨hstep i hi, fun hin => ?_⟩
    show off.mem (i + 1) = off.mem i + sz.mem i
    rw [hstep i hi, coord_of_in E hb hin]

/-- C3, witness: the columns 10, 1fr, 2fr (sizes 10, 30, 60, offsets 0, 10, 40) and
the rows 20, 1fr of `cont_fr`. -/
theorem C3_witness :
    (∃ c1, calc_explicit_cols env16 scratch7 cont_fr grid_fr calc0 = some c1 ∧ c1.x.mem 0 = 0 ∧
        ∀ i, i + 1 < 3 →
          c1.x.mem (i + 1) = env16.coord (c1.x.mem i + c1.w.mem i) ∧
          (env16.in_coord (c1.x.mem i + c1.w.mem i) →
            c1.x.mem (i + 1) = c1.x.mem i + c1.w.mem i)) ∧
    (∃ c1, calc_explicit_rows env16 scratch7 cont_fr grid_fr calc0 = some c1 ∧ c1.y.mem 0 = 0 ∧
        ∀ i, i + 1 < 2 →
          c1.y.mem (i + 1) = env16.coord (c1.y.mem i + c1.h.mem i) ∧
          (env16.in_coord (c1.y.mem i + c1.h.mem i) →
            c1.y.mem (i + 1) = c1.y.mem i + c1.h.mem i)) :=
  ⟨(C3_offsets_prefix_sum env16 scratch7 cont_fr grid_fr calc0 [10, 24577, 24578]
      (by decide)).1 rfl (by unfold explicit_ok; decide),
   (C3_offsets_prefix_sum env16 scratch7 cont_fr grid_fr calc0 [20, 24577]
      (by decide)).2 rfl (by unfold explicit_ok; decide)⟩

/-- C3, counterexample: with the columns 20000, 20000, 10 and an `lv_coord_t` of 16
bits the offsets are 0, 20000 and -25536: the sum 20000 + 20000 = 40000 is stored in
an `lv_coord_t`. -/
theorem C3_counterexample :
    cont_wide.grid = some grid_wide ∧ grid_wide.col_dsc = some [20000, 20000, 10] ∧
    ∃ c1, calc_explicit_cols env16 scratch7 cont_wide grid_wide calc0 = some c1 ∧
      c1.w.mem 0 = 20000 ∧ c1.w.mem 1 = 20000 ∧ c1.w.mem 2 = 10 ∧
      c1.x.mem 0 = 0 ∧ c1.x.mem 1 = 20000 ∧ c1.x.mem 2 = -25536 ∧
      c1.x.mem 2 ≠ c1.x.mem 1 + c1.w.mem 1 := by
  refine ⟨rfl, rfl, _, rfl, ?_⟩
  decide

theorem sum_to_eq_map_sum (b : Buf) (f : Int → Int) (dsc : List Int)
    (h : ∀ i x, dsc[i]? = some x → b.mem i = f x) : b.sum_to dsc.length = (dsc.map f).sum := by
  unfold Buf.sum_to
  congr 1
  apply List.ext_getElem
  · simp
  · intro i h1 h2
    simp only [List.getElem_map, List.getElem_range]
    exact h i _ (List.getElem?_eq_getElem _)

theorem fixed_total_all_fixed (E : GridEnv) (dsc : List Int)
    (h : ∀ x ∈ dsc, E.is_fr x = false) : fixed_total E dsc = dsc.sum := by
  induction dsc with
  | nil => simp [fixed_total]
  | cons y ys ih =>
    rw [fixed_total_cons, ih (fun x hx => h x (List.mem_cons_of_mem _ hx)),
      h y (List.mem_cons_self _ _)]
    simp

theorem explicit_ok_all_fixed (E : GridEnv) (dsc : List Int) (hne : dsc ≠ [])
    (h : ∀ x ∈ dsc, E.is_fr x = false) (auto_sz : Bool) : explicit_ok E dsc auto_sz := by
  refine ⟨hne, fun _ ⟨x, hx, hfr⟩ => ?_⟩
  rw [h x hx] at hfr
  simp at hfr

theorem calc_explicit_all_fixed (E : GridEnv) (dsc : List Int) (auto_sz : Bool) (fit : Int)
    (off sz : Buf) (hne : dsc ≠ []) (h : ∀ x ∈ dsc, E.is_fr x = false) :
    ∃ off1 sz1, calc_explicit E dsc auto_sz fit off sz = some (off1, sz1) ∧
      sz1.sum_to dsc.length = fit - free_space E dsc fit := by
  obtain ⟨off1, sz1, h1, hsz, -⟩ := calc_explicit_spec E dsc auto_sz fit off sz
    (explicit_ok_all_fixed E dsc hne h auto_sz)
  refine ⟨off1, sz1, h1, ?_⟩
  rw [sum_to_eq_map_sum sz1 id dsc, free_space, fixed_total_all_fixed E dsc h]
  · simp
  · intro i x hi
    rw [hsz i x hi, h x (List.getElem?_mem hi)]
    simp

/-- C4 (amended): on an explicit axis whose descriptor has at least one track and
only fixed sizes, the function returns and the sum of the resolved track sizes is the
sum of the declared sizes, that is the content extent minus the free space: it is
the content extent exactly when the free space is 0. -/
theorem C4_fixed_tracks_sum (E : GridEnv) (S : Scratch) (cont : lv_obj_t) (g : lv_grid_t)
    (c : lv_grid_calc_t) (dsc : List Int) (hne : dsc ≠ [])
    (hfixed : ∀ x ∈ dsc, E.is_fr x = false) :
    (g.col_dsc = some dsc →
      ∃ c1, calc_explicit_cols E S cont g c = some c1 ∧
        c1.w.sum_to dsc.length = cont.width_fit - free_space E dsc cont.width_fit ∧
        (c1.w.sum_to dsc.length = cont.width_fit ↔ free_space E dsc cont.width_fit = 0)) ∧
    (g.row_dsc = some dsc →
      ∃ c1, calc_explicit_rows E S cont g c = some c1 ∧
        c1.h.sum_to dsc.length = cont.height_fit - free_space E dsc cont.height_fit ∧
        (c1.h.sum_to dsc.length = cont.height_fit ↔ free_space E dsc cont.height_fit = 0)) := by
  constructor
  · intro hd
    obtain ⟨off, sz, h1, h2⟩ := calc_explicit_all_fixed E dsc (decide (cont.w_set = E.size_auto))
      cont.width_fit (Buf.get S.x dsc.length) (Buf.get S.w dsc.length) hne hfixed
    refine ⟨_, calc_explicit_cols_eq E S cont g c dsc hd off sz h1, h2, ?_⟩
    show sz.sum_to dsc.length = cont.width_fit ↔ _
    rw [h2]
    constructor <;> intro h <;> linarith
  · intro hd
    obtain ⟨off, sz, h1, h2⟩ := calc_explicit_all_fixed E dsc (decide (cont.h_set = E.size_auto))
      cont.height_fit (Buf.get S.y dsc.length) (Buf.get S.h dsc.length) hne hfixed
    refine ⟨_, calc_explicit_rows_eq E S cont g c dsc hd off sz h1, h2, ?_⟩
    show sz.sum_to dsc.length = cont.height_fit ↔ _
    rw [h2]
    constructor <;> intro h <;> linarith

/-- C4, witness: the fixed columns 10, 20 and the fixed rows 30, 40 of
`cont_fixed`. -/
theorem C4_witness :
    (∃ c1, calc_explicit_cols env16 scratch7 cont_fixed grid_fixed calc0 = some c1 ∧
        c1.w.sum_to 2 = cont_fixed.width_fit - free_space env16 [10, 20] cont_fixed.width_fit ∧
        (c1.w.sum_to 2 = cont_fixed.width_fit ↔
          free_space env16 [10, 20] cont_fixed.width_fit = 0)) ∧
    (∃ c1, calc_explicit_rows env16 scratch7 cont_fixed grid_fixed calc0 = some c1 ∧
        c1.h.sum_to 2 = cont_fixed.height_fit - free_space env16 [30, 40] cont_fixed.height_fit ∧
        (c1.h.sum_to 2 = cont_fixed.height_fit ↔
          free_space env16 [30, 40] cont_fixed.height_fit = 0)) :=
  ⟨(C4_fixed_tracks_sum env16 scratch7 cont_fixed grid_fixed calc0 [10, 20]
      (by decide) (by decide)).1 rfl,
   (C4_fixed_tracks_sum env16 scratch7 cont_fixed grid_fixed calc0 [30, 40]
      (by decide) (by decide)).2 rfl⟩

/-- C4, counterexample: the fixed columns 10 and 20 in a content width of 100 leave a
free space of 70, and the resolved sizes add up to 30, not to 100. -/
theorem C4_counterexample :
    grid_fixed.col_dsc = some [10, 20] ∧ (∀ x ∈ [10, 20], env16.is_fr x = false) ∧
    0 ≤ free_space env16 [10, 20] cont_fixed.width_fit ∧
    ∃ c1, calc_explicit_cols env16 scratch7 cont_fixed grid_fixed calc0 = some c1 ∧
      c1.w.sum_to 2 = 30 ∧ c1.w.sum_to 2 ≠ cont_fixed.width_fit := by
  refine ⟨rfl, by decide, by decide, _, rfl, by decide, by decide⟩

theorem fr_quotients_le (E : GridEnv) (F W : Int) (hW : 0 < W) (dsc : List Int) :
    (dsc.map (fun x => if E.is_fr x then (F * E.get_fr x) / W else 0)).sum * W ≤
      F * fr_total E dsc := by
  induction dsc with
  | nil => simp [fr_total]
  | cons y ys ih =>
    rw [fr_total_cons, List.map_cons, List.sum_cons, add_mul, mul_add]
    by_cases hy : E.is_fr y = true
    · simp only [hy, if_true]
      have := Int.ediv_mul_le (F * E.get_fr y) hW.ne'
      linarith
    · simp only [hy, Bool.false_eq_true, if_false]
      linarith

theorem calc_explicit_all_fr (E : GridEnv) (hb : 1 ≤ E.coord_bits) (dsc : List Int) (fit : Int)
    (off sz : Buf) (hne : dsc ≠ []) (hall : ∀ x ∈ dsc, E.is_fr x = true)
    (hr : fr_in_range E dsc fit) :
    ∃ off1 sz1, calc_explicit E dsc false fit off sz = some (off1, sz1) ∧
      fr_sized E dsc fit sz1 ∧ sz1.sum_to dsc.length ≤ free_space E dsc fit := by
  obtain ⟨off1, sz1, h1, h2⟩ := calc_explicit_fr_sized E hb dsc fit off sz hne hr
  refine ⟨off1, sz1, h1, h2, ?_⟩
  obtain ⟨x0, hx0⟩ := List.exists_mem_of_ne_nil dsc hne
  have hW : 0 < fr_total E dsc := hr.2.2.2.2.1 ⟨x0, hx0, hall x0 hx0⟩
  rw [sum_to_eq_map_sum sz1
    (fun x => if E.is_fr x then (free_space E dsc fit * E.get_fr x) / fr_total E dsc else 0) dsc]
  · have h3 := fr_quotients_le E (free_space E dsc fit) (fr_total E dsc) hW dsc
    exact le_of_mul_le_mul_right h3 hW
  · intro i x hi
    rw [h2 i x hi, hall x (List.getElem?_mem hi), Int.fdiv_eq_ediv _ hW.le]
    simp

/-- C5 (amended): on an explicit axis that is not auto-sized, whose descriptor has
at least one track and only fractional tracks, when the free space `F` is
non-negative and the values are in the range of the machine types (`fr_in_range`),
the function returns, every track has size `floor(F * w_i / W)` and the sum of the
resolved sizes does not exceed `F`. -/
theorem C5_fractional_sum_le_free (E : GridEnv) (S : Scratch) (cont : lv_obj_t)
    (g : lv_grid_t) (c : lv_grid_calc_t) (dsc : List Int) (hb : 1 ≤ E.coord_bits)
    (hne : dsc ≠ []) (hall : ∀ x ∈ dsc, E.is_fr x = true) :
    (g.col_dsc = some dsc → cont.w_set ≠ E.size_auto → fr_in_range E dsc cont.width_fit →
      ∃ c1, calc_explicit_cols E S cont g c = some c1 ∧
        c1.w.sum_to dsc.length ≤ free_space E dsc cont.width_fit) ∧
    (g.row_dsc = some dsc → cont.h_set ≠ E.size_auto → fr_in_range E dsc cont.height_fit →
      ∃ c1, calc_explicit_rows E S cont g c = some c1 ∧
        c1.h.sum_to dsc.length ≤ free_space E dsc cont.height_fit) := by
  constructor
  · intro hd ha hr
    have hdec : decide (cont.w_set = E.size_auto) = false := by simpa using ha
    obtain ⟨off1, sz1, h1, -, h2⟩ := calc_explicit_all_fr E hb dsc cont.width_fit
      (Buf.get S.x dsc.length) (Buf.get S.w dsc.length) hne hall hr
    rw [← hdec] at h1
    exact ⟨_, calc_explicit_cols_eq E S cont g c dsc hd off1 sz1 h1, h2⟩
  · intro hd ha hr
    have hdec : decide (cont.h_set = E.size_auto) = false := by simpa using ha
    obtain ⟨off1, sz1, h1, -, h2⟩ := calc_explicit_all_fr E hb dsc cont.height_fit
      (Buf.get S.y dsc.length) (Buf.get S.h dsc.length) hne hall hr
    rw [← hdec] at h1
    exact ⟨_, calc_explicit_rows_eq E S cont g c dsc hd off1 sz1 h1, h2⟩

/-- C5, witness: three columns of weight 1 in a content width of 100 and two rows
of weights 1 and 2 in a content height of 80. -/
theorem C5_witness :
    (∃ c1, calc_explicit_cols env16 scratch7 cont_thirds grid_thirds calc0 = some c1 ∧
        c1.w.sum_to 3 ≤ free_space env16 [24577, 24577, 24577] cont_thirds.width_fit) ∧
    (∃ c1, calc_explicit_rows env16 scratch7 cont_rows_fr grid_rows_fr calc0 = some c1 ∧
        c1.h.sum_to 2 ≤ free_space env16 [24577, 24578] cont_rows_fr.height_fit) :=
  ⟨(C5_fractional_sum_le_free env16 scratch7 cont_thirds grid_thirds calc0
      [24577, 24577, 24577] (by decide) (by decide) (by decide)).1 rfl (by decide)
      (by unfold fr_in_range GridEnv.in_coord; decide),
   (C5_fractional_sum_le_free env16 scratch7 cont_rows_fr grid_rows_fr calc0
      [24577, 24578] (by decide) (by decide) (by decide)).2 rfl (by decide)
      (by unfold fr_in_range GridEnv.in_coord; decide)⟩

/-- C5, counterexample: three columns of weight 1 in a content width of -10 (the
paddings exceed the width) get 21842 each, 65526 in all, which exceeds the free
space of -10. -/
theorem C5_counterexample :
    grid_thirds.col_dsc = some [24577, 24577, 24577] ∧
    (∀ x ∈ [24577, 24577, 24577], env16.is_fr x = true) ∧
    cont_neg.w_set ≠ env16.size_auto ∧
    free_space env16 [24577, 24577, 24577] cont_neg.width_fit = -10 ∧
    ∃ c1, calc_explicit_cols env16 scratch7 cont_neg grid_thirds calc0 = some c1 ∧
      c1.w.sum_to 3 = 65526 ∧
      ¬ c1.w.sum_to 3 ≤ free_space env16 [24577, 24577, 24577] cont_neg.width_fit := by
  refine ⟨rfl, by decide, by decide, by decide, _, rfl, by decide, by decide⟩

theorem Buf.sum_to_succ (b : Buf) (n : Nat) : b.sum_to (n + 1) = b.sum_to n + b.mem n := by
  simp [Buf.sum_to, List.range_succ]

theorem extent_of_explicit (E : GridEnv) (hb : 1 ≤ E.coord_bits) (dsc : List Int)
    (auto_sz : Bool) (fit : Int) (off0 sz0 off sz : Buf)
    (h : calc_explicit E dsc auto_sz fit off0 sz0 = some (off, sz))
    (hok : explicit_ok E dsc auto_sz) :
    extent_is E off sz dsc.length
      (E.coord (off.mem (dsc.length - 1) + sz.mem (dsc.length - 1) - off.mem 0)) := by
  obtain ⟨off1, sz1, h1, -, h0, hstep, hsum⟩ := calc_explicit_spec E dsc auto_sz fit off0 sz0 hok
  rw [h] at h1
  obtain ⟨rfl, rfl⟩ := Prod.mk.inj (Option.some.inj h1)
  obtain ⟨n, hn⟩ : ∃ n, dsc.length = n + 1 :=
    ⟨dsc.length - 1, by
      have : dsc.length ≠ 0 := fun h => hok.1 (List.length_eq_zero.mp h)
      omega⟩
  rw [hn] at hstep hsum ⊢
  simp only [Nat.add_sub_cancel]
  have hmod : off.mem n + sz.mem n - off.mem 0 ≡ sz.sum_to (n + 1) [ZMOD 2 ^ E.coord_bits] := by
    rw [h0, sub_zero, Buf.sum_to_succ]
    exact (hsum n (by omega)).add_right _
  refine ⟨rfl, coord_congr E hmod, fun hin => ?_⟩
  have hoff : off.mem n = sz.sum_to n := by
    cases n with
    | zero => simp [h0, Buf.sum_to]
    | succ m =>
      rw [hstep m (by omega)]
      have h2 : off.mem m + sz.mem m ≡ sz.sum_to (m + 1) [ZMOD 2 ^ E.coord_bits] := by
        rw [Buf.sum_to_succ]
        exact (hsum m (by omega)).add_right _
      rw [coord_congr E h2, coord_of_in E hb (hin (m + 1) (by omega))]
  have htot : off.mem n + sz.mem n - off.mem 0 = sz.sum_to (n + 1) := by
    rw [h0, sub_zero, Buf.sum_to_succ, hoff]
  have hco : E.coord (off.mem n + sz.mem n - off.mem 0) = sz.sum_to (n + 1) := by
    rw [htot, coord_of_in E hb (hin (n + 1) (le_refl _))]
  refine ⟨?_, hco⟩
  rw [hco]
  simp only [Nat.add_sub_cancel]
  exact htot.symm

/-- C6 (amended): for a container with both axes explicit, each resolved to its
end, the field `grid_w` of the result of `_lv_grid_calc` is `x[last] + w[last] - x[0]`
over the columns and the sum of the resolved column sizes, both stored in an
`lv_coord_t`, and `grid_h` is the same over the rows; the equalities are exact when
no partial sum of the sizes leaves the range of `lv_coord_t` (`extent_is`). -/
theorem C6_total_grid_extent (E : GridEnv) (S : Scratch) (cont : lv_obj_t) (g : lv_grid_t)
    (c : lv_grid_calc_t) (cd rd : List Int) (hb : 1 ≤ E.coord_bits)
    (hg : cont.grid = some g) (hc : g.col_dsc = some cd) (hr : g.row_dsc = some rd)
    (hokc : explicit_ok E cd (decide (cont.w_set = E.size_auto)))
    (hokr : explicit_ok E rd (decide (cont.h_set = E.size_auto))) :
    ∃ c1, _lv_grid_calc E S cont c = some c1 ∧
      c1.col_num = cd.length ∧ c1.row_num = rd.length ∧
      extent_is E c1.x c1.w c1.col_num c1.grid_w ∧
      extent_is E c1.y c1.h c1.row_num c1.grid_h := by
  have hokc1 : ∀ cd1, g.col_dsc = some cd1 →
      explicit_ok E cd1 (decide (cont.w_set = E.size_auto)) := by
    intro cd1 h1
    rw [hc] at h1
    exact Option.some.inj h1 ▸ hokc
  have hokr1 : ∀ rd1, g.row_dsc = some rd1 →
      explicit_ok E rd1 (decide (cont.h_set = E.size_auto)) := by
    intro rd1 h1
    rw [hr] at h1
    exact Option.some.inj h1 ▸ hokr
  obtain ⟨c1, off, sz, h1, h2, hx, hw, hn, hgw⟩ :=
    lv_grid_calc_cols E S cont g c cd hg hc hokc hokr1
  obtain ⟨c2, offr, szr, h3, h4, hy, hh, hm, hgh⟩ :=
    lv_grid_calc_rows E S cont g c rd hg hr hokr hokc1
  rw [h1] at h3
  obtain rfl := Option.some.inj h3
  refine ⟨c1, h1, hn, hm, ?_, ?_⟩
  · rw [hx, hw, hn, hgw]
    exact extent_of_explicit E hb cd _ _ _ _ off sz h2 hokc
  · rw [hy, hh, hm, hgh]
    exact extent_of_explicit E hb rd _ _ _ _ offr szr h4 hokr

/-- C6, witness: `cont_fr` with the columns 10, 1fr, 2fr and the rows 20, 1fr. -/
theorem C6_witness :
    ∃ c1, _lv_grid_calc env16 scratch7 cont_fr calc0 = some c1 ∧
      c1.col_num = 3 ∧ c1.row_num = 2 ∧
      extent_is env16 c1.x c1.w c1.col_num c1.grid_w ∧
      extent_is env16 c1.y c1.h c1.row_num c1.grid_h :=
  C6_total_grid_extent env16 scratch7 cont_fr grid_fr calc0 [10, 24577, 24578] [20, 24577]
    (by decide) rfl rfl rfl (by unfold explicit_ok; decide) (by unfold explicit_ok; decide)

/-- C6, counterexample: with the columns and the rows 20000, 20000, 10 and an
`lv_coord_t` of 16 bits the last offset is -25536 and `grid_w` and `grid_h` are
-25526, where the sum of the resolved sizes is 40010. -/
theorem C6_counterexample :
    cont_wide.grid = some grid_wide ∧ grid_wide.col_dsc = some [20000, 20000, 10] ∧
    grid_wide.row_dsc = some [20000, 20000, 10] ∧
    ∃ c1, _lv_grid_calc env16 scratch7 cont_wide calc0 = some c1 ∧
      c1.col_num = 3 ∧ c1.row_num = 3 ∧
      c1.w.sum_to 3 = 40010 ∧ c1.x.mem 2 = -25536 ∧ c1.grid_w = -25526 ∧
      c1.grid_w ≠ c1.w.sum_to c1.col_num ∧
      c1.h.sum_to 3 = 40010 ∧ c1.y.mem 2 = -25536 ∧ c1.grid_h = -25526 ∧
      c1.grid_h ≠ c1.h.sum_to c1.row_num := by
  refine ⟨rfl, rfl, rfl, _, rfl, ?_⟩
  decide

theorem div_of_cursor (n t e : Nat) (he : e < n) : (t * n + e) / n = t := by
  have hn : 0 < n := by omega
  rw [Nat.add_comm, Nat.mul_comm, Nat.add_mul_div_left _ _ hn, Nat.div_eq_of_lt he, Nat.zero_add]

/-- Invariant of the scan of the children by `calc_implicit_rows` and
`calc_implicit_cols`. The cursor `(e, t)` with `e < n` stands at the cell index
`t * n + e`; `cells` are the grid-cell children still to visit. -/
theorem implicit_scan_inv (E : GridEnv) (n : Nat) (f : lv_obj_t → Int) (children : List lv_obj_t) :
    ∀ (e t : Nat) (sz : Buf), e < n →
      scan_post n f (children.filter (is_grid_cell E)) e t sz
        (implicit_scan E n f children e t sz) := by
  induction children with
  | nil =>
    intro e t sz he
    refine ⟨by simp [implicit_scan], he, le_refl _, fun _ _ => rfl, ?_, ?_, ?_⟩
    · intro k x h
      simp at h
    · intro r h1 h2
      left
      have : r = t := le_antisymm h2 h1
      simp [this, implicit_scan]
    · intro r h1 h2
      have : r = t := le_antisymm h2 h1
      simp [this, implicit_scan]
  | cons x rest ih =>
    intro e t sz he
    by_cases hx : is_grid_cell E x = true
    · have hfilter : (x :: rest).filter (is_grid_cell E) = x :: rest.filter (is_grid_cell E) := by
        simp [List.filter_cons, hx]
      rw [hfilter]
      by_cases hwrap : e + 1 = n
      · have hscan : implicit_scan E n f (x :: rest) e t sz =
            implicit_scan E n f rest 0 (t + 1)
              ((sz.write t (max (sz.mem t) (f x))).write (t + 1) 0) := by
          rw [implicit_scan]
          simp only [hx, if_true, hwrap]
        rw [hscan]
        obtain ⟨ha, hlt, hle, hb, hc, hd, hge⟩ := ih 0 (t + 1)
          ((sz.write t (max (sz.mem t) (f x))).write (t + 1) 0) (by omega)
        generalize implicit_scan E n f rest 0 (t + 1)
          ((sz.write t (max (sz.mem t) (f x))).write (t + 1) 0) = res at ha hlt hle hb hc hd hge ⊢
        have hp : (t + 1) * n + 0 = t * n + e + 1 := by
          rw [Nat.add_mul, ← hwrap]
          omega
        rw [hp] at ha hc hd
        have hmt : res.2.2.mem t = max (sz.mem t) (f x) := by
          rw [hb t (by omega), Buf.mem_write_ne _ _ (by omega), Buf.mem_write_same]
        have hm1 : ((sz.write t (max (sz.mem t) (f x))).write (t + 1) 0).mem (t + 1) = 0 :=
          Buf.mem_write_same _ _ _
        refine ⟨?_, hlt, by omega, ?_, ?_, ?_, ?_⟩
        · rw [ha, List.length_cons]
          omega
        · intro j hj
          rw [hb j (by omega), Buf.mem_write_ne _ _ (by omega), Buf.mem_write_ne _ _ (by omega)]
        · intro k y hk
          cases k with
          | zero =>
            rw [List.getElem?_cons_zero] at hk
            obtain rfl := Option.some.inj hk
            rw [Nat.add_zero, div_of_cursor n t e he, hmt]
            exact le_max_right _ _
          | succ k =>
            rw [List.getElem?_cons_succ] at hk
            have := hc k y hk
            rw [Nat.add_right_comm (t * n + e) 1 k] at this
            exact this
        · intro r h1 h2
          by_cases hrt : r = t
          · subst hrt
            rw [hmt, if_pos rfl]
            rcases max_choice (sz.mem r) (f x) with h | h
            · left; exact h
            · right
              exact ⟨0, x, List.getElem?_cons_zero, by rw [Nat.add_zero, div_of_cursor n r e he], h⟩
          · rw [if_neg hrt]
            rcases hd r (by omega) h2 with h | ⟨k, y, hk, hdiv, hval⟩
            · left
              rw [h, hm1]
              simp
            · right
              refine ⟨k + 1, y, by rw [List.getElem?_cons_succ]; exact hk, ?_, hval⟩
              rw [Nat.add_right_comm (t * n + e) 1 k] at hdiv
              exact hdiv
        · intro r h1 h2
          by_cases hrt : r = t
          · subst hrt
            rw [hmt, if_pos rfl]
            exact le_max_left _ _
          · rw [if_neg hrt]
            have := hge r (by omega) h2
            rw [hm1] at this
            simpa using this
      · have hscan : implicit_scan E n f (x :: rest) e t sz =
            implicit_scan E n f rest (e + 1) t (sz.write t (max (sz.mem t) (f x))) := by
          rw [implicit_scan]
          simp only [hx, if_true, hwrap, if_false]
        rw [hscan]
        obtain ⟨ha, hlt, hle, hb, hc, hd, hge⟩ := ih (e + 1) t
          (sz.write t (max (sz.mem t) (f x))) (by omega)
        generalize implicit_scan E n f rest (e + 1) t
          (sz.write t (max (sz.mem t) (f x))) = res at ha hlt hle hb hc hd hge ⊢
        have hp : t * n + (e + 1) = t * n + e + 1 := rfl
        rw [hp] at ha hc hd
        rw [Buf.mem_write_same] at hd hge
        refine ⟨?_, hlt, hle, ?_, ?_, ?_, ?_⟩
        · rw [ha, List.length_cons]
          omega
        · intro j hj
          rw [hb j hj, Buf.mem_write_ne _ _ (by omega)]
        · intro k y hk
          cases k with
          | zero =>
            rw [List.getElem?_cons_zero] at hk
            obtain rfl := Option.some.inj hk
            rw [Nat.add_zero, div_of_cursor n t e he]
            have := hge t (le_refl _) hle
            rw [if_pos rfl] at this
            exact le_trans (le_max_right _ _) this
          | succ k =>
            rw [List.getElem?_cons_succ] at hk
            have := hc k y hk
            rw [Nat.add_right_comm (t * n + e) 1 k] at this
            exact this
        · intro r h1 h2
          rcases hd r h1 h2 with h | ⟨k, y, hk, hdiv, hval⟩
          · by_cases hrt : r = t
            · subst hrt
              rw [if_pos rfl] at h ⊢
              rcases max_choice (sz.mem r) (f x) with h3 | h3
              · left; rw [h, h3]
              · right
                exact ⟨0, x, List.getElem?_cons_zero, by rw [Nat.add_zero, div_of_cursor n r e he],
                  by rw [h, h3]⟩
            · left
              rw [if_neg hrt] at h ⊢
              exact h
          · right
            refine ⟨k + 1, y, by rw [List.getElem?_cons_succ]; exact hk, ?_, hval⟩
            rw [Nat.add_right_comm (t * n + e) 1 k] at hdiv
            exact hdiv
        · intro r h1 h2
          have := hge r h1 h2
          by_cases hrt : r = t
          · subst hrt
            rw [if_pos rfl] at this ⊢
            exact le_trans (le_max_left _ _) this
          · rw [if_neg hrt] at this ⊢
            exact this
    · have hfilter : (x :: rest).filter (is_grid_cell E) = rest.filter (is_grid_cell E) := by
        simp [List.filter_cons, hx]
      have hscan : implicit_scan E n f (x :: rest) e t sz = implicit_scan E n f rest e t sz := by
        rw [implicit_scan]
        simp only [hx, Bool.false_eq_true, if_false]
      rw [hfilter, hscan]
      exact ih e t sz he

theorem add_pred_div_eq_ceil (a n : Nat) (hn : 0 < n) : (a + n - 1) / n = ceil_div a n := by
  unfold ceil_div
  have hnq : (0 : ℚ) < n := by exact_mod_cast hn
  apply le_antisymm
  · have h1 : (a : ℚ) / n ≤ ⌈(a : ℚ) / (n : ℚ)⌉₊ := Nat.le_ceil _
    have h2 : (a : ℚ) ≤ ⌈(a : ℚ) / (n : ℚ)⌉₊ * n := (div_le_iff₀ hnq).mp h1
    have h3 : a ≤ ⌈(a : ℚ) / (n : ℚ)⌉₊ * n := by exact_mod_cast h2
    have h4 : a + n - 1 < (⌈(a : ℚ) / (n : ℚ)⌉₊ + 1) * n := by
      rw [Nat.add_mul, Nat.one_mul]
      omega
    exact Nat.lt_succ_iff.mp ((Nat.div_lt_iff_lt_mul hn).mpr h4)
  · apply Nat.ceil_le.mpr
    rw [div_le_iff₀ hnq]
    have h1 : a ≤ (a + n - 1) / n * n := by
      have := Nat.lt_mul_div_succ (a + n - 1) hn
      rw [Nat.mul_add, Nat.mul_one, Nat.mul_comm] at this
      omega
    exact_mod_cast h1

theorem ceil_div_mono (a b n : Nat) (hn : 0 < n) (h : a ≤ b) : ceil_div a n ≤ ceil_div b n := by
  rw [← add_pred_div_eq_ceil a n hn, ← add_pred_div_eq_ceil b n hn]
  exact Nat.div_le_div_right (by omega)

theorem calc_implicit_rows_num (E : GridEnv) (S : Scratch) (cont : lv_obj_t) (g : lv_grid_t)
    (c : lv_grid_calc_t) (h : g.col_dsc_len ≠ 0) :
    ∃ c1, calc_implicit_rows E S cont g c = some c1 ∧
      c1.row_num = (cont.children.length + g.col_dsc_len - 1) / g.col_dsc_len + 1 ∧
      c1.h = (implicit_scan E g.col_dsc_len (natural_height E) cont.children 0 0
        ((Buf.get S.h ((cont.children.length + g.col_dsc_len - 1) / g.col_dsc_len + 1)).write
          0 0)).2.2 := by
  unfold calc_implicit_rows
  rw [if_neg h]
  exact ⟨_, rfl, rfl, rfl⟩

theorem calc_implicit_cols_num (E : GridEnv) (S : Scratch) (cont : lv_obj_t) (g : lv_grid_t)
    (c : lv_grid_calc_t) (h : g.row_dsc_len ≠ 0) :
    ∃ c1, calc_implicit_cols E S cont g c = some c1 ∧
      c1.col_num = (cont.children.length + g.row_dsc_len - 1) / g.row_dsc_len + 1 ∧
      c1.w = (implicit_scan E g.row_dsc_len (natural_width E) cont.children 0 0
        ((Buf.get S.w ((cont.children.length + g.row_dsc_len - 1) / g.row_dsc_len + 1)).write
          0 0)).2.2 := by
  unfold calc_implicit_cols
  rw [if_neg h]
  exact ⟨_, rfl, rfl, rfl⟩

/-- The number of rows of the result of `_lv_grid_calc` on a container with
explicit columns and implicit rows. -/
theorem lv_grid_calc_row_num (E : GridEnv) (S : Scratch) (cont : lv_obj_t) (g : lv_grid_t)
    (c : lv_grid_calc_t) (cd : List Int) (hg : cont.grid = some g) (hc : g.col_dsc = some cd)
    (hr : g.row_dsc = none) (hok : explicit_ok E cd (decide (cont.w_set = E.size_auto))) :
    ∃ c1, _lv_grid_calc E S cont c = some c1 ∧
      c1.row_num = (cont.children.length + cd.length - 1) / cd.length + 1 := by
  obtain ⟨off, sz, h1, -⟩ := calc_explicit_spec E cd _ cont.width_fit
    (Buf.get S.x cd.length) (Buf.get S.w cd.length) hok
  have hlen : g.col_dsc_len = cd.length := by
    simp only [lv_grid_t.col_dsc_len, hc, Option.getD_some]
  have hne : g.col_dsc_len ≠ 0 := by
    rw [hlen]
    exact fun h => hok.1 (List.length_eq_zero.mp h)
  obtain ⟨c2, h2, hn, -⟩ := calc_implicit_rows_num E S cont g
    { c with col_num := cd.length, x := off, w := sz } hne
  unfold _lv_grid_calc
  simp only [hg, hc, hr]
  rw [calc_explicit_cols_eq E S cont g c cd hc off sz h1]
  simp only [Option.some_bind, h2, Option.map_some']
  refine ⟨_, rfl, ?_⟩
  rw [← hlen, ← hn]
  rfl

/-- The number of columns of the result of `_lv_grid_calc` on a container with
explicit rows and implicit columns. -/
theorem lv_grid_calc_col_num (E : GridEnv) (S : Scratch) (cont : lv_obj_t) (g : lv_grid_t)
    (c : lv_grid_calc_t) (rd : List Int) (hg : cont.grid = some g) (hc : g.col_dsc = none)
    (hr : g.row_dsc = some rd) (hok : explicit_ok E rd (decide (cont.h_set = E.size_auto))) :
    ∃ c1, _lv_grid_calc E S cont c = some c1 ∧
      c1.col_num = (cont.children.length + rd.length - 1) / rd.length + 1 := by
  have hlen : g.row_dsc_len = rd.length := by
    simp only [lv_grid_t.row_dsc_len, hr, Option.getD_some]
  have hne : g.row_dsc_len ≠ 0 := by
    rw [hlen]
    exact fun h => hok.1 (List.length_eq_zero.mp h)
  obtain ⟨c2, h2, hn, -⟩ := calc_implicit_cols_num E S cont g c hne
  obtain ⟨off, sz, h1, -⟩ := calc_explicit_spec E rd _ cont.height_fit
    (Buf.get S.y rd.length) (Buf.get S.h rd.length) hok
  unfold _lv_grid_calc
  simp only [hg, hc, hr]
  simp only [h2, Option.some_bind]
  rw [calc_explicit_rows_eq E S cont g c2 rd hr off sz h1]
  simp only [Option.map_some']
  refine ⟨_, rfl, ?_⟩
  rw [← hlen, ← hn]
  rfl

/-- C7 (amended): for a container with exactly one explicit axis of `n ≥ 1` tracks,
resolved to its end, the number of tracks `_lv_grid_calc` produces on the implicit
axis is `ceil(child_count / n) + 1`, where `child_count` is the number of all the
children of the container (`lv_obj_count_children`); this is at least
`ceil(item_count / n) + 1` for the number `item_count` of grid-cell children, and
equal to it when every child is a grid cell. -/
theorem C7_implicit_track_count (E : GridEnv) (S : Scratch) (cont : lv_obj_t) (g : lv_grid_t)
    (c : lv_grid_calc_t) (dsc : List Int) (hg : cont.grid = some g) :
    (g.col_dsc = some dsc → g.row_dsc = none →
      explicit_ok E dsc (decide (cont.w_set = E.size_auto)) →
      ∃ c1, _lv_grid_calc E S cont c = some c1 ∧
        c1.row_num = ceil_div cont.children.length dsc.length + 1 ∧
        ceil_div (grid_cells E cont).length dsc.length + 1 ≤ c1.row_num ∧
        ((∀ x ∈ cont.children, is_grid_cell E x = true) →
          c1.row_num = ceil_div (grid_cells E cont).length dsc.length + 1)) ∧
    (g.col_dsc = none → g.row_dsc = some dsc →
      explicit_ok E dsc (decide (cont.h_set = E.size_auto)) →
      ∃ c1, _lv_grid_calc E S cont c = some c1 ∧
        c1.col_num = ceil_div cont.children.length dsc.length + 1 ∧
        ceil_div (grid_cells E cont).length dsc.length + 1 ≤ c1.col_num ∧
        ((∀ x ∈ cont.children, is_grid_cell E x = true) →
          c1.col_num = ceil_div (grid_cells E cont).length dsc.length + 1)) := by
  have hcells : (grid_cells E cont).length ≤ cont.children.length := List.length_filter_le _ _
  have hall : (∀ x ∈ cont.children, is_grid_cell E x = true) →
      (grid_cells E cont).length = cont.children.length := by
    intro h
    unfold grid_cells
    rw [List.filter_eq_self.mpr h]
  constructor
  · intro hc hr hok
    have hn : 0 < dsc.length := List.length_pos.mpr hok.1
    obtain ⟨c1, h1, h2⟩ := lv_grid_calc_row_num E S cont g c dsc hg hc hr hok
    rw [add_pred_div_eq_ceil _ _ hn] at h2
    refine ⟨c1, h1, h2, ?_, fun h => ?_⟩
    · rw [h2]
      exact Nat.add_le_add_right (ceil_div_mono _ _ _ hn hcells) 1
    · rw [h2, hall h]
  · intro hc hr hok
    have hn : 0 < dsc.length := List.length_pos.mpr hok.1
    obtain ⟨c1, h1, h2⟩ := lv_grid_calc_col_num E S cont g c dsc hg hc hr hok
    rw [add_pred_div_eq_ceil _ _ hn] at h2
    refine ⟨c1, h1, h2, ?_, fun h => ?_⟩
    · rw [h2]
      exact Nat.add_le_add_right (ceil_div_mono _ _ _ hn hcells) 1
    · rw [h2, hall h]

/-- C7, witness: five grid cells in two explicit columns, and in two explicit
rows. -/
theorem C7_witness :
    (∃ c1, _lv_grid_calc env16 scratch7 cont_cols5 calc0 = some c1 ∧
        c1.row_num = ceil_div cont_cols5.children.length 2 + 1 ∧
        ceil_div (grid_cells env16 cont_cols5).length 2 + 1 ≤ c1.row_num ∧
        ((∀ x ∈ cont_cols5.children, is_grid_cell env16 x = true) →
          c1.row_num = ceil_div (grid_cells env16 cont_cols5).length 2 + 1)) ∧
    (∃ c1, _lv_grid_calc env16 scratch7 cont_rows5 calc0 = some c1 ∧
        c1.col_num = ceil_div cont_rows5.children.length 2 + 1 ∧
        ceil_div (grid_cells env16 cont_rows5).length 2 + 1 ≤ c1.col_num ∧
        ((∀ x ∈ cont_rows5.children, is_grid_cell env16 x = true) →
          c1.col_num = ceil_div (grid_cells env16 cont_rows5).length 2 + 1)) :=
  ⟨(C7_implicit_track_count env16 scratch7 cont_cols5 grid_cols2 calc0 [10, 24577] rfl).1
      rfl rfl (by unfold explicit_ok; decide),
   (C7_implicit_track_count env16 scratch7 cont_rows5 grid_rows2 calc0 [10, 24577] rfl).2
      rfl rfl (by unfold explicit_ok; decide)⟩

/-- C7, counterexample: a container with two explicit columns and three children
of which one is a grid cell gets 3 rows, where `ceil(1 / 2) + 1` is 2. -/
theorem C7_counterexample :
    cont_mixed.grid = some grid_cols2 ∧ grid_cols2.col_dsc = some [10, 24577] ∧
    grid_cols2.row_dsc = none ∧ (grid_cells env16 cont_mixed).length = 1 ∧
    ∃ c1, _lv_grid_calc env16 scratch7 cont_mixed calc0 = some c1 ∧ c1.row_num = 3 ∧
      c1.row_num ≠ ceil_div (grid_cells env16 cont_mixed).length 2 + 1 := by
  have h1 : (grid_cells env16 cont_mixed).length = 1 := by decide
  refine ⟨rfl, rfl, rfl, h1, _, rfl, rfl, ?_⟩
  rw [h1, ← add_pred_div_eq_ceil 1 2 (by decide)]
  decide

/-- From the start of the scan (cursor at the origin, first track at 0) every track
is the maximum of the natural sizes of its cells. -/
theorem scan_track_is_max (E : GridEnv) (n : Nat) (hn : n ≠ 0) (f : lv_obj_t → Int)
    (children : List lv_obj_t) (sz : Buf) (h0 : sz.mem 0 = 0) (r : Nat) :
    track_is_max n f (children.filter (is_grid_cell E))
      (implicit_scan E n f children 0 0 sz).2.2 r := by
  obtain ⟨ha, hlt, -, -, hc, hd, -⟩ := implicit_scan_inv E n f children 0 0 sz (by omega)
  generalize implicit_scan E n f children 0 0 sz = res at ha hlt hc hd ⊢
  simp only [Nat.zero_mul, Nat.zero_add, Nat.add_zero] at ha hc hd
  constructor
  · intro k x hk hr
    rw [← hr]
    exact hc k x hk
  · rintro ⟨k0, x0, hk0, hr0, hf0⟩
    have hlen : k0 < (children.filter (is_grid_cell E)).length := by
      obtain ⟨h, -⟩ := List.getElem?_eq_some.mp hk0
      exact h
    have hrle : r ≤ res.2.1 := by
      have : k0 < (res.2.1 + 1) * n := by
        rw [Nat.add_mul, Nat.one_mul]
        omega
      have := (Nat.div_lt_iff_lt_mul (by omega)).mpr this
      omega
    rcases hd r (Nat.zero_le _) hrle with h | ⟨k, x, hk, hr, hval⟩
    · have hz : res.2.2.mem r = 0 := by
        rw [h]
        by_cases hr : r = 0
        · simp [hr, h0]
        · simp [hr]
      have hub := hc k0 x0 hk0
      rw [hr0, hz] at hub
      exact ⟨k0, x0, hk0, hr0, by rw [hz]; omega⟩
    · exact ⟨k, x, hk, hr, hval⟩

/-- C8: for a container with explicit columns (at least one) and implicit rows,
`calc_implicit_rows` returns and the height `h[r]` of every row is the maximum of
the natural heights of the grid-cell children landing in it, the `k`-th landing in
row `k / col_count` (`track_is_max`: at least each of them, and one of them when one
of them is not negative); the natural height is the auto-size query result for a
child with the y flag STRETCH and the current height otherwise. The same holds for
the widths with `calc_implicit_cols`. -/
theorem C8_implicit_max_content (E : GridEnv) (S : Scratch) (cont : lv_obj_t) (g : lv_grid_t)
    (c : lv_grid_calc_t) (dsc : List Int) (hne : dsc ≠ []) :
    (g.col_dsc = some dsc →
      ∃ c1, calc_implicit_rows E S cont g c = some c1 ∧
        ∀ r, track_is_max dsc.length (natural_height E) (grid_cells E cont) c1.h r) ∧
    (g.row_dsc = some dsc →
      ∃ c1, calc_implicit_cols E S cont g c = some c1 ∧
        ∀ r, track_is_max dsc.length (natural_width E) (grid_cells E cont) c1.w r) := by
  have hn : dsc.length ≠ 0 := fun h => hne (List.length_eq_zero.mp h)
  constructor
  · intro hd
    have hlen : g.col_dsc_len = dsc.length := by
      simp only [lv_grid_t.col_dsc_len, hd, Option.getD_some]
    obtain ⟨c1, h1, -, h2⟩ := calc_implicit_rows_num E S cont g c (by rw [hlen]; exact hn)
    refine ⟨c1, h1, fun r => ?_⟩
    rw [h2, hlen]
    exact scan_track_is_max E dsc.length hn _ cont.children _ (Buf.mem_write_same _ _ _) r
  · intro hd
    have hlen : g.row_dsc_len = dsc.length := by
      simp only [lv_grid_t.row_dsc_len, hd, Option.getD_some]
    obtain ⟨c1, h1, -, h2⟩ := calc_implicit_cols_num E S cont g c (by rw [hlen]; exact hn)
    refine ⟨c1, h1, fun r => ?_⟩
    rw [h2, hlen]
    exact scan_track_is_max E dsc.length hn _ cont.children _ (Buf.mem_write_same _ _ _) r

/-- C8, witness: five grid cells of heights 6, 3, 9, 4, 2 in two explicit columns
(the row heights are 6, 9, 2) and of widths 5, 8, 2, 7, 1 in two explicit rows (the
column widths are 8, 7, 1). -/
theorem C8_witness :
    (∃ c1, calc_implicit_rows env16 scratch7 cont_cols5 grid_cols2 calc0 = some c1 ∧
        (∀ r, track_is_max 2 (natural_height env16) (grid_cells env16 cont_cols5) c1.h r) ∧
        c1.h.mem 0 = 6 ∧ c1.h.mem 1 = 9 ∧ c1.h.mem 2 = 2) ∧
    (∃ c1, calc_implicit_cols env16 scratch7 cont_rows5 grid_rows2 calc0 = some c1 ∧
        (∀ r, track_is_max 2 (natural_width env16) (grid_cells env16 cont_rows5) c1.w r) ∧
        c1.w.mem 0 = 8 ∧ c1.w.mem 1 = 7 ∧ c1.w.mem 2 = 1) := by
  obtain ⟨c1, h1, h2⟩ := (C8_implicit_max_content env16 scratch7 cont_cols5 grid_cols2 calc0
    [10, 24577] (by decide)).1 rfl
  obtain ⟨c2, h3, h4⟩ := (C8_implicit_max_content env16 scratch7 cont_rows5 grid_rows2 calc0
    [10, 24577] (by decide)).2 rfl
  have e1 : calc_implicit_rows env16 scratch7 cont_cols5 grid_cols2 calc0 = some _ := rfl
  have e2 : calc_implicit_cols env16 scratch7 cont_rows5 grid_rows2 calc0 = some _ := rfl
  rw [e1] at h1
  rw [e2] at h3
  obtain rfl := Option.some.inj h1
  obtain rfl := Option.some.inj h3
  exact ⟨⟨_, e1, h2, by decide, by decide, by decide⟩, ⟨_, e2, h4, by decide, by decide, by decide⟩⟩

/-- The cell at the index `p` of a row-major numbering with `n` columns. -/
theorem full_refresh_cells_rows (E : GridEnv) (g : lv_grid_t) (dsc : List Int)
    (hc : g.col_dsc = some dsc) (hr : g.row_dsc = none) (children : List lv_obj_t) :
    ∀ (before : List lv_obj_t) (hint : item_repos_hint_t), hint.col < dsc.length →
      full_refresh_cells E g children before hint =
        (List.range (children.filter (is_grid_cell E)).length).map
          (fun k => (⟨(hint.row * dsc.length + hint.col + k) % dsc.length, 1,
            (hint.row * dsc.length + hint.col + k) / dsc.length, 1⟩ : cell_span_t)) := by
  have hlen : g.col_dsc_len = dsc.length := by
    simp only [lv_grid_t.col_dsc_len, hc, Option.getD_some]
  induction children with
  | nil => intro before hint _; simp [full_refresh_cells]
  | cons x rest ih =>
    intro before hint hcol
    rw [full_refresh_cells]
    by_cases hx : is_grid_cell E x = true
    · have hfilter : (x :: rest).filter (is_grid_cell E) = x :: rest.filter (is_grid_cell E) := by
        simp [List.filter_cons, hx]
      rw [hfilter, List.length_cons, List.range_succ_eq_map, List.map_cons, List.map_map]
      have hmod : (hint.row * dsc.length + hint.col) % dsc.length = hint.col := by
        rw [Nat.add_comm, Nat.add_mul_mod_self_right, Nat.mod_eq_of_lt hcol]
      have hdiv : (hint.row * dsc.length + hint.col) / dsc.length = hint.row :=
        div_of_cursor _ _ _ hcol
      simp only [hx, if_true, _lv_obj_is_grid_item, item_repos_cell, hc, hr, Option.isSome_none,
        Option.isSome_some, Bool.false_and, Bool.false_eq_true, Bool.true_eq_false, if_false,
        Option.isNone_none, hlen, ge_iff_le]
      by_cases hwrap : dsc.length ≤ hint.col + 1
      · simp only [hwrap, if_true]
        rw [ih _ _ (by simp; omega)]
        have hp : (hint.row + 1) * dsc.length + 0 = hint.row * dsc.length + hint.col + 1 := by
          rw [Nat.add_mul]
          omega
        simp only [hp, Nat.add_zero, hmod, hdiv]
        congr 1
        apply List.map_congr_left
        intro k _
        simp only [Function.comp, Nat.succ_eq_add_one]
        rw [Nat.add_right_comm _ 1 k, Nat.add_assoc _ k 1]
      · simp only [hwrap, if_false]
        rw [ih _ _ (by simp; omega)]
        simp only [Nat.add_zero, hmod, hdiv]
        congr 1
        apply List.map_congr_left
        intro k _
        simp only [Function.comp, Nat.succ_eq_add_one]
        rw [← Nat.add_assoc, Nat.add_right_comm _ 1 k, Nat.add_assoc _ k 1]
    · have hfilter : (x :: rest).filter (is_grid_cell E) = rest.filter (is_grid_cell E) := by
        simp [List.filter_cons, hx]
      simp only [hx, Bool.false_eq_true, if_false]
      rw [hfilter]
      exact ih _ _ hcol

/-- With explicit rows and implicit columns the cursor of the hint never moves:
`item_repos` tests `hint->row` against `row_dsc_len` without incrementing it, so
every grid-cell child gets the cell of column 0 and row 0. -/
theorem full_refresh_cells_cols_stuck (E : GridEnv) (g : lv_grid_t) (dsc : List Int)
    (hc : g.col_dsc = none) (hr : g.row_dsc = some dsc) (hne : dsc ≠ [])
    (children : List lv_obj_t) (abs : lv_point_t) :
    ∀ (before : List lv_obj_t),
      full_refresh_cells E g children before ⟨0, 0, abs⟩ =
        (children.filter (is_grid_cell E)).map (fun _ => (⟨0, 1, 0, 1⟩ : cell_span_t)) := by
  have hlen : g.row_dsc_len = dsc.length := by
    simp only [lv_grid_t.row_dsc_len, hr, Option.getD_some]
  have hn : ¬ dsc.length ≤ 0 := by
    have := List.length_pos.mpr hne
    omega
  induction children with
  | nil => intro before; simp [full_refresh_cells]
  | cons x rest ih =>
    intro before
    rw [full_refresh_cells]
    by_cases hx : is_grid_cell E x = true
    · simp only [hx, if_true, _lv_obj_is_grid_item, item_repos_cell, hc, hr, Option.isSome_none,
        Option.isSome_some, Bool.and_false, Bool.false_eq_true, Bool.true_eq_false, if_false,
        Option.isNone_some, hlen, ge_iff_le, hn, List.filter_cons, List.map_cons]
      rw [ih]
    · simp only [hx, Bool.false_eq_true, if_false, List.filter_cons]
      exact ih _

/-- C10, the code at the failing input: with the two explicit rows 10 and 1fr and
implicit columns, the five grid-cell children of `cont_rows5` all get column 0 and
row 0; the second child (`k = 1`) should get column `1 div 2 = 0` and row
`1 mod 2 = 1`. -/
theorem C10_column_major_not_done :
    cont_rows5.grid = some grid_rows2 ∧ grid_rows2.col_dsc = none ∧
    grid_rows2.row_dsc = some [10, 24577] ∧
    (_lv_grid_full_refresh_cells env16 scratch7 cont_rows5 calc0).map
        (fun cells => cells.map (fun s => (s.col_pos, s.row_pos))) =
      some [(0, 0), (0, 0), (0, 0), (0, 0), (0, 0)] ∧
    (_lv_grid_full_refresh_cells env16 scratch7 cont_rows5 calc0).map
        (fun cells => cells.map (fun s => (s.col_pos, s.row_pos))) ≠
      some ((List.range 5).map (fun k => (k / 2, k % 2))) := by
  refine ⟨rfl, rfl, rfl, by decide, by decide⟩

/-! ## Placement without a hint -/

theorem filter_take_lt (E : GridEnv) (children : List lv_obj_t) :
    ∀ (idx : Nat) (item : lv_obj_t), children[idx]? = some item → is_grid_cell E item = true →
      child_id_scan E (children.take idx) < (children.filter (is_grid_cell E)).length := by
  induction children with
  | nil => intro idx item h; simp at h
  | cons x rest ih =>
    intro idx item h hcell
    cases idx with
    | zero =>
      simp at h
      subst h
      simp [child_id_scan, List.filter_cons, hcell]
    | succ idx =>
      simp at h
      have := ih idx item h hcell
      unfold child_id_scan at this ⊢
      by_cases hx : is_grid_cell E x = true
      · simp [List.take_succ_cons, List.filter_cons, hx]
        exact this
      · simp [List.take_succ_cons, List.filter_cons, hx]
        exact this

/-- With explicit columns and implicit rows the cell derived without a hint for a
grid-cell child is the cell that the sweep of `_lv_grid_full_refresh` gives to it. -/
theorem hint_agrees_rows (E : GridEnv) (g : lv_grid_t) (dsc : List Int)
    (hc : g.col_dsc = some dsc) (hr : g.row_dsc = none) (hne : dsc ≠ [])
    (children : List lv_obj_t) (hint : item_repos_hint_t) (h0 : hint.col = 0) (h1 : hint.row = 0)
    (idx : Nat) (item : lv_obj_t) (hi : children[idx]? = some item)
    (hcell : is_grid_cell E item = true) :
    (full_refresh_cells E g children [] hint)[child_id_scan E (children.take idx)]? =
      some (item_repos_cell E g (children.take idx) item none).1 := by
  have hn : 0 < dsc.length := List.length_pos.mpr hne
  have hlen : g.col_dsc_len = dsc.length := by
    simp only [lv_grid_t.col_dsc_len, hc, Option.getD_some]
  rw [full_refresh_cells_rows E g dsc hc hr children [] hint (by omega), h0, h1]
  rw [List.getElem?_map, List.getElem?_range (filter_take_lt E children idx item hi hcell)]
  simp [item_repos_cell, hc, hr, hlen]

/-- C11, the code at the failing input: in `cont_rows5` (two explicit rows,
implicit columns, five grid cells) the second child gets column 0 and row 1 without
a hint, and column 0 and row 0 from the hint cursor of `_lv_grid_full_refresh`. -/
theorem C11_hint_and_scan_differ :
    cont_rows5.grid = some grid_rows2 ∧
    cont_rows5.children[1]? = some (mk_item 24576 24576 8 3) ∧
    (item_repos_cell env16 grid_rows2 (cont_rows5.children.take 1)
      (mk_item 24576 24576 8 3) none).1 = ⟨0, 1, 1, 1⟩ ∧
    (_lv_grid_full_refresh_cells env16 scratch7 cont_rows5 calc0).map (fun cells => cells[1]?) =
      some (some ⟨0, 1, 0, 1⟩) := by
  refine ⟨rfl, rfl, by decide, by decide⟩

/-! ## Geometry of an item: lemmas -/

theorem span_last_of_ok (pos span : Nat) (h1 : 1 ≤ pos + span) (h2 : pos + span < 4294967296) :
    span_last pos span = pos + span - 1 := by
  unfold span_last
  omega

theorem span_ok_wraps (s : cell_span_t) (h : span_ok s) : span_wraps s = false := by
  obtain ⟨h1, h2, h3, h4⟩ := h
  unfold span_wraps
  rw [span_last_of_ok _ _ h1 h2, span_last_of_ok _ _ h3 h4]
  simp only [Bool.or_eq_false_iff, decide_eq_false_iff_not]
  omega

theorem item_repos_some (E : GridEnv) (grid : lv_grid_t) (c : lv_grid_calc_t)
    (before : List lv_obj_t) (item : lv_obj_t) (hint : Option item_repos_hint_t)
    (h : _lv_obj_is_grid_item E item = true)
    (hs : span_wraps (item_repos_cell E grid before item hint).1 = false) :
    item_repos E grid c before item hint =
      some (item_repos_geom E c item (item_repos_cell E grid before item hint).1 hint,
        (item_repos_cell E grid before item hint).2) := by
  unfold item_repos
  simp [h, hs]

/-- A decision of `item_repos` is taken for a grid item none of whose span indices
has wrapped around. -/
theorem item_repos_of_some (E : GridEnv) (grid : lv_grid_t) (c : lv_grid_calc_t)
    (before : List lv_obj_t) (item : lv_obj_t) (hint : Option item_repos_hint_t)
    (r : repos_t) (hint1 : Option item_repos_hint_t)
    (h : item_repos E grid c before item hint = some (r, hint1)) :
    _lv_obj_is_grid_item E item = true ∧
    span_wraps (item_repos_cell E grid before item hint).1 = false ∧
    r = item_repos_geom E c item (item_repos_cell E grid before item hint).1 hint ∧
    hint1 = (item_repos_cell E grid before item hint).2 := by
  unfold item_repos at h
  by_cases hi : _lv_obj_is_grid_item E item = false
  · rw [if_pos hi] at h
    cases h
  · rw [if_neg hi] at h
    by_cases hs : span_wraps (item_repos_cell E grid before item hint).1 = true
    · simp only [hs, if_true] at h
      cases h
    · simp only [hs, Bool.false_eq_true, if_false, Option.some.injEq, Prod.mk.injEq] at h
      exact ⟨by simpa using hi, by simpa using hs, h.1.symm, h.2.symm⟩

/-- On the x axis a stretched item gets the start of its span as position and the
length of its span as width, when the end and the length of the span are
representable. -/
theorem stretch_x_fills_span (E : GridEnv) (hb : 1 ≤ E.coord_bits) (c : lv_grid_calc_t)
    (item : lv_obj_t) (s : cell_span_t) (hint : Option item_repos_hint_t)
    (hf : E.get_cell_flag item.x_set = lv_grid_align.STRETCH)
    (hs1 : 1 ≤ s.col_pos + s.col_span) (hs2 : s.col_pos + s.col_span < 4294967296)
    (h1 : E.in_coord (span_end c.x c.w s.col_pos s.col_span))
    (h2 : E.in_coord (span_length c.x c.w s.col_pos s.col_span)) :
    (item_repos_geom E c item s hint).x = span_start c.x s.col_pos ∧
    (item_repos_geom E c item s hint).w = span_length c.x c.w s.col_pos s.col_span := by
  unfold span_end at h1
  unfold span_length span_end span_start at h2
  simp only [item_repos_geom, repos_align_x, hf, repos_col_w, span_start, span_length, span_end,
    span_last_of_ok _ _ hs1 hs2]
  rw [coord_of_in E hb h1, coord_of_in E hb h2]
  constructor <;> trivial

/-- C12, the code at the failing input: the item `item_stretch`, stretched on both
axes at column 1 and row 0 of the columns 30, 50 and the rows 20, 40, gets the
width 50 of its column, and the height 40 where its row span has the length 20:
`row_y2` adds `calc->h[col_pos + col_span - 1]`, the height of row 1. -/
theorem C12_stretch_height_uses_column_index :
    ∃ c r, _lv_grid_calc env16 scratch7 (cont_2x2 item_stretch) calc0 = some c ∧
      item_repos env16 grid_2x2 c [] item_stretch none = some (r, none) ∧
      r.cell = ⟨1, 1, 0, 1⟩ ∧
      env16.get_cell_flag item_stretch.x_set = lv_grid_align.STRETCH ∧
      env16.get_cell_flag item_stretch.y_set = lv_grid_align.STRETCH ∧
      r.x = span_start c.x 1 ∧ r.w = 50 ∧ span_length c.x c.w 1 1 = 50 ∧
      r.y = span_start c.y 0 ∧ r.h = 40 ∧ span_length c.y c.h 0 1 = 20 ∧
      lv_obj_get_height env16 (item_stretch.update
        (repos_coords env16 (grid_origin env16 (cont_2x2 item_stretch)) item_stretch r)
        r.w_set r.h_set []) = 40 := by
  refine ⟨_, _, rfl, rfl, ?_⟩
  decide

theorem coord_idem (E : GridEnv) (v : Int) : E.coord (E.coord v) = E.coord v :=
  coord_congr E (coord_modEq E v)

theorem lv_obj_t.coords_update (o : lv_obj_t) (a : lv_area_t) (ws hs : Int)
    (cs : List lv_obj_t) : (o.update a ws hs cs).coords = a := by
  cases o; rfl

/-- The width of the box of an item after `item_repos`, when the width it applies
is the width of the item: the resize and the move keep it. -/
theorem repos_coords_width (E : GridEnv) (origin : lv_point_t) (item : lv_obj_t) (r : repos_t)
    (hw : r.w = lv_obj_get_width E item) :
    E.coord ((repos_coords E origin item r).x2 - (repos_coords E origin item r).x1 + 1) =
      lv_obj_get_width E item := by
  have hset : E.coord ((lv_area_set_height E (lv_area_set_width E item.coords r.w) r.h).x2 -
      (lv_area_set_height E (lv_area_set_width E item.coords r.w) r.h).x1 + 1) =
      lv_obj_get_width E item := by
    simp only [lv_area_set_height, lv_area_set_width]
    have h1 : E.coord (item.coords.x1 + r.w - 1) - item.coords.x1 + 1 ≡ r.w
        [ZMOD 2 ^ E.coord_bits] := by
      have := ((coord_modEq E (item.coords.x1 + r.w - 1)).sub_right item.coords.x1).add_right 1
      have e : item.coords.x1 + r.w - 1 - item.coords.x1 + 1 = r.w := by ring
      rwa [e] at this
    rw [coord_congr E h1, hw, lv_obj_get_width, coord_idem]
  have hmove : ∀ a : lv_area_t, E.coord (a.x2 - a.x1 + 1) = lv_obj_get_width E item →
      E.coord ((_lv_obj_move_to E origin a r.x r.y).x2 -
        (_lv_obj_move_to E origin a r.x r.y).x1 + 1) = lv_obj_get_width E item := by
    intro a ha
    simp only [_lv_obj_move_to]
    rw [← ha]
    apply coord_congr
    have h1 := coord_modEq E (a.x2 + E.coord (E.coord (r.x + origin.x) - a.x1))
    have h2 := coord_modEq E (a.x1 + E.coord (E.coord (r.x + origin.x) - a.x1))
    have h3 := (h1.sub h2).add_right 1
    have e : a.x2 + E.coord (E.coord (r.x + origin.x) - a.x1) -
        (a.x1 + E.coord (E.coord (r.x + origin.x) - a.x1)) + 1 = a.x2 - a.x1 + 1 := by ring
    rwa [e] at h3
  unfold repos_coords
  by_cases hr : r.resized = true <;> by_cases hm : r.moved = true
  · simp only [hr, hm, if_true]
    exact hmove _ hset
  · simp only [hr, hm, if_true, Bool.false_eq_true, if_false]
    exact hset
  · simp only [hr, hm, if_true, Bool.false_eq_true, if_false]
    exact hmove _ rfl
  · simp only [hr, hm, Bool.false_eq_true, if_false]
    rfl

/-- The height of the box of an item after `item_repos`, when the height it
applies is the height of the item: the resize and the move keep it. -/
theorem repos_coords_height (E : GridEnv) (origin : lv_point_t) (item : lv_obj_t) (r : repos_t)
    (hh : r.h = lv_obj_get_height E item) :
    E.coord ((repos_coords E origin item r).y2 - (repos_coords E origin item r).y1 + 1) =
      lv_obj_get_height E item := by
  have hset : E.coord ((lv_area_set_height E (lv_area_set_width E item.coords r.w) r.h).y2 -
      (lv_area_set_height E (lv_area_set_width E item.coords r.w) r.h).y1 + 1) =
      lv_obj_get_height E item := by
    simp only [lv_area_set_height, lv_area_set_width]
    have h1 : E.coord (item.coords.y1 + r.h - 1) - item.coords.y1 + 1 ≡ r.h
        [ZMOD 2 ^ E.coord_bits] := by
      have := ((coord_modEq E (item.coords.y1 + r.h - 1)).sub_right item.coords.y1).add_right 1
      have e : item.coords.y1 + r.h - 1 - item.coords.y1 + 1 = r.h := by ring
      rwa [e] at this
    rw [coord_congr E h1, hh, lv_obj_get_height, coord_idem]
  have hmove : ∀ a : lv_area_t, E.coord (a.y2 - a.y1 + 1) = lv_obj_get_height E item →
      E.coord ((_lv_obj_move_to E origin a r.x r.y).y2 -
        (_lv_obj_move_to E origin a r.x r.y).y1 + 1) = lv_obj_get_height E item := by
    intro a ha
    simp only [_lv_obj_move_to]
    rw [← ha]
    apply coord_congr
    have h1 := coord_modEq E (a.y2 + E.coord (E.coord (r.y + origin.y) - a.y1))
    have h2 := coord_modEq E (a.y1 + E.coord (E.coord (r.y + origin.y) - a.y1))
    have h3 := (h1.sub h2).add_right 1
    have e : a.y2 + E.coord (E.coord (r.y + origin.y) - a.y1) -
        (a.y1 + E.coord (E.coord (r.y + origin.y) - a.y1)) + 1 = a.y2 - a.y1 + 1 := by ring
    rwa [e] at h3
  unfold repos_coords
  by_cases hr : r.resized = true <;> by_cases hm : r.moved = true
  · simp only [hr, hm, if_true]
    exact hmove _ hset
  · simp only [hr, hm, if_true, Bool.false_eq_true, if_false]
    exact hset
  · simp only [hr, hm, if_true, Bool.false_eq_true, if_false]
    exact hmove _ rfl
  · simp only [hr, hm, Bool.false_eq_true, if_false]
    rfl

/-- C13: for a grid item and any calc, hint and container origin, when no index
`pos + span - 1` of lines 462 and 466 wraps around to 4294967295 (as with
`1 ≤ pos + span` on both axes; the read at a wrapped index has no result),
`item_repos` takes a decision, and on an axis whose alignment flag is START, CENTER
or END (not STRETCH) the size it applies is the size of the item before the call,
the size mode of the axis is left as it is, and the size of the item after the call
is the size before it, whatever the flag of the other axis. -/
theorem C13_non_stretch_keeps_size (E : GridEnv) (grid : lv_grid_t) (c : lv_grid_calc_t)
    (before : List lv_obj_t) (item : lv_obj_t) (hint : Option item_repos_hint_t)
    (origin : lv_point_t) (cs : List lv_obj_t) (hitem : _lv_obj_is_grid_item E item = true)
    (hspan : span_wraps (item_repos_cell E grid before item hint).1 = false) :
    ∃ r hint1, item_repos E grid c before item hint = some (r, hint1) ∧
      (E.get_cell_flag item.x_set ≠ lv_grid_align.STRETCH →
        r.w = lv_obj_get_width E item ∧ r.w_set = item.w_set ∧
        lv_obj_get_width E (item.update (repos_coords E origin item r) r.w_set r.h_set cs) =
          lv_obj_get_width E item) ∧
      (E.get_cell_flag item.y_set ≠ lv_grid_align.STRETCH →
        r.h = lv_obj_get_height E item ∧ r.h_set = item.h_set ∧
        lv_obj_get_height E (item.update (repos_coords E origin item r) r.w_set r.h_set cs) =
          lv_obj_get_height E item) := by
  refine ⟨_, _, item_repos_some E grid c before item hint hitem hspan, ?_, ?_⟩
  · intro hf
    have hw : (item_repos_geom E c item (item_repos_cell E grid before item hint).1 hint).w =
        lv_obj_get_width E item := by
      simp only [item_repos_geom, repos_align_x]
      cases hflag : E.get_cell_flag item.x_set <;> simp_all
    refine ⟨hw, ?_, ?_⟩
    · simp only [item_repos_geom, repos_align_x]
      cases hflag : E.get_cell_flag item.x_set <;> simp_all
    · rw [lv_obj_get_width, lv_obj_t.coords_update]
      exact repos_coords_width E origin item _ hw
  · intro hf
    have hh : (item_repos_geom E c item (item_repos_cell E grid before item hint).1 hint).h =
        lv_obj_get_height E item := by
      simp only [item_repos_geom, repos_align_y]
      cases hflag : E.get_cell_flag item.y_set <;> simp_all
    refine ⟨hh, ?_, ?_⟩
    · simp only [item_repos_geom, repos_align_y]
      cases hflag : E.get_cell_flag item.y_set <;> simp_all
    · rw [lv_obj_get_height, lv_obj_t.coords_update]
      exact repos_coords_height E origin item _ hh

/-- C13, witness: the item `item_center_wide` (centered on x, start on y) in the
grid of the columns 30, 50 and the rows 20, 40. -/
theorem C13_witness :
    ∃ r hint1, item_repos env16 grid_2x2 calc0 [] item_center_wide none = some (r, hint1) ∧
      (env16.get_cell_flag item_center_wide.x_set ≠ lv_grid_align.STRETCH →
        r.w = lv_obj_get_width env16 item_center_wide ∧ r.w_set = item_center_wide.w_set ∧
        lv_obj_get_width env16 (item_center_wide.update
          (repos_coords env16 ⟨0, 0⟩ item_center_wide r) r.w_set r.h_set []) =
          lv_obj_get_width env16 item_center_wide) ∧
      (env16.get_cell_flag item_center_wide.y_set ≠ lv_grid_align.STRETCH →
        r.h = lv_obj_get_height env16 item_center_wide ∧ r.h_set = item_center_wide.h_set ∧
        lv_obj_get_height env16 (item_center_wide.update
          (repos_coords env16 ⟨0, 0⟩ item_center_wide r) r.w_set r.h_set []) =
          lv_obj_get_height env16 item_center_wide) :=
  C13_non_stretch_keeps_size env16 grid_2x2 calc0 [] item_center_wide none ⟨0, 0⟩ []
    (by decide) (by decide)

/-- The position computed for a centered item from the start `s` and the end of its
span, the span length being the `lv_coord_t` difference of the `lv_coord_t` end and
the start: with representable values it is `s + (L - n) / 2` with the quotient
truncated toward zero. -/
theorem center_value (E : GridEnv) (hb : 1 ≤ E.coord_bits) (s e n : Int)
    (h1 : E.in_coord e) (h2 : E.in_coord (e - s))
    (h3 : E.in_coord (s + Int.tdiv (e - s - n) 2)) :
    E.coord (s + Int.tdiv (E.coord (E.coord e - s) - n) 2) = s + Int.tdiv (e - s - n) 2 := by
  rw [coord_of_in E hb h1, coord_of_in E hb h2, coord_of_in E hb h3]

theorem item_repos_geom_cell (E : GridEnv) (c : lv_grid_calc_t) (item : lv_obj_t)
    (s : cell_span_t) (hint : Option item_repos_hint_t) :
    (item_repos_geom E c item s hint).cell = s := rfl

/-- C14 (amended): for a grid item whose spans have a last track (`span_ok`:
`1 ≤ pos + span` on both axes, so that no index of lines 462 and 466 wraps around)
and whose flag on an axis is CENTER, with span start `s`, span length `L` and
current size `n` of the item on that axis, the values being representable in
`lv_coord_t`, `item_repos` takes a decision and computes the position
`s + (L - n) / 2` with the quotient truncated toward zero: on the x axis always, on
the y axis when the size `h[col_pos + col_span - 1]` that the code adds is the size
`h[row_pos + row_span - 1]` of the last row of the span. It is
`s + floor((L - n) / 2)` when the item is not larger than the span; for a span
length of 100 and a size of 30 the position is `s + 35`. -/
theorem C14_center_position (E : GridEnv) (grid : lv_grid_t) (c : lv_grid_calc_t)
    (before : List lv_obj_t) (item : lv_obj_t) (hint : Option item_repos_hint_t)
    (hb : 1 ≤ E.coord_bits) (hitem : _lv_obj_is_grid_item E item = true)
    (hspan : span_ok (item_repos_cell E grid before item hint).1) :
    ∃ r hint1, item_repos E grid c before item hint = some (r, hint1) ∧
      (E.get_cell_flag item.x_set = lv_grid_align.CENTER →
        E.in_coord (span_end c.x c.w r.cell.col_pos r.cell.col_span) →
        E.in_coord (span_length c.x c.w r.cell.col_pos r.cell.col_span) →
        E.in_coord (span_start c.x r.cell.col_pos +
          Int.tdiv (span_length c.x c.w r.cell.col_pos r.cell.col_span -
            lv_obj_get_width E item) 2) →
        r.x = span_start c.x r.cell.col_pos +
            Int.tdiv (span_length c.x c.w r.cell.col_pos r.cell.col_span -
              lv_obj_get_width E item) 2 ∧
        (lv_obj_get_width E item ≤ span_length c.x c.w r.cell.col_pos r.cell.col_span →
          r.x = span_start c.x r.cell.col_pos +
            Int.fdiv (span_length c.x c.w r.cell.col_pos r.cell.col_span -
              lv_obj_get_width E item) 2) ∧
        (span_length c.x c.w r.cell.col_pos r.cell.col_span = 100 →
          lv_obj_get_width E item = 30 → r.x = span_start c.x r.cell.col_pos + 35)) ∧
      (E.get_cell_flag item.y_set = lv_grid_align.CENTER →
        c.h.mem (r.cell.col_pos + r.cell.col_span - 1) =
          c.h.mem (r.cell.row_pos + r.cell.row_span - 1) →
        E.in_coord (span_end c.y c.h r.cell.row_pos r.cell.row_span) →
        E.in_coord (span_length c.y c.h r.cell.row_pos r.cell.row_span) →
        E.in_coord (span_start c.y r.cell.row_pos +
          Int.tdiv (span_length c.y c.h r.cell.row_pos r.cell.row_span -
            lv_obj_get_height E item) 2) →
        r.y = span_start c.y r.cell.row_pos +
            Int.tdiv (span_length c.y c.h r.cell.row_pos r.cell.row_span -
              lv_obj_get_height E item) 2 ∧
        (lv_obj_get_height E item ≤ span_length c.y c.h r.cell.row_pos r.cell.row_span →
          r.y = span_start c.y r.cell.row_pos +
            Int.fdiv (span_length c.y c.h r.cell.row_pos r.cell.row_span -
              lv_obj_get_height E item) 2) ∧
        (span_length c.y c.h r.cell.row_pos r.cell.row_span = 100 →
          lv_obj_get_height E item = 30 → r.y = span_start c.y r.cell.row_pos + 35)) := by
  have hdiv : ∀ L n : Int, n ≤ L → Int.tdiv (L - n) 2 = Int.fdiv (L - n) 2 := by
    intro L n h
    rw [Int.tdiv_eq_ediv (by omega) (by omega), Int.fdiv_eq_ediv _ (by omega)]
  obtain ⟨hs1, hs2, hs3, hs4⟩ := hspan
  have hwr : span_wraps (item_repos_cell E grid before item hint).1 = false :=
    span_ok_wraps _ ⟨hs1, hs2, hs3, hs4⟩
  refine ⟨_, _, item_repos_some E grid c before item hint hitem hwr, ?_, ?_⟩
  · simp only [item_repos_geom_cell]
    intro hf h1 h2 h3
    have hx : (item_repos_geom E c item (item_repos_cell E grid before item hint).1 hint).x =
        span_start c.x (item_repos_cell E grid before item hint).1.col_pos +
          Int.tdiv (span_length c.x c.w (item_repos_cell E grid before item hint).1.col_pos
            (item_repos_cell E grid before item hint).1.col_span - lv_obj_get_width E item) 2 := by
      simp only [item_repos_geom, repos_align_x, hf, repos_col_w, span_last_of_ok _ _ hs1 hs2]
      exact center_value E hb _ _ _ h1 h2 h3
    refine ⟨hx, fun hle => ?_, fun hL hn => ?_⟩
    · rw [hx, hdiv _ _ hle]
    · rw [hx, hL, hn]
      rfl
  · simp only [item_repos_geom_cell]
    intro hf heq h1 h2 h3
    have hy : (item_repos_geom E c item (item_repos_cell E grid before item hint).1 hint).y =
        span_start c.y (item_repos_cell E grid before item hint).1.row_pos +
          Int.tdiv (span_length c.y c.h (item_repos_cell E grid before item hint).1.row_pos
            (item_repos_cell E grid before item hint).1.row_span - lv_obj_get_height E item) 2 := by
      simp only [item_repos_geom, repos_align_y, hf, repos_row_h, span_last_of_ok _ _ hs1 hs2,
        span_last_of_ok _ _ hs3 hs4, heq]
      exact center_value E hb _ _ _ h1 h2 h3
    refine ⟨hy, fun hle => ?_, fun hL hn => ?_⟩
    · rw [hy, hdiv _ _ hle]
    · rw [hy, hL, hn]
      rfl

/-- C14, witness: the item `item_center` of 10 by 10, centered on both axes in the
cell of 30 by 20 at column 0 and row 0, is placed at (10, 5). -/
theorem C14_witness :
    ∃ r hint1, item_repos env16 grid_2x2 calc_2x2 [] item_center none = some (r, hint1) ∧
      r.x = span_start calc_2x2.x r.cell.col_pos +
        Int.tdiv (span_length calc_2x2.x calc_2x2.w r.cell.col_pos r.cell.col_span -
          lv_obj_get_width env16 item_center) 2 ∧
      r.y = span_start calc_2x2.y r.cell.row_pos +
        Int.tdiv (span_length calc_2x2.y calc_2x2.h r.cell.row_pos r.cell.row_span -
          lv_obj_get_height env16 item_center) 2 ∧
      r.x = 10 ∧ r.y = 5 := by
  obtain ⟨r, hint1, h, hx, hy⟩ := C14_center_position env16 grid_2x2 calc_2x2 [] item_center none
    (by decide) (by decide) (by unfold span_ok; decide)
  have e : item_repos env16 grid_2x2 calc_2x2 [] item_center none = some (_, _) := rfl
  rw [e] at h
  obtain ⟨rfl, rfl⟩ := Prod.mk.inj (Option.some.inj h)
  refine ⟨_, _, e, ?_, ?_, by decide, by decide⟩
  · exact (hx (by decide) (by unfold GridEnv.in_coord; decide)
      (by unfold GridEnv.in_coord; decide) (by unfold GridEnv.in_coord; decide)).1
  · exact (hy (by decide) (by decide) (by unfold GridEnv.in_coord; decide)
      (by unfold GridEnv.in_coord; decide) (by unfold GridEnv.in_coord; decide)).1

/-- C14, counterexample: the item `item_center_wide` of width 35, centered on x in
the column of width 30 that starts at 0, is placed at -2: `(30 - 35) / 2` is
truncated toward zero, where `floor((30 - 35) / 2)` gives -3. -/
theorem C14_counterexample :
    ∃ r, item_repos env16 grid_2x2 calc_2x2 [] item_center_wide none = some (r, none) ∧
      env16.get_cell_flag item_center_wide.x_set = lv_grid_align.CENTER ∧
      span_start calc_2x2.x r.cell.col_pos = 0 ∧
      span_length calc_2x2.x calc_2x2.w r.cell.col_pos r.cell.col_span = 30 ∧
      lv_obj_get_width env16 item_center_wide = 35 ∧
      r.x = -2 ∧
      r.x ≠ span_start calc_2x2.x r.cell.col_pos + Int.fdiv (30 - 35) 2 := by
  refine ⟨_, rfl, ?_⟩
  decide

/-- C15, the code at the failing inputs: in the columns 30, 50 (offsets 0, 30) an
item of width 10 aligned to the end of the span of the columns 0 and 1, which ends at
80, is placed at `x[1] - 10 = 20`, not at 70; an item of width 10 aligned to the end
of the last column is placed at `x[2] - 10`, read after the last offset: -3 when the
pool buffer holds 7 there, -1 when it holds 9. -/
theorem C15_end_reads_next_offset :
    (∃ r, item_repos env16 grid_2x2 calc_2x2 [] item_end_span none = some (r, none) ∧
      r.cell = ⟨0, 2, 0, 1⟩ ∧
      env16.get_cell_flag item_end_span.x_set = lv_grid_align.END ∧
      span_end calc_2x2.x calc_2x2.w 0 2 = 80 ∧ lv_obj_get_width env16 item_end_span = 10 ∧
      r.x = 20) ∧
    (∃ r, item_repos env16 grid_2x2 calc_2x2 [] item_end_last none = some (r, none) ∧
      r.cell = ⟨1, 1, 0, 1⟩ ∧
      env16.get_cell_flag item_end_last.x_set = lv_grid_align.END ∧
      calc_2x2.col_num = 2 ∧
      span_end calc_2x2.x calc_2x2.w 1 1 = 80 ∧ lv_obj_get_width env16 item_end_last = 10 ∧
      r.x = -3) ∧
    (∃ r, item_repos env16 grid_2x2 calc_2x2_9 [] item_end_last none = some (r, none) ∧
      span_end calc_2x2_9.x calc_2x2_9.w 1 1 = 80 ∧ r.x = -1) := by
  refine ⟨⟨_, rfl, ?_⟩, ⟨_, rfl, ?_⟩, ⟨_, rfl, ?_⟩⟩ <;> decide

/-- When the offset after `col_pos` is the end of the span (a span of one track that
is not the last one of an explicit axis), the END position is the end of the span
minus the width of the item. -/
theorem end_x_single_inner_track (E : GridEnv) (c : lv_grid_calc_t) (item : lv_obj_t)
    (s : cell_span_t) (hint : Option item_repos_hint_t)
    (hf : E.get_cell_flag item.x_set = lv_grid_align.END)
    (hnext : c.x.mem (s.col_pos + 1) = span_end c.x c.w s.col_pos s.col_span) :
    (item_repos_geom E c item s hint).x =
      E.coord (span_end c.x c.w s.col_pos s.col_span - lv_obj_get_width E item) := by
  simp only [item_repos_geom, repos_align_x, hf, hnext]

/-- C19: `_lv_grid_has_fr_col` returns true exactly when the object has a grid
definition with a column descriptor one of whose entries is a fractional track, and
false otherwise; `_lv_grid_has_fr_row` does the same with the row descriptor. -/
theorem C19_has_fractional_tracks (E : GridEnv) (obj : lv_obj_t) :
    (_lv_grid_has_fr_col E obj = true ↔
      ∃ g dsc, obj.grid = some g ∧ g.col_dsc = some dsc ∧ ∃ x ∈ dsc, E.is_fr x = true) ∧
    (_lv_grid_has_fr_row E obj = true ↔
      ∃ g dsc, obj.grid = some g ∧ g.row_dsc = some dsc ∧ ∃ x ∈ dsc, E.is_fr x = true) := by
  have hloop : ∀ dsc : List Int, has_fr_loop E dsc = true ↔ ∃ x ∈ dsc, E.is_fr x = true := by
    intro dsc
    induction dsc with
    | nil => simp [has_fr_loop]
    | cons y ys ih =>
      rw [has_fr_loop]
      by_cases hy : E.is_fr y = true
      · simp [hy]
      · simp only [hy, Bool.false_eq_true, if_false, ih, List.mem_cons, exists_eq_or_imp,
          false_or]
  constructor
  · unfold _lv_grid_has_fr_col
    cases hg : obj.grid with
    | none => simp
    | some g =>
      cases hd : g.col_dsc with
      | none => simp [hd]
      | some dsc => simp [hd, hloop]
  · unfold _lv_grid_has_fr_row
    cases hg : obj.grid with
    | none => simp
    | some g =>
      cases hd : g.row_dsc with
      | none => simp [hd]
      | some dsc => simp [hd, hloop]

/-- C20: for a grid item, when no index `pos + span - 1` of lines 462 and 466 wraps
around to 4294967295 (as with `1 ≤ pos + span` on both axes; the read at a wrapped
index has no result), `item_repos` takes a decision; with a hint `_lv_obj_move_to`
is called exactly when `(hint.grid_abs.x + x, hint.grid_abs.y + y)` differs from the
current absolute position `(coords.x1, coords.y1)` of the item, `(x, y)` being the
computed target; without a hint it is always called. -/
theorem C20_move_suppression (E : GridEnv) (grid : lv_grid_t) (c : lv_grid_calc_t)
    (before : List lv_obj_t) (item : lv_obj_t) (hint : Option item_repos_hint_t)
    (hitem : _lv_obj_is_grid_item E item = true)
    (hspan : span_wraps (item_repos_cell E grid before item hint).1 = false) :
    ∃ r hint1, item_repos E grid c before item hint = some (r, hint1) ∧
      (∀ hn, hint = some hn →
        (r.moved = true ↔
          (hn.grid_abs.x + r.x, hn.grid_abs.y + r.y) ≠ (item.coords.x1, item.coords.y1))) ∧
      (hint = none → r.moved = true) := by
  refine ⟨_, _, item_repos_some E grid c before item hint hitem hspan, ?_, ?_⟩
  · intro hn hh
    subst hh
    simp only [item_repos_geom, repos_moved, ne_eq, Prod.mk.injEq]
    split <;> simp_all
  · intro hh
    subst hh
    rfl

/-- C20, witness: the item `item_center` at the absolute position (0, 0) with the
target (10, 5), with a hint whose origin is (0, 0) and without a hint. -/
theorem C20_witness :
    (∃ r hint1, item_repos env16 grid_2x2 calc_2x2 [] item_center (some ⟨0, 0, ⟨0, 0⟩⟩) =
        some (r, hint1) ∧
      (∀ hn, some (⟨0, 0, ⟨0, 0⟩⟩ : item_repos_hint_t) = some hn →
        (r.moved = true ↔
          (hn.grid_abs.x + r.x, hn.grid_abs.y + r.y) ≠
            (item_center.coords.x1, item_center.coords.y1))) ∧
      ((some (⟨0, 0, ⟨0, 0⟩⟩ : item_repos_hint_t)) = none → r.moved = true)) ∧
    (∃ r hint1, item_repos env16 grid_2x2 calc_2x2 [] item_center none = some (r, hint1) ∧
      r.moved = true) := by
  refine ⟨C20_move_suppression env16 grid_2x2 calc_2x2 [] item_center _ (by decide)
    (by decide), ?_⟩
  obtain ⟨r, hint1, h, -, hm⟩ :=
    C20_move_suppression env16 grid_2x2 calc_2x2 [] item_center none (by decide)
      (by decide)
  exact ⟨r, hint1, h, hm rfl⟩

/-! ## The refresh of a container: lemmas -/

theorem full_refresh_no_grid (E : GridEnv) (S : Scratch) (c0 : lv_grid_calc_t) (cont : lv_obj_t)
    (h : cont.grid = none) : _lv_grid_full_refresh E S c0 cont = some (cont, []) := by
  cases cont with
  | mk a xs ys ws hs g wf hf aw ah pl pt sl st cs =>
    have hg : g = none := h
    subst hg
    simp only [_lv_grid_full_refresh]

theorem item_repos_run_not_item (E : GridEnv) (S : Scratch) (c0 : lv_grid_calc_t)
    (cont : lv_obj_t) (grid : lv_grid_t) (c : lv_grid_calc_t) (before : List lv_obj_t)
    (hint : Option item_repos_hint_t) (item : lv_obj_t) (h : is_grid_cell E item = false) :
    item_repos E grid c before item hint = none ∧
    item_repos_run E S c0 cont grid c before hint item = some (item, hint, []) := by
  have h1 : item_repos E grid c before item hint = none := by
    simp [item_repos, _lv_obj_is_grid_item, h]
  refine ⟨h1, ?_⟩
  cases item with
  | mk a xs ys ws hs g wf hf aw ah pl pt sl st cs =>
    have h2 : _lv_obj_is_grid_item E (lv_obj_t.mk a xs ys ws hs g wf hf aw ah pl pt sl st cs)
        = false := h
    simp only [item_repos_run, h2, if_true]

/-- C18: `_lv_grid_full_refresh` on a container without a grid definition,
`lv_grid_item_refr_pos` on an item without a parent or whose parent has no grid
definition, and `item_repos` on an item that is not a grid cell each return with
the state as it was (the object, and the hint for `item_repos`; the calc result is
only read) and without any event: no run of the track resolution, no decision, no
resize, no move. -/
theorem C18_degenerate_no_ops (E : GridEnv) (S : Scratch) (c0 : lv_grid_calc_t) :
    (∀ cont : lv_obj_t, cont.grid = none →
      _lv_grid_full_refresh E S c0 cont = some (cont, [])) ∧
    (∀ (idx : Nat) (item : lv_obj_t),
      lv_grid_item_refr_pos E S c0 none idx item = some (item, [])) ∧
    (∀ (parent : lv_obj_t) (idx : Nat) (item : lv_obj_t), parent.grid = none →
      lv_grid_item_refr_pos E S c0 (some parent) idx item = some (item, [])) ∧
    (∀ (cont : lv_obj_t) (grid : lv_grid_t) (c : lv_grid_calc_t) (before : List lv_obj_t)
        (hint : Option item_repos_hint_t) (item : lv_obj_t), is_grid_cell E item = false →
      item_repos E grid c before item hint = none ∧
      item_repos_run E S c0 cont grid c before hint item = some (item, hint, [])) := by
  refine ⟨fun cont h => full_refresh_no_grid E S c0 cont h, fun idx item => rfl, ?_, ?_⟩
  · intro parent idx item h
    simp only [lv_grid_item_refr_pos, h]
  · intro cont grid c before hint item h
    exact item_repos_run_not_item E S c0 cont grid c before hint item h

/-- C18, witness: an object without a grid definition as container and as parent,
and a child of `cont_mixed` that is not a grid cell. -/
theorem C18_witness :
    _lv_grid_full_refresh env16 scratch7 calc0 (mk_item 0 0 50 60) =
      some (mk_item 0 0 50 60, []) ∧
    lv_grid_item_refr_pos env16 scratch7 calc0 (some (mk_item 0 0 50 60)) 0 item_center =
      some (item_center, []) ∧
    (item_repos env16 grid_cols2 calc0 [] (mk_item 0 0 50 60) none = none ∧
      item_repos_run env16 scratch7 calc0 cont_mixed grid_cols2 calc0 [] none (mk_item 0 0 50 60) =
        some (mk_item 0 0 50 60, none, [])) :=
  ⟨(C18_degenerate_no_ops env16 scratch7 calc0).1 (mk_item 0 0 50 60) rfl,
   (C18_degenerate_no_ops env16 scratch7 calc0).2.2.1 (mk_item 0 0 50 60) 0 item_center rfl,
   (C18_degenerate_no_ops env16 scratch7 calc0).2.2.2 cont_mixed grid_cols2 calc0 [] none
     (mk_item 0 0 50 60) (by decide)⟩

/-! ## A second refresh: lemmas -/

theorem lv_obj_t.x_set_update (o : lv_obj_t) (a : lv_area_t) (ws hs : Int)
    (cs : List lv_obj_t) : (o.update a ws hs cs).x_set = o.x_set := by
  cases o; rfl

theorem lv_obj_t.y_set_update (o : lv_obj_t) (a : lv_area_t) (ws hs : Int)
    (cs : List lv_obj_t) : (o.update a ws hs cs).y_set = o.y_set := by
  cases o; rfl

theorem lv_obj_t.w_set_update (o : lv_obj_t) (a : lv_area_t) (ws hs : Int)
    (cs : List lv_obj_t) : (o.update a ws hs cs).w_set = ws := by
  cases o; rfl

theorem lv_obj_t.h_set_update (o : lv_obj_t) (a : lv_area_t) (ws hs : Int)
    (cs : List lv_obj_t) : (o.update a ws hs cs).h_set = hs := by
  cases o; rfl

theorem lv_obj_t.auto_w_update (o : lv_obj_t) (a : lv_area_t) (ws hs : Int)
    (cs : List lv_obj_t) : (o.update a ws hs cs).auto_w = o.auto_w := by
  cases o; rfl

theorem lv_obj_t.auto_h_update (o : lv_obj_t) (a : lv_area_t) (ws hs : Int)
    (cs : List lv_obj_t) : (o.update a ws hs cs).auto_h = o.auto_h := by
  cases o; rfl

theorem lv_obj_t.children_update (o : lv_obj_t) (a : lv_area_t) (ws hs : Int)
    (cs : List lv_obj_t) : (o.update a ws hs cs).children = cs := by
  cases o; rfl

theorem lv_obj_t.update_self (o : lv_obj_t) : o.update o.coords o.w_set o.h_set o.children = o := by
  cases o; rfl

theorem is_grid_cell_update (E : GridEnv) (o : lv_obj_t) (a : lv_area_t) (ws hs : Int)
    (cs : List lv_obj_t) : is_grid_cell E (o.update a ws hs cs) = is_grid_cell E o := by
  simp only [is_grid_cell, lv_obj_t.x_set_update, lv_obj_t.y_set_update]

/-- The move keeps the width and the height of a box. -/
theorem move_keeps_size (E : GridEnv) (origin : lv_point_t) (a : lv_area_t) (x y : Int) :
    E.coord ((_lv_obj_move_to E origin a x y).x2 - (_lv_obj_move_to E origin a x y).x1 + 1) =
      E.coord (a.x2 - a.x1 + 1) ∧
    E.coord ((_lv_obj_move_to E origin a x y).y2 - (_lv_obj_move_to E origin a x y).y1 + 1) =
      E.coord (a.y2 - a.y1 + 1) := by
  simp only [_lv_obj_move_to]
  constructor
  · apply coord_congr
    have h1 := coord_modEq E (a.x2 + E.coord (E.coord (x + origin.x) - a.x1))
    have h2 := coord_modEq E (a.x1 + E.coord (E.coord (x + origin.x) - a.x1))
    have h3 := (h1.sub h2).add_right 1
    have e : a.x2 + E.coord (E.coord (x + origin.x) - a.x1) -
        (a.x1 + E.coord (E.coord (x + origin.x) - a.x1)) + 1 = a.x2 - a.x1 + 1 := by ring
    rwa [e] at h3
  · apply coord_congr
    have h1 := coord_modEq E (a.y2 + E.coord (E.coord (y + origin.y) - a.y1))
    have h2 := coord_modEq E (a.y1 + E.coord (E.coord (y + origin.y) - a.y1))
    have h3 := (h1.sub h2).add_right 1
    have e : a.y2 + E.coord (E.coord (y + origin.y) - a.y1) -
        (a.y1 + E.coord (E.coord (y + origin.y) - a.y1)) + 1 = a.y2 - a.y1 + 1 := by ring
    rwa [e] at h3

/-- The resize gives the box the width and the height applied. -/
theorem set_size_gives (E : GridEnv) (a : lv_area_t) (w h : Int) :
    E.coord ((lv_area_set_height E (lv_area_set_width E a w) h).x2 -
      (lv_area_set_height E (lv_area_set_width E a w) h).x1 + 1) = E.coord w ∧
    E.coord ((lv_area_set_height E (lv_area_set_width E a w) h).y2 -
      (lv_area_set_height E (lv_area_set_width E a w) h).y1 + 1) = E.coord h := by
  simp only [lv_area_set_height, lv_area_set_width]
  constructor
  · apply coord_congr
    have := ((coord_modEq E (a.x1 + w - 1)).sub_right a.x1).add_right 1
    have e : a.x1 + w - 1 - a.x1 + 1 = w := by ring
    rwa [e] at this
  · apply coord_congr
    have := ((coord_modEq E (a.y1 + h - 1)).sub_right a.y1).add_right 1
    have e : a.y1 + h - 1 - a.y1 + 1 = h := by ring
    rwa [e] at this

/-- After `item_repos` the box of the item has the width and the height of the
decision, when these are `lv_coord_t` values and the size test fails only for an
item that has them already. -/
theorem repos_coords_size (E : GridEnv) (origin : lv_point_t) (item : lv_obj_t) (r : repos_t)
    (hw : E.coord r.w = r.w) (hh : E.coord r.h = r.h)
    (hr : r.resized = false →
      lv_obj_get_width E item = r.w ∧ lv_obj_get_height E item = r.h) :
    E.coord ((repos_coords E origin item r).x2 - (repos_coords E origin item r).x1 + 1) = r.w ∧
    E.coord ((repos_coords E origin item r).y2 - (repos_coords E origin item r).y1 + 1) = r.h := by
  have hbase : ∀ a1 : lv_area_t,
      a1 = (if r.resized = true then
        lv_area_set_height E (lv_area_set_width E item.coords r.w) r.h else item.coords) →
      E.coord (a1.x2 - a1.x1 + 1) = r.w ∧ E.coord (a1.y2 - a1.y1 + 1) = r.h := by
    intro a1 ha
    by_cases hres : r.resized = true
    · rw [if_pos hres] at ha
      rw [ha, (set_size_gives E item.coords r.w r.h).1, (set_size_gives E item.coords r.w r.h).2]
      exact ⟨hw, hh⟩
    · rw [if_neg hres] at ha
      rw [ha]
      exact hr (by simpa using hres)
  unfold repos_coords
  by_cases hm : r.moved = true
  · simp only [hm, if_true]
    rw [(move_keeps_size E origin _ r.x r.y).1, (move_keeps_size E origin _ r.x r.y).2]
    exact hbase _ rfl
  · simp only [hm, Bool.false_eq_true, if_false]
    exact hbase _ rfl

/-- After `item_repos` the box of the item is at the absolute target, when the
target is representable and the position test skips the move only for an item that
is there already. -/
theorem repos_coords_pos (E : GridEnv) (hb : 1 ≤ E.coord_bits) (origin : lv_point_t)
    (item : lv_obj_t) (r : repos_t)
    (hm : r.moved = false →
      origin.x + r.x = item.coords.x1 ∧ origin.y + r.y = item.coords.y1)
    (hx : E.in_coord (origin.x + r.x)) (hy : E.in_coord (origin.y + r.y)) :
    (repos_coords E origin item r).x1 = origin.x + r.x ∧
    (repos_coords E origin item r).y1 = origin.y + r.y := by
  have hkeep : ∀ a1 : lv_area_t,
      a1 = (if r.resized = true then
        lv_area_set_height E (lv_area_set_width E item.coords r.w) r.h else item.coords) →
      a1.x1 = item.coords.x1 ∧ a1.y1 = item.coords.y1 := by
    intro a1 ha
    by_cases hres : r.resized = true
    · rw [if_pos hres] at ha
      rw [ha]
      exact ⟨rfl, rfl⟩
    · rw [if_neg hres] at ha
      rw [ha]
      exact ⟨rfl, rfl⟩
  unfold repos_coords
  by_cases hmv : r.moved = true
  · simp only [hmv, if_true, _lv_obj_move_to]
    constructor
    · have h1 : ∀ a1x : Int, a1x + E.coord (E.coord (r.x + origin.x) - a1x) ≡ origin.x + r.x
          [ZMOD 2 ^ E.coord_bits] := by
        intro a1x
        have h2 := ((coord_modEq E (E.coord (r.x + origin.x) - a1x)).trans
          ((coord_modEq E (r.x + origin.x)).sub_right a1x)).add_left a1x
        have e : a1x + (r.x + origin.x - a1x) = origin.x + r.x := by ring
        rwa [e] at h2
      rw [coord_congr E (h1 _), coord_of_in E hb hx]
    · have h1 : ∀ a1y : Int, a1y + E.coord (E.coord (r.y + origin.y) - a1y) ≡ origin.y + r.y
          [ZMOD 2 ^ E.coord_bits] := by
        intro a1y
        have h2 := ((coord_modEq E (E.coord (r.y + origin.y) - a1y)).trans
          ((coord_modEq E (r.y + origin.y)).sub_right a1y)).add_left a1y
        have e : a1y + (r.y + origin.y - a1y) = origin.y + r.y := by ring
        rwa [e] at h2
      rw [coord_congr E (h1 _), coord_of_in E hb hy]
  · simp only [hmv, Bool.false_eq_true, if_false]
    obtain ⟨h1, h2⟩ := hkeep _ rfl
    obtain ⟨h3, h4⟩ := hm (by simpa using hmv)
    rw [h1, h2, h3, h4]
    exact ⟨rfl, rfl⟩

theorem align_x_facts (E : GridEnv) (c : lv_grid_calc_t) (s : cell_span_t) (item : lv_obj_t) :
    E.coord (repos_align_x E c s item).2.1 = (repos_align_x E c s item).2.1 ∧
    (E.get_cell_flag item.x_set ≠ lv_grid_align.STRETCH →
      (repos_align_x E c s item).2.1 = lv_obj_get_width E item ∧
      (repos_align_x E c s item).2.2 = item.w_set) := by
  unfold repos_align_x
  cases hf : E.get_cell_flag item.x_set <;>
    simp [lv_obj_get_width, repos_col_w, coord_idem]

theorem align_y_facts (E : GridEnv) (c : lv_grid_calc_t) (s : cell_span_t) (item : lv_obj_t) :
    E.coord (repos_align_y E c s item).2.1 = (repos_align_y E c s item).2.1 ∧
    (E.get_cell_flag item.y_set ≠ lv_grid_align.STRETCH →
      (repos_align_y E c s item).2.1 = lv_obj_get_height E item ∧
      (repos_align_y E c s item).2.2 = item.h_set) := by
  unfold repos_align_y
  cases hf : E.get_cell_flag item.y_set <;>
    simp [lv_obj_get_height, repos_row_h, coord_idem]

/-- The decision for an item depends on the item through its cell assignment, its
width and height and its size modes. -/
theorem align_x_congr (E : GridEnv) (c : lv_grid_calc_t) (s : cell_span_t)
    (item item1 : lv_obj_t) (hxs : item1.x_set = item.x_set)
    (hw : lv_obj_get_width E item1 = (repos_align_x E c s item).2.1)
    (hws : item1.w_set = (repos_align_x E c s item).2.2) :
    repos_align_x E c s item1 = repos_align_x E c s item := by
  obtain ⟨-, hns⟩ := align_x_facts E c s item
  unfold repos_align_x at hw hws hns ⊢
  rw [hxs]
  cases hf : E.get_cell_flag item.x_set <;> simp only [hf] at hw hws hns ⊢
  · rw [hw, hws]
  · rw [hw, hws]
  · rw [hw, hws]

theorem align_y_congr (E : GridEnv) (c : lv_grid_calc_t) (s : cell_span_t)
    (item item1 : lv_obj_t) (hys : item1.y_set = item.y_set)
    (hh : lv_obj_get_height E item1 = (repos_align_y E c s item).2.1)
    (hhs : item1.h_set = (repos_align_y E c s item).2.2) :
    repos_align_y E c s item1 = repos_align_y E c s item := by
  obtain ⟨-, hns⟩ := align_y_facts E c s item
  unfold repos_align_y at hh hhs hns ⊢
  rw [hys]
  cases hf : E.get_cell_flag item.y_set <;> simp only [hf] at hh hhs hns ⊢
  · rw [hh, hhs]
  · rw [hh, hhs]
  · rw [hh, hhs]

theorem geom_resized_false (E : GridEnv) (c : lv_grid_calc_t) (item : lv_obj_t) (s : cell_span_t)
    (hint : Option item_repos_hint_t)
    (h : (item_repos_geom E c item s hint).resized = false) :
    lv_obj_get_width E item = (item_repos_geom E c item s hint).w ∧
    lv_obj_get_height E item = (item_repos_geom E c item s hint).h := by
  simp only [item_repos_geom, decide_eq_false_iff_not, not_or, not_not] at h ⊢
  exact h

theorem geom_moved_false (E : GridEnv) (c : lv_grid_calc_t) (item : lv_obj_t) (s : cell_span_t)
    (hn : item_repos_hint_t)
    (h : (item_repos_geom E c item s (some hn)).moved = false) :
    hn.grid_abs.x + (item_repos_geom E c item s (some hn)).x = item.coords.x1 ∧
    hn.grid_abs.y + (item_repos_geom E c item s (some hn)).y = item.coords.y1 := by
  simp only [item_repos_geom, repos_moved] at h ⊢
  by_contra hne
  rw [if_neg hne] at h
  exact absurd h (by decide)

/-- The decision of `item_repos` for an item on which a first decision `r` has been
applied, with the same calc, cell and hint, is `r` with a size test that fails and
no move, when the absolute target of `r` is representable. -/
theorem geom_again (E : GridEnv) (hb : 1 ≤ E.coord_bits) (c : lv_grid_calc_t) (item : lv_obj_t)
    (s : cell_span_t) (hn : item_repos_hint_t) (cs1 : List lv_obj_t)
    (hx : E.in_coord (hn.grid_abs.x + (item_repos_geom E c item s (some hn)).x))
    (hy : E.in_coord (hn.grid_abs.y + (item_repos_geom E c item s (some hn)).y)) :
    item_repos_geom E c
        (item.update (repos_coords E hn.grid_abs item (item_repos_geom E c item s (some hn)))
          (item_repos_geom E c item s (some hn)).w_set
          (item_repos_geom E c item s (some hn)).h_set cs1)
        s (some hn) =
      { item_repos_geom E c item s (some hn) with resized := false, moved := false } := by
  obtain ⟨hwc, -⟩ := align_x_facts E c s item
  obtain ⟨hhc, -⟩ := align_y_facts E c s item
  obtain ⟨hsw, hsh⟩ := repos_coords_size E hn.grid_abs item (item_repos_geom E c item s (some hn))
    hwc hhc (fun h => geom_resized_false E c item s (some hn) h)
  obtain ⟨hpx, hpy⟩ := repos_coords_pos E hb hn.grid_abs item
    (item_repos_geom E c item s (some hn)) (fun h => geom_moved_false E c item s hn h) hx hy
  generalize hr : item_repos_geom E c item s (some hn) = r at hsw hsh hpx hpy ⊢
  have hrx : repos_align_x E c s item = (r.x, r.w, r.w_set) := by rw [← hr]; rfl
  have hry : repos_align_y E c s item = (r.y, r.h, r.h_set) := by rw [← hr]; rfl
  have hcell : r.cell = s := by rw [← hr]; rfl
  have hax : repos_align_x E c s (item.update (repos_coords E hn.grid_abs item r)
      r.w_set r.h_set cs1) = (r.x, r.w, r.w_set) := by
    rw [← hrx]
    apply align_x_congr
    · exact lv_obj_t.x_set_update _ _ _ _ _
    · rw [lv_obj_get_width, lv_obj_t.coords_update, hsw, hrx]
    · rw [lv_obj_t.w_set_update, hrx]
  have hay : repos_align_y E c s (item.update (repos_coords E hn.grid_abs item r)
      r.w_set r.h_set cs1) = (r.y, r.h, r.h_set) := by
    rw [← hry]
    apply align_y_congr
    · exact lv_obj_t.y_set_update _ _ _ _ _
    · rw [lv_obj_get_height, lv_obj_t.coords_update, hsh, hry]
    · rw [lv_obj_t.h_set_update, hry]
  simp only [item_repos_geom, hax, hay, repos_moved, lv_obj_get_width, lv_obj_get_height,
    lv_obj_t.coords_update, hsw, hsh, hpx, hpy]
  cases r
  simp_all

theorem item_repos_cell_congr (E : GridEnv) (grid : lv_grid_t) (before before1 : List lv_obj_t)
    (item item1 : lv_obj_t) (hn : item_repos_hint_t) (hxs : item1.x_set = item.x_set)
    (hys : item1.y_set = item.y_set) :
    item_repos_cell E grid before1 item1 (some hn) = item_repos_cell E grid before item (some hn) := by
  simp only [item_repos_cell, hxs, hys]

theorem item_repos_cell_hint (E : GridEnv) (grid : lv_grid_t) (before : List lv_obj_t)
    (item : lv_obj_t) (hn : item_repos_hint_t) :
    ∃ hn1, (item_repos_cell E grid before item (some hn)).2 = some hn1 ∧
      hn1.grid_abs = hn.grid_abs := by
  unfold item_repos_cell
  split
  · exact ⟨hn, rfl, rfl⟩
  · simp only
    split <;> split <;> exact ⟨_, rfl, rfl⟩

/-- What `item_repos` does to a grid cell: the item gets the coordinates and the
size modes of the decision, and the events start with the decision. -/
theorem item_repos_run_cell (E : GridEnv) (S : Scratch) (c0 : lv_grid_calc_t) (cont : lv_obj_t)
    (grid : lv_grid_t) (c : lv_grid_calc_t) (before : List lv_obj_t)
    (hint : Option item_repos_hint_t) (item : lv_obj_t) (hcell : is_grid_cell E item = true)
    (item1 : lv_obj_t) (hint1 : Option item_repos_hint_t) (ev : List grid_event)
    (h : item_repos_run E S c0 cont grid c before hint item = some (item1, hint1, ev)) :
    ∃ (cs1 : List lv_obj_t) (ev1 : List grid_event),
      item1 = item.update
        (repos_coords E (grid_origin E cont) item
          (item_repos_geom E c item (item_repos_cell E grid before item hint).1 hint))
        (item_repos_geom E c item (item_repos_cell E grid before item hint).1 hint).w_set
        (item_repos_geom E c item (item_repos_cell E grid before item hint).1 hint).h_set cs1 ∧
      hint1 = (item_repos_cell E grid before item hint).2 ∧
      ev = grid_event.repos (grid_origin E cont)
        (item_repos_geom E c item (item_repos_cell E grid before item hint).1 hint) ::
          ev1.map grid_event.nested ∧
      span_wraps (item_repos_cell E grid before item hint).1 = false := by
  cases item with
  | mk a xs ys ws hs g wf hf aw ah pl pt sl st cs =>
    have hcell2 : ¬ _lv_obj_is_grid_item E
        (lv_obj_t.mk a xs ys ws hs g wf hf aw ah pl pt sl st cs) = false := by
      rw [_lv_obj_is_grid_item, hcell]
      simp
    simp only [item_repos_run] at h
    rw [if_neg hcell2] at h
    split at h
    · exact absurd h (by simp)
    · rename_i r hint2 hrep
      obtain ⟨-, hwr, hr, hh⟩ := item_repos_of_some E grid c before _ hint r hint2 hrep
      split at h
      · exact absurd h (by simp)
      · rename_i cs1 ev1 _
        simp only [Option.some.injEq, Prod.mk.injEq] at h
        obtain ⟨h1, h2, h3⟩ := h
        subst hr
        subst hh
        exact ⟨cs1, ev1, h1.symm, h2.symm, h3.symm, hwr⟩

/-- What `item_repos` does to a grid cell when the size test fails: the children of
the item are left as they are and the decision is the only event. -/
theorem item_repos_run_steady (E : GridEnv) (S : Scratch) (c0 : lv_grid_calc_t)
    (cont : lv_obj_t) (grid : lv_grid_t) (c : lv_grid_calc_t) (before : List lv_obj_t)
    (hint : Option item_repos_hint_t) (item : lv_obj_t) (hcell : is_grid_cell E item = true)
    (hwr : span_wraps (item_repos_cell E grid before item hint).1 = false)
    (hres : (item_repos_geom E c item (item_repos_cell E grid before item hint).1 hint).resized
      = false) :
    item_repos_run E S c0 cont grid c before hint item =
      some (item.update
        (repos_coords E (grid_origin E cont) item
          (item_repos_geom E c item (item_repos_cell E grid before item hint).1 hint))
        (item_repos_geom E c item (item_repos_cell E grid before item hint).1 hint).w_set
        (item_repos_geom E c item (item_repos_cell E grid before item hint).1 hint).h_set
        item.children,
        (item_repos_cell E grid before item hint).2,
        [grid_event.repos (grid_origin E cont)
          (item_repos_geom E c item (item_repos_cell E grid before item hint).1 hint)]) := by
  have hsome := item_repos_some E grid c before item hint hcell hwr
  cases item with
  | mk a xs ys ws hs g wf hf aw ah pl pt sl st cs =>
    have hcell2 : ¬ _lv_obj_is_grid_item E
        (lv_obj_t.mk a xs ys ws hs g wf hf aw ah pl pt sl st cs) = false := by
      rw [_lv_obj_is_grid_item, hcell]
      simp
    simp only [item_repos_run]
    rw [if_neg hcell2]
    simp only [hsome, hres, Bool.false_eq_true, if_false, List.map_nil]
    rfl

/-- A second call of `item_repos` on an item on which the decision of a first call
has been applied, with the same calc and hint: the size test fails, the item is not
moved and stays as it is. -/
theorem item_repos_run_again (E : GridEnv) (hb : 1 ≤ E.coord_bits) (S : Scratch)
    (c0 : lv_grid_calc_t) (cont cont1 : lv_obj_t) (grid : lv_grid_t) (c : lv_grid_calc_t)
    (before before1 : List lv_obj_t) (hn : item_repos_hint_t) (item : lv_obj_t)
    (cs1 : List lv_obj_t) (hcell : is_grid_cell E item = true)
    (horigin : grid_origin E cont1 = grid_origin E cont)
    (habs : hn.grid_abs = grid_origin E cont)
    (hwr : span_wraps (item_repos_cell E grid before item (some hn)).1 = false)
    (hx : E.in_coord ((grid_origin E cont).x +
      (item_repos_geom E c item (item_repos_cell E grid before item (some hn)).1 (some hn)).x))
    (hy : E.in_coord ((grid_origin E cont).y +
      (item_repos_geom E c item (item_repos_cell E grid before item (some hn)).1 (some hn)).y)) :
    ∃ r2, r2.resized = false ∧ r2.moved = false ∧
      item_repos_run E S c0 cont1 grid c before1 (some hn)
        (item.update
          (repos_coords E (grid_origin E cont) item
            (item_repos_geom E c item (item_repos_cell E grid before item (some hn)).1 (some hn)))
          (item_repos_geom E c item (item_repos_cell E grid before item (some hn)).1
            (some hn)).w_set
          (item_repos_geom E c item (item_repos_cell E grid before item (some hn)).1
            (some hn)).h_set cs1) =
      some (item.update
          (repos_coords E (grid_origin E cont) item
            (item_repos_geom E c item (item_repos_cell E grid before item (some hn)).1 (some hn)))
          (item_repos_geom E c item (item_repos_cell E grid before item (some hn)).1
            (some hn)).w_set
          (item_repos_geom E c item (item_repos_cell E grid before item (some hn)).1
            (some hn)).h_set cs1,
        (item_repos_cell E grid before item (some hn)).2,
        [grid_event.repos (grid_origin E cont) r2]) := by
  generalize hs : (item_repos_cell E grid before item (some hn)).1 = s at hx hy hwr ⊢
  rw [← habs] at hx hy ⊢
  have hag := geom_again E hb c item s hn cs1 hx hy
  generalize hr : item_repos_geom E c item s (some hn) = r at hag ⊢
  generalize hi : item.update (repos_coords E hn.grid_abs item r) r.w_set r.h_set cs1 = item1
    at hag ⊢
  have hxs : item1.x_set = item.x_set := by rw [← hi]; exact lv_obj_t.x_set_update _ _ _ _ _
  have hys : item1.y_set = item.y_set := by rw [← hi]; exact lv_obj_t.y_set_update _ _ _ _ _
  have hcell1 : is_grid_cell E item1 = true := by
    rw [← hi, is_grid_cell_update]; exact hcell
  have hc := item_repos_cell_congr E grid before before1 item item1 hn hxs hys
  have hst := item_repos_run_steady E S c0 cont1 grid c before1 (some hn) item1 hcell1
    (by rw [hc, hs]; exact hwr) (by rw [hc, hs, hag])
  rw [hc, hs, hag] at hst
  refine ⟨{ r with resized := false, moved := false }, rfl, rfl, ?_⟩
  rw [hst, horigin, ← habs]
  have hcoords : repos_coords E hn.grid_abs item1 { r with resized := false, moved := false } =
      item1.coords := by
    simp [repos_coords]
  have hws : item1.w_set = r.w_set := by rw [← hi]; exact lv_obj_t.w_set_update _ _ _ _ _
  have hhs : item1.h_set = r.h_set := by rw [← hi]; exact lv_obj_t.h_set_update _ _ _ _ _
  rw [hcoords]
  simp only
  rw [← hws, ← hhs, lv_obj_t.update_self]

theorem same_measure_refl (E : GridEnv) (a : lv_obj_t) : same_measure E a a :=
  ⟨rfl, rfl, rfl⟩

/-- An item on which a decision of `item_repos` has been applied measures as
before in the calculation of the grid. -/
theorem item_measure (E : GridEnv) (c : lv_grid_calc_t) (item : lv_obj_t) (s : cell_span_t)
    (hint : Option item_repos_hint_t) (origin : lv_point_t) (cs1 : List lv_obj_t) :
    same_measure E item
      (item.update (repos_coords E origin item (item_repos_geom E c item s hint))
        (item_repos_geom E c item s hint).w_set (item_repos_geom E c item s hint).h_set cs1) := by
  obtain ⟨hwc, hwn⟩ := align_x_facts E c s item
  obtain ⟨hhc, hhn⟩ := align_y_facts E c s item
  obtain ⟨hsw, hsh⟩ := repos_coords_size E origin item (item_repos_geom E c item s hint)
    hwc hhc (fun h => geom_resized_false E c item s hint h)
  refine ⟨is_grid_cell_update E _ _ _ _ _, ?_, ?_⟩
  · unfold natural_width
    rw [lv_obj_t.x_set_update, lv_obj_t.auto_w_update]
    by_cases hf : E.get_cell_flag item.x_set = lv_grid_align.STRETCH
    · simp only [hf, if_true]
    · simp only [hf, if_false]
      rw [lv_obj_get_width, lv_obj_t.coords_update, hsw]
      exact (hwn hf).1
  · unfold natural_height
    rw [lv_obj_t.y_set_update, lv_obj_t.auto_h_update]
    by_cases hf : E.get_cell_flag item.y_set = lv_grid_align.STRETCH
    · simp only [hf, if_true]
    · simp only [hf, if_false]
      rw [lv_obj_get_height, lv_obj_t.coords_update, hsh]
      exact (hhn hf).1

/-- The children after the sweep of `_lv_grid_full_refresh` measure as before in
the calculation of the grid. -/
theorem refresh_items_measure (E : GridEnv) (S : Scratch) (c0 : lv_grid_calc_t)
    (cont : lv_obj_t) (grid : lv_grid_t) (c : lv_grid_calc_t) (children : List lv_obj_t) :
    ∀ (before : List lv_obj_t) (hint : item_repos_hint_t) (cs1 : List lv_obj_t)
      (ev : List grid_event),
      refresh_items E S c0 cont grid c children before hint = some (cs1, ev) →
      List.Forall₂ (same_measure E) children cs1 := by
  induction children with
  | nil =>
    intro before hint cs1 ev h
    simp only [refresh_items, Option.some.injEq, Prod.mk.injEq] at h
    rw [← h.1]
    exact List.Forall₂.nil
  | cons item rest ih =>
    intro before hint cs1 ev h
    rw [refresh_items] at h
    by_cases hcell : is_grid_cell E item = true
    · simp only [hcell, if_true] at h
      split at h
      · exact absurd h (by simp)
      · rename_i item1 hint1 ev1 hrun
        split at h
        · exact absurd h (by simp)
        · rename_i rest1 ev2 hrest
          simp only [Option.some.injEq, Prod.mk.injEq] at h
          rw [← h.1]
          obtain ⟨cs2, ev3, hi, -, -, -⟩ := item_repos_run_cell E S c0 cont grid c before
            (some hint) item hcell item1 hint1 ev1 hrun
          refine List.Forall₂.cons ?_ (ih _ _ _ _ hrest)
          rw [hi]
          exact item_measure E c item _ _ _ _
    · simp only [hcell, Bool.false_eq_true, if_false] at h
      split at h
      · exact absurd h (by simp)
      · rename_i rest1 ev2 hrest
        simp only [Option.some.injEq, Prod.mk.injEq] at h
        rw [← h.1]
        exact List.Forall₂.cons (same_measure_refl E item) (ih _ _ _ _ hrest)

theorem implicit_scan_measure (E : GridEnv) (n : Nat) (f : lv_obj_t → Int)
    (l l1 : List lv_obj_t)
    (h : List.Forall₂ (fun a b => is_grid_cell E b = is_grid_cell E a ∧ f b = f a) l l1) :
    ∀ (e t : Nat) (sz : Buf), implicit_scan E n f l1 e t sz = implicit_scan E n f l e t sz := by
  induction h with
  | nil => intro e t sz; rfl
  | cons hab _ ih =>
    intro e t sz
    rw [implicit_scan, implicit_scan, hab.1, hab.2]
    simp only [ih]

/-- The calculation of the grid of a container depends on its children through
their measures only. -/
theorem lv_grid_calc_measure (E : GridEnv) (S : Scratch) (c0 : lv_grid_calc_t)
    (a : lv_area_t) (xs ys ws hs : Int) (g : Option lv_grid_t)
    (wf hf aw ah pl pt sl st : Int) (cs cs1 : List lv_obj_t)
    (h : List.Forall₂ (same_measure E) cs cs1) :
    _lv_grid_calc E S (lv_obj_t.mk a xs ys ws hs g wf hf aw ah pl pt sl st cs1) c0 =
      _lv_grid_calc E S (lv_obj_t.mk a xs ys ws hs g wf hf aw ah pl pt sl st cs) c0 := by
  have hlen : cs1.length = cs.length := h.length_eq.symm
  have hw := fun n => implicit_scan_measure E n (natural_width E) cs cs1
    (h.imp (fun _ _ hab => ⟨hab.1, hab.2.1⟩))
  have hh := fun n => implicit_scan_measure E n (natural_height E) cs cs1
    (h.imp (fun _ _ hab => ⟨hab.1, hab.2.2⟩))
  simp only [_lv_grid_calc, calc_explicit_cols, calc_explicit_rows, calc_implicit_cols,
    calc_implicit_rows, lv_obj_t.grid, lv_obj_t.w_set, lv_obj_t.h_set, lv_obj_t.width_fit,
    lv_obj_t.height_fit, lv_obj_t.children, hlen, hw, hh]

theorem decisions_append (a b : List grid_event) :
    decisions (a ++ b) = decisions a ++ decisions b := by
  induction a with
  | nil => rfl
  | cons e rest ih =>
    cases e <;> simp [decisions, ih]

/-- A second sweep of `_lv_grid_full_refresh` over the children left by a first
sweep, with the same calc and hint: every grid cell gets a decision whose size test
fails and that does not move it, and the children stay as they are. -/
theorem refresh_items_again (E : GridEnv) (hb : 1 ≤ E.coord_bits) (S : Scratch)
    (c0 : lv_grid_calc_t) (cont cont1 : lv_obj_t) (grid : lv_grid_t) (c : lv_grid_calc_t)
    (horigin : grid_origin E cont1 = grid_origin E cont) (children : List lv_obj_t) :
    ∀ (before before1 : List lv_obj_t) (hint : item_repos_hint_t) (cs1 : List lv_obj_t)
      (ev1 : List grid_event), hint.grid_abs = grid_origin E cont →
      refresh_items E S c0 cont grid c children before hint = some (cs1, ev1) →
      (∀ o r, grid_event.repos o r ∈ ev1 → E.in_coord (o.x + r.x) ∧ E.in_coord (o.y + r.y)) →
      ∃ ev2, refresh_items E S c0 cont1 grid c cs1 before1 hint = some (cs1, ev2) ∧
        (∀ r ∈ decisions ev2, r.resized = false ∧ r.moved = false) ∧
        (decisions ev2).length = (cs1.filter (is_grid_cell E)).length ∧
        ∀ e ∈ ev2, ∃ o r, e = grid_event.repos o r := by
  induction children with
  | nil =>
    intro before before1 hint cs1 ev1 _ h _
    simp only [refresh_items, Option.some.injEq, Prod.mk.injEq] at h
    rw [← h.1]
    refine ⟨[], by simp only [refresh_items], ?_, rfl, ?_⟩
    · intro r hr; simp [decisions] at hr
    · intro e he; simp at he
  | cons item rest ih =>
    intro before before1 hint cs1 ev1 habs h hrange
    rw [refresh_items] at h
    by_cases hcell : is_grid_cell E item = true
    · simp only [hcell, if_true] at h
      split at h
      · exact absurd h (by simp)
      · rename_i item1 hint1 e1 hrun
        split at h
        · exact absurd h (by simp)
        · rename_i rest1 e2 hrest
          simp only [Option.some.injEq, Prod.mk.injEq] at h
          obtain ⟨hcs, hev⟩ := h
          obtain ⟨cs2, e3, hi, hh1, he1, hwr1⟩ := item_repos_run_cell E S c0 cont grid c before
            (some hint) item hcell item1 hint1 e1 hrun
          obtain ⟨hn1, hsh, hn1abs⟩ := item_repos_cell_hint E grid before item hint
          have hin := hrange (grid_origin E cont)
            (item_repos_geom E c item (item_repos_cell E grid before item (some hint)).1
              (some hint)) (by rw [← hev, he1]; simp)
          obtain ⟨r2, hr2a, hr2b, hrun2⟩ := item_repos_run_again E hb S c0 cont cont1 grid c
            before before1 hint item cs2 hcell horigin habs hwr1 hin.1 hin.2
          rw [← hi] at hrun2
          have hhint : hint1.getD hint = hn1 := by rw [hh1, hsh]; rfl
          rw [hhint] at hrest
          obtain ⟨ev2, hrest2, hd, hlen, hall⟩ := ih (before ++ [item1]) (before1 ++ [item1]) hn1
            rest1 e2 (by rw [hn1abs, habs]) hrest
            (fun o r hm => hrange o r (by rw [← hev]; exact List.mem_append_right _ hm))
          have hcell1 : is_grid_cell E item1 = true := by
            rw [hi, is_grid_cell_update]; exact hcell
          refine ⟨[grid_event.repos (grid_origin E cont) r2] ++ ev2, ?_, ?_, ?_, ?_⟩
          · rw [← hcs, refresh_items]
            simp only [hcell1, if_true, hrun2, hsh, Option.getD_some, hrest2]
          · intro r hr
            simp only [List.singleton_append, decisions, List.mem_cons] at hr
            rcases hr with rfl | hr
            · exact ⟨hr2a, hr2b⟩
            · exact hd r hr
          · rw [← hcs]
            simp only [List.singleton_append, decisions, List.length_cons, List.filter_cons,
              hcell1, if_true]
            rw [← hlen]
            rfl
          · intro e he
            simp only [List.singleton_append, List.mem_cons] at he
            rcases he with rfl | he
            · exact ⟨_, _, rfl⟩
            · exact hall e he
    · simp only [hcell, Bool.false_eq_true, if_false] at h
      split at h
      · exact absurd h (by simp)
      · rename_i rest1 e2 hrest
        simp only [Option.some.injEq, Prod.mk.injEq] at h
        obtain ⟨hcs, hev⟩ := h
        obtain ⟨ev2, hrest2, hd, hlen, hall⟩ := ih (before ++ [item]) (before1 ++ [item]) hint
          rest1 e2 habs hrest (fun o r hm => hrange o r (by rw [← hev]; exact hm))
        refine ⟨ev2, ?_, hd, ?_, hall⟩
        · rw [← hcs, refresh_items]
          simp only [hcell, Bool.false_eq_true, if_false, hrest2]
        · rw [← hcs]
          simp only [List.filter_cons, hcell, Bool.false_eq_true, if_false, hlen]

/-- C16 (amended): when `_lv_grid_full_refresh` has refreshed a container (it has a
result: no span index has wrapped around) and every absolute target of that refresh
is representable in `lv_coord_t`, a second call on the resulting tree, with the
pool buffers holding what they held in the first call, returns with the tree as it
is: every grid-cell child gets one decision, whose size test fails (the computed
width and height are the current ones) and which does not call `_lv_obj_move_to`. -/
theorem C16_full_refresh_idempotent (E : GridEnv) (S : Scratch) (c0 : lv_grid_calc_t)
    (cont cont1 : lv_obj_t) (ev1 : List grid_event) (hb : 1 ≤ E.coord_bits)
    (h1 : _lv_grid_full_refresh E S c0 cont = some (cont1, ev1))
    (hrange : targets_in_range E ev1) :
    ∃ ev2, _lv_grid_full_refresh E S c0 cont1 = some (cont1, ev2) ∧
      (∀ r ∈ decisions ev2, r.resized = false ∧ r.moved = false) ∧
      (cont.grid ≠ none → (decisions ev2).length = (grid_cells E cont1).length) := by
  cases cont with
  | mk a xs ys ws hs g wf hf aw ah pl pt sl st cs =>
    cases g with
    | none =>
      simp only [_lv_grid_full_refresh, Option.some.injEq, Prod.mk.injEq] at h1
      rw [← h1.1]
      refine ⟨[], by simp only [_lv_grid_full_refresh], ?_, ?_⟩
      · intro r hr; simp [decisions] at hr
      · intro hne; exact absurd rfl hne
    | some grid =>
      simp only [_lv_grid_full_refresh] at h1
      split at h1
      · exact absurd h1 (by simp)
      · rename_i c hcalc
        split at h1
        · exact absurd h1 (by simp)
        · rename_i cs1 ev hsweep
          simp only [Option.some.injEq, Prod.mk.injEq] at h1
          obtain ⟨hcont, hev⟩ := h1
          have hmeas := refresh_items_measure E S c0 _ grid c cs [] _ cs1 ev hsweep
          have hcalc1 := lv_grid_calc_measure E S c0 a xs ys ws hs (some grid) wf hf aw ah
            pl pt sl st cs cs1 hmeas
          rw [hcalc] at hcalc1
          obtain ⟨ev2, hsweep2, hd, hlen, hall⟩ := refresh_items_again E hb S c0
            (lv_obj_t.mk a xs ys ws hs (some grid) wf hf aw ah pl pt sl st cs)
            (lv_obj_t.mk a xs ys ws hs (some grid) wf hf aw ah pl pt sl st cs1)
            grid c rfl cs [] [] _ cs1 ev rfl hsweep
            (fun o r hm => hrange o r (by
              rw [← hev]
              exact List.mem_cons_of_mem _ (List.mem_append_left _ hm)))
          have hhint : full_refresh_hint E
              (lv_obj_t.mk a xs ys ws hs (some grid) wf hf aw ah pl pt sl st cs1) =
              full_refresh_hint E
              (lv_obj_t.mk a xs ys ws hs (some grid) wf hf aw ah pl pt sl st cs) := rfl
          rw [← hcont]
          refine ⟨grid_event.calc_run ::
            (ev2 ++ if ws = E.size_auto ∨ hs = E.size_auto then [grid_event.set_size] else []),
            ?_, ?_, ?_⟩
          · simp only [_lv_grid_full_refresh, hcalc1, hhint, hsweep2]
          · intro r hr
            simp only [decisions, decisions_append] at hr
            rcases List.mem_append.mp hr with hr | hr
            · exact hd r hr
            · split at hr <;> simp [decisions] at hr
          · intro _
            simp only [decisions, decisions_append, List.length_append, hlen, grid_cells,
              lv_obj_t.children]
            split <;> simp [decisions]

theorem targets_in_range_of_check (E : GridEnv) (ev : List grid_event)
    (h : targets_in_range_check E ev = true) : targets_in_range E ev := by
  induction ev with
  | nil => intro o r hm; simp at hm
  | cons e rest ih =>
    intro o r hm
    cases e with
    | calc_run =>
      simp only [targets_in_range_check] at h
      simp only [List.mem_cons, reduceCtorEq, false_or] at hm
      exact ih h o r hm
    | set_size =>
      simp only [targets_in_range_check] at h
      simp only [List.mem_cons, reduceCtorEq, false_or] at hm
      exact ih h o r hm
    | nested e1 =>
      simp only [targets_in_range_check] at h
      simp only [List.mem_cons, reduceCtorEq, false_or] at hm
      exact ih h o r hm
    | repos o1 r1 =>
      simp only [targets_in_range_check, Bool.and_eq_true, decide_eq_true_eq] at h
      simp only [List.mem_cons, grid_event.repos.injEq] at hm
      rcases hm with ⟨rfl, rfl⟩ | hm
      · exact ⟨h.1.1, h.1.2⟩
      · exact ih h.2 o r hm

/-- C16, witness: the container `cont_three` with three grid cells; the first
refresh takes three decisions, each of which resizes or moves the child, the second
one leaves the tree as it is. -/
theorem C16_witness :
    (_lv_grid_full_refresh env16 scratch7 calc0 cont_three = some refreshed_three ∧
      (decisions refreshed_three.2).length = 3 ∧
      ∀ r ∈ decisions refreshed_three.2, r.resized = true ∨ r.moved = true) ∧
    ∃ ev2, _lv_grid_full_refresh env16 scratch7 calc0 refreshed_three.1 =
        some (refreshed_three.1, ev2) ∧
      (∀ r ∈ decisions ev2, r.resized = false ∧ r.moved = false) ∧
      (cont_three.grid ≠ none →
        (decisions ev2).length = (grid_cells env16 refreshed_three.1).length) :=
  ⟨⟨rfl, by decide, by decide⟩,
    C16_full_refresh_idempotent env16 scratch7 calc0 cont_three refreshed_three.1
      refreshed_three.2 (by decide) rfl
      (targets_in_range_of_check env16 refreshed_three.2 (by decide))⟩

/-- C16, counterexample: in `cont_far` the absolute target of the child is
30000 + 10000 = 40000, which no `lv_coord_t` of 16 bits holds: the position test of
line 533 compares the `int` 40000 with `coords.x1`, and the second refresh calls
`_lv_obj_move_to` again. In `cont_2x2 item_end_last` the child aligned to the end of
the last column is placed from `x[2]`, read after the offsets written: with 7 there
in the first call and 9 in the second, the second refresh moves the child from
x = -3 to x = -1. -/
theorem C16_counterexample :
    (_lv_grid_full_refresh env16 scratch7 calc0 cont_far = some refreshed_far ∧
      (decisions refreshed_far.2).map (fun r => (grid_origin env16 cont_far).x + r.x) = [40000] ∧
      ¬ env16.in_coord 40000 ∧
      (_lv_grid_full_refresh env16 scratch7 calc0 refreshed_far.1).map
          (fun res => (decisions res.2).map (fun r => (r.x, r.y, r.resized, r.moved))) =
        some [(10000, 0, false, true)]) ∧
    (_lv_grid_full_refresh env16 scratch7 calc0 (cont_2x2 item_end_last) = some refreshed_end ∧
      (decisions refreshed_end.2).map (fun r => (r.x, r.y)) = [(-3, 0)] ∧
      targets_in_range env16 refreshed_end.2 ∧
      (_lv_grid_full_refresh env16 scratch9 calc0 refreshed_end.1).map
          (fun res => (decisions res.2).map (fun r => (r.x, r.y, r.resized, r.moved))) =
        some [(-1, 0, false, true)]) :=
  ⟨⟨rfl, by decide, by unfold GridEnv.in_coord; decide, by decide⟩,
    ⟨rfl, by decide, targets_in_range_of_check env16 refreshed_end.2 (by decide), by decide⟩⟩

/-! ## The report of a changed grid: lemmas -/

theorem outcome.bind_done {α β : Type} (x : outcome α) (f : α → outcome β) (b : β) :
    x.bind f = outcome.done b ↔ ∃ a, x = outcome.done a ∧ f a = outcome.done b := by
  cases x with
  | done a => simp [outcome.bind]
  | undefined => simp [outcome.bind]
  | no_fuel => simp [outcome.bind]

theorem outcome.bind_no_fuel {α β : Type} (x : outcome α) (f : α → outcome β) :
    x.bind f = outcome.no_fuel ↔
      x = outcome.no_fuel ∨ ∃ a, x = outcome.done a ∧ f a = outcome.no_fuel := by
  cases x with
  | done a => simp [outcome.bind]
  | undefined => simp [outcome.bind]
  | no_fuel => simp [outcome.bind]

mutual
theorem full_refresh_skeleton (E : GridEnv) (S : Scratch) (c0 : lv_grid_calc_t) :
    ∀ (o o1 : lv_obj_t) (ev : List grid_event),
      _lv_grid_full_refresh E S c0 o = some (o1, ev) → skeleton o1 = skeleton o
  | lv_obj_t.mk a xs ys ws hs g wf hf aw ah pl pt sl st cs, o1, ev, h => by
    cases g with
    | none =>
      simp only [_lv_grid_full_refresh, Option.some.injEq, Prod.mk.injEq] at h
      rw [← h.1]
    | some grid =>
      simp only [_lv_grid_full_refresh] at h
      split at h
      · cases h
      · rename_i c hc
        split at h
        · cases h
        · rename_i cs1 ev1 hr
          simp only [Option.some.injEq, Prod.mk.injEq] at h
          rw [← h.1]
          simp only [skeleton]
          rw [refresh_items_skeleton E S c0 _ grid c cs [] _ cs1 ev1 hr]
termination_by structural o => o
theorem refresh_items_skeleton (E : GridEnv) (S : Scratch) (c0 : lv_grid_calc_t) :
    ∀ (cont : lv_obj_t) (grid : lv_grid_t) (c : lv_grid_calc_t) (cs before : List lv_obj_t)
      (hint : item_repos_hint_t) (cs1 : List lv_obj_t) (ev : List grid_event),
      refresh_items E S c0 cont grid c cs before hint = some (cs1, ev) →
      skeleton_list cs1 = skeleton_list cs
  | cont, grid, c, [], before, hint, cs1, ev, h => by
    simp only [refresh_items, Option.some.injEq, Prod.mk.injEq] at h
    rw [← h.1]
  | cont, grid, c, item :: rest, before, hint, cs1, ev, h => by
    simp only [refresh_items] at h
    split at h
    · split at h
      · cases h
      · rename_i item1 hint1 ev1 hi
        split at h
        · cases h
        · rename_i rest1 ev2 hr
          simp only [Option.some.injEq, Prod.mk.injEq] at h
          rw [← h.1]
          simp only [skeleton_list]
          rw [item_repos_run_skeleton E S c0 cont grid c before (some hint) item item1 hint1 ev1 hi,
            refresh_items_skeleton E S c0 cont grid c rest _ _ rest1 ev2 hr]
    · split at h
      · cases h
      · rename_i rest1 ev2 hr
        simp only [Option.some.injEq, Prod.mk.injEq] at h
        rw [← h.1]
        simp only [skeleton_list]
        rw [refresh_items_skeleton E S c0 cont grid c rest _ _ rest1 ev2 hr]
termination_by structural _ _ _ cs => cs
theorem item_repos_run_skeleton (E : GridEnv) (S : Scratch) (c0 : lv_grid_calc_t) :
    ∀ (cont : lv_obj_t) (grid : lv_grid_t) (c : lv_grid_calc_t) (before : List lv_obj_t)
      (hint : Option item_repos_hint_t) (item item1 : lv_obj_t)
      (hint1 : Option item_repos_hint_t) (ev : List grid_event),
      item_repos_run E S c0 cont grid c before hint item = some (item1, hint1, ev) →
      skeleton item1 = skeleton item
  | cont, grid, c, before, hint, lv_obj_t.mk a xs ys ws hs g wf hf aw ah pl pt sl st cs,
      item1, hint1, ev, h => by
    simp only [item_repos_run] at h
    split at h
    · simp only [Option.some.injEq, Prod.mk.injEq] at h
      rw [← h.1]
    · split at h
      · cases h
      · rename_i r hint2 hr
        split at h
        · cases h
        · rename_i cs1 ev1 hc
          simp only [Option.some.injEq, Prod.mk.injEq] at h
          rw [← h.1]
          simp only [skeleton]
          by_cases hres : r.resized = true
          · rw [if_pos hres] at hc
            rw [refresh_fr_children_skeleton E S c0 cs cs1 ev1 hc]
          · rw [if_neg hres] at hc
            simp only [Option.some.injEq, Prod.mk.injEq] at hc
            rw [← hc.1]
termination_by structural _ _ _ _ _ item => item
theorem refresh_fr_children_skeleton (E : GridEnv) (S : Scratch) (c0 : lv_grid_calc_t) :
    ∀ (cs cs1 : List lv_obj_t) (ev : List grid_event),
      refresh_fr_children E S c0 cs = some (cs1, ev) → skeleton_list cs1 = skeleton_list cs
  | [], cs1, ev, h => by
    simp only [refresh_fr_children, Option.some.injEq, Prod.mk.injEq] at h
    rw [← h.1]
  | child :: rest, cs1, ev, h => by
    simp only [refresh_fr_children] at h
    split at h
    · cases h
    · rename_i rest1 ev1 hr
      split at h
      · split at h
        · cases h
        · rename_i child1 ev2 hc
          simp only [Option.some.injEq, Prod.mk.injEq] at h
          rw [← h.1]
          simp only [skeleton_list]
          rw [full_refresh_skeleton E S c0 child child1 ev2 hc,
            refresh_fr_children_skeleton E S c0 rest rest1 ev1 hr]
      · simp only [Option.some.injEq, Prod.mk.injEq] at h
        rw [← h.1]
        simp only [skeleton_list]
        rw [refresh_fr_children_skeleton E S c0 rest rest1 ev1 hr]
termination_by structural cs => cs
end

mutual
theorem depth_of_skeleton : ∀ (o o1 : lv_obj_t), skeleton o = skeleton o1 →
    tree_depth o = tree_depth o1
  | lv_obj_t.mk _ _ _ _ _ _ _ _ _ _ _ _ _ _ cs, lv_obj_t.mk _ _ _ _ _ _ _ _ _ _ _ _ _ _ cs1, h => by
    simp only [skeleton, grid_tree.node.injEq] at h
    simp only [tree_depth]
    rw [depth_list_of_skeleton cs cs1 h.2]
termination_by structural o => o
theorem depth_list_of_skeleton : ∀ (cs cs1 : List lv_obj_t), skeleton_list cs = skeleton_list cs1 →
    tree_depth_list cs = tree_depth_list cs1
  | [], [], _ => rfl
  | [], _ :: _, h => by simp [skeleton_list] at h
  | _ :: _, [], h => by simp [skeleton_list] at h
  | c :: cs, c1 :: cs1, h => by
    simp only [skeleton_list, List.cons.injEq] at h
    simp only [tree_depth_list]
    rw [depth_of_skeleton c c1 h.1, depth_list_of_skeleton cs cs1 h.2]
termination_by structural cs => cs
end

theorem tree_depth_pos (o : lv_obj_t) : 1 ≤ tree_depth o := by
  cases o
  simp [tree_depth]

theorem tree_depth_children (o : lv_obj_t) : tree_depth o = tree_depth_list o.children + 1 := by
  cases o
  simp [tree_depth, lv_obj_t.children]

theorem skeleton_eq (o : lv_obj_t) :
    skeleton o = grid_tree.node o.grid (skeleton_list o.children) := by
  cases o
  simp [skeleton, lv_obj_t.grid, lv_obj_t.children]

theorem skeleton_list_length (cs : List lv_obj_t) : (skeleton_list cs).length = cs.length := by
  induction cs with
  | nil => rfl
  | cons c cs ih => simp [skeleton_list, ih]

theorem lv_obj_t.grid_update (o : lv_obj_t) (a : lv_area_t) (ws hs : Int)
    (cs : List lv_obj_t) : (o.update a ws hs cs).grid = o.grid := by
  cases o; rfl

theorem full_refresh_effective (E : GridEnv) (S : Scratch) (c0 : lv_grid_calc_t)
    (o o1 : lv_obj_t) (ev : List grid_event)
    (h : _lv_grid_full_refresh E S c0 o = some (o1, ev)) :
    grid_event.calc_run ∈ ev ↔ o.grid ≠ none := by
  cases o with
  | mk a xs ys ws hs g wf hf aw ah pl pt sl st cs =>
    cases g with
    | none =>
      simp only [_lv_grid_full_refresh, Option.some.injEq, Prod.mk.injEq] at h
      rw [← h.2]
      simp [lv_obj_t.grid]
    | some grid =>
      simp only [_lv_grid_full_refresh] at h
      split at h
      · cases h
      · split at h
        · cases h
        · simp only [Option.some.injEq, Prod.mk.injEq] at h
          rw [← h.2]
          simp [lv_obj_t.grid]

/-- The first visit of `report_grid_change_core` agrees with the object. -/
theorem visit_head_agrees (E : GridEnv) (S : Scratch) (c0 : lv_grid_calc_t)
    (D : Option Nat) (path : List Nat) (obj obj1 : lv_obj_t) (ev : List grid_event)
    (h : (if (decide (obj.grid.map lv_grid_t.addr = D) || (obj.grid.isSome && D.isNone)) = true
        then _lv_grid_full_refresh E S c0 obj else some (obj, [])) = some (obj1, ev)) :
    visit_agrees D
      ⟨path, decide (obj.grid.map lv_grid_t.addr = D) || (obj.grid.isSome && D.isNone), ev⟩
      (path, obj.grid) := by
  refine ⟨rfl, ?_, ?_⟩
  · intro d hd
    subst hd
    by_cases hg : obj.grid.map lv_grid_t.addr = some d
    · have hc : (decide (obj.grid.map lv_grid_t.addr = some d) ||
          (obj.grid.isSome && (some d).isNone)) = true := by
        simp [hg]
      rw [if_pos hc] at h
      have he := full_refresh_effective E S c0 obj obj1 ev h
      have hne : obj.grid ≠ none := by
        intro hnone
        rw [hnone] at hg
        cases hg
      refine ⟨?_, ?_⟩
      · simp [hg]
      · simp only [visit.effective, decide_eq_true_eq]
        constructor
        · intro _; exact hg
        · intro _; rw [he]; exact hne
    · have hc : ¬ (decide (obj.grid.map lv_grid_t.addr = some d) ||
          (obj.grid.isSome && (some d).isNone)) = true := by
        simp [hg]
      rw [if_neg hc] at h
      simp only [Option.some.injEq, Prod.mk.injEq] at h
      refine ⟨?_, ?_⟩
      · simp [hg]
      · simp only [visit.effective, decide_eq_true_eq, ← h.2]
        simp [hg]
  · intro hd
    subst hd
    have hc : (decide (obj.grid.map lv_grid_t.addr = none) ||
        (obj.grid.isSome && (none : Option Nat).isNone)) = true := by
      cases obj.grid <;> simp
    rw [if_pos hc] at h
    have he := full_refresh_effective E S c0 obj obj1 ev h
    simp only [visit.effective, decide_eq_true_eq]
    exact he

/-- The children loop inherits the properties of the recursive call. -/
theorem report_children_spec (D : Option Nat) (n : Nat)
    (f : List Nat → lv_obj_t → outcome (lv_obj_t × List visit))
    (hf : ∀ path obj, tree_depth obj ≤ n →
      f path obj ≠ outcome.no_fuel ∧
      ∀ obj1 vs, f path obj = outcome.done (obj1, vs) →
        skeleton obj1 = skeleton obj ∧
        List.Forall₂ (visit_agrees D) vs (preorder (skeleton obj) path))
    (path : List Nat) :
    ∀ cs : List lv_obj_t, tree_depth_list cs ≤ n →
      report_children f path cs ≠ outcome.no_fuel ∧
      ∀ cs1 vs, report_children f path cs = outcome.done (cs1, vs) →
        skeleton_list cs1 = skeleton_list cs ∧
        List.Forall₂ (visit_agrees D) vs (preorder_children (skeleton_list cs) path) := by
  intro cs
  induction cs with
  | nil =>
    intro _
    refine ⟨by simp [report_children], ?_⟩
    intro cs1 vs h
    simp only [report_children, outcome.done.injEq, Prod.mk.injEq] at h
    rw [← h.1, ← h.2]
    simp [skeleton_list, preorder_children]
  | cons child rest ih =>
    intro hd
    simp only [tree_depth_list] at hd
    have hrest := ih (le_trans (le_max_right _ _) hd)
    have hchild := hf (path ++ [rest.length]) child (le_trans (le_max_left _ _) hd)
    refine ⟨?_, ?_⟩
    · intro h
      simp only [report_children] at h
      rw [outcome.bind_no_fuel] at h
      rcases h with h | ⟨r1, _, h⟩
      · exact hrest.1 h
      · rw [outcome.bind_no_fuel] at h
        rcases h with h | ⟨r2, _, h⟩
        · exact hchild.1 h
        · cases h
    · intro cs1 vs h
      simp only [report_children] at h
      rw [outcome.bind_done] at h
      obtain ⟨r1, h1, h⟩ := h
      rw [outcome.bind_done] at h
      obtain ⟨r2, h2, h⟩ := h
      simp only [outcome.done.injEq, Prod.mk.injEq] at h
      obtain ⟨hr1a, hr1b⟩ := hrest.2 r1.1 r1.2 h1
      obtain ⟨hr2a, hr2b⟩ := hchild.2 r2.1 r2.2 h2
      rw [← h.1, ← h.2]
      refine ⟨?_, ?_⟩
      · simp only [skeleton_list]
        rw [hr1a, hr2a]
      · simp only [skeleton_list, preorder_children, skeleton_list_length]
        exact List.rel_append hr1b hr2b

/-- The traversal of the tree of an object ends within a bound of the depth of the
tree, keeps the grid pointers and visits the objects of the tree depth first. -/
theorem report_core_spec (E : GridEnv) (S : Scratch) (c0 : lv_grid_calc_t)
    (D : Option Nat) :
    ∀ (n : Nat) (path : List Nat) (obj : lv_obj_t), tree_depth obj ≤ n →
      report_grid_change_core E S c0 D n path obj ≠ outcome.no_fuel ∧
      ∀ obj1 vs, report_grid_change_core E S c0 D n path obj = outcome.done (obj1, vs) →
        skeleton obj1 = skeleton obj ∧
        List.Forall₂ (visit_agrees D) vs (preorder (skeleton obj) path) := by
  intro n
  induction n with
  | zero =>
    intro path obj hd
    have := tree_depth_pos obj
    omega
  | succ n ih =>
    intro path obj hd
    simp only [report_grid_change_core]
    split
    · refine ⟨by simp, ?_⟩
      intro obj1 vs h
      cases h
    · rename_i obj1 ev hr
      have hsk : skeleton obj1 = skeleton obj := by
        by_cases hc : (decide (obj.grid.map lv_grid_t.addr = D) ||
            (obj.grid.isSome && D.isNone)) = true
        · rw [if_pos hc] at hr
          exact full_refresh_skeleton E S c0 obj obj1 ev hr
        · rw [if_neg hc] at hr
          simp only [Option.some.injEq, Prod.mk.injEq] at hr
          rw [← hr.1]
      have hsk2 := hsk
      rw [skeleton_eq obj1, skeleton_eq obj, grid_tree.node.injEq] at hsk2
      have hdc : tree_depth_list obj1.children ≤ n := by
        have h1 := depth_of_skeleton obj1 obj hsk
        have h2 := tree_depth_children obj1
        omega
      have hch := report_children_spec D n
        (fun p o => report_grid_change_core E S c0 D n p o) ih path obj1.children hdc
      refine ⟨?_, ?_⟩
      · intro h
        rw [outcome.bind_no_fuel] at h
        rcases h with h | ⟨r, _, h⟩
        · exact hch.1 h
        · cases h
      · intro obj2 vs h
        rw [outcome.bind_done] at h
        obtain ⟨r, hr1, h⟩ := h
        simp only [outcome.done.injEq, Prod.mk.injEq] at h
        obtain ⟨ha, hb⟩ := hch.2 r.1 r.2 hr1
        rw [← h.1, ← h.2]
        refine ⟨?_, ?_⟩
        · rw [skeleton_eq (obj1.update _ _ _ _), lv_obj_t.grid_update, lv_obj_t.children_update,
            ha, skeleton_eq obj, hsk2.1, hsk2.2]
        · rw [skeleton_eq obj]
          simp only [preorder]
          refine List.Forall₂.cons ?_ ?_
          · exact visit_head_agrees E S c0 D path obj obj1 ev hr
          · rw [← hsk2.2]
            exact hb

theorem report_screens_spec (E : GridEnv) (S : Scratch) (c0 : lv_grid_calc_t)
    (D : Option Nat) (d : Nat) :
    ∀ (scrs : List lv_obj_t) (s : Nat),
      report_screens E S c0 D d s scrs ≠ outcome.no_fuel ∧
      ∀ scrs1 vs, report_screens E S c0 D d s scrs = outcome.done (scrs1, vs) →
        List.Forall₂ (visit_agrees D) vs (preorder_screens d s scrs) := by
  intro scrs
  induction scrs with
  | nil =>
    intro s
    refine ⟨by simp [report_screens], ?_⟩
    intro scrs1 vs h
    simp only [report_screens, outcome.done.injEq, Prod.mk.injEq] at h
    rw [← h.2]
    simp [preorder_screens]
  | cons scr rest ih =>
    intro s
    have hcore := report_core_spec E S c0 D (tree_depth scr) [d, s] scr (le_refl _)
    have hrest := ih (s + 1)
    refine ⟨?_, ?_⟩
    · intro h
      simp only [report_screens] at h
      rw [outcome.bind_no_fuel] at h
      rcases h with h | ⟨r1, _, h⟩
      · exact hcore.1 h
      · rw [outcome.bind_no_fuel] at h
        rcases h with h | ⟨r2, _, h⟩
        · exact hrest.1 h
        · cases h
    · intro scrs1 vs h
      simp only [report_screens] at h
      rw [outcome.bind_done] at h
      obtain ⟨r1, h1, h⟩ := h
      rw [outcome.bind_done] at h
      obtain ⟨r2, h2, h⟩ := h
      simp only [outcome.done.injEq, Prod.mk.injEq] at h
      rw [← h.2]
      simp only [preorder_screens]
      exact List.rel_append (hcore.2 r1.1 r1.2 h1).2 (hrest.2 r2.1 r2.2 h2)

theorem report_displays_spec (E : GridEnv) (S : Scratch) (c0 : lv_grid_calc_t)
    (D : Option Nat) :
    ∀ (displays : List (List lv_obj_t)) (d : Nat),
      report_displays E S c0 D d displays ≠ outcome.no_fuel ∧
      ∀ displays1 vs, report_displays E S c0 D d displays = outcome.done (displays1, vs) →
        List.Forall₂ (visit_agrees D) vs (preorder_displays d displays) := by
  intro displays
  induction displays with
  | nil =>
    intro d
    refine ⟨by simp [report_displays], ?_⟩
    intro displays1 vs h
    simp only [report_displays, outcome.done.injEq, Prod.mk.injEq] at h
    rw [← h.2]
    simp [preorder_displays]
  | cons scr_ll rest ih =>
    intro d
    have hscr := report_screens_spec E S c0 D d scr_ll 0
    have hrest := ih (d + 1)
    refine ⟨?_, ?_⟩
    · intro h
      simp only [report_displays] at h
      rw [outcome.bind_no_fuel] at h
      rcases h with h | ⟨r1, _, h⟩
      · exact hscr.1 h
      · rw [outcome.bind_no_fuel] at h
        rcases h with h | ⟨r2, _, h⟩
        · exact hrest.1 h
        · cases h
    · intro displays1 vs h
      simp only [report_displays] at h
      rw [outcome.bind_done] at h
      obtain ⟨r1, h1, h⟩ := h
      rw [outcome.bind_done] at h
      obtain ⟨r2, h2, h⟩ := h
      simp only [outcome.done.injEq, Prod.mk.injEq] at h
      rw [← h.2]
      simp only [preorder_displays]
      exact List.rel_append (hscr.2 r1.1 r1.2 h1) (hrest.2 r2.1 r2.2 h2)

theorem agrees_paths (D : Option Nat) (vs : List visit)
    (os : List (List Nat × Option lv_grid_t)) (h : List.Forall₂ (visit_agrees D) vs os) :
    vs.map visit.path = os.map Prod.fst := by
  induction h with
  | nil => rfl
  | cons hd _ ih => simp only [List.map_cons, ih, hd.1]

mutual
theorem preorder_paths : ∀ (t : grid_tree) (path : List Nat),
    (∀ q ∈ (preorder t path).map Prod.fst, ∃ r, q = path ++ r) ∧
    ((preorder t path).map Prod.fst).Nodup
  | grid_tree.node g cs, path => by
    have hc := preorder_children_paths cs path
    simp only [preorder, List.map_cons, List.mem_cons, List.nodup_cons]
    refine ⟨?_, ?_, hc.2⟩
    · intro q hq
      rcases hq with rfl | hq
      · exact ⟨[], by simp⟩
      · obtain ⟨i, r, _, hr⟩ := hc.1 q hq
        exact ⟨i :: r, hr⟩
    · intro hq
      obtain ⟨i, r, _, hr⟩ := hc.1 path hq
      have := congrArg List.length hr
      simp at this
termination_by structural t => t
theorem preorder_children_paths : ∀ (cs : List grid_tree) (path : List Nat),
    (∀ q ∈ (preorder_children cs path).map Prod.fst,
      ∃ i r, i < cs.length ∧ q = path ++ i :: r) ∧
    ((preorder_children cs path).map Prod.fst).Nodup
  | [], path => by simp [preorder_children]
  | c :: rest, path => by
    have hr := preorder_children_paths rest path
    have hc := preorder_paths c (path ++ [rest.length])
    simp only [preorder_children, List.map_append, List.mem_append]
    refine ⟨?_, ?_⟩
    · intro q hq
      rcases hq with hq | hq
      · obtain ⟨i, r, hi, hq⟩ := hr.1 q hq
        exact ⟨i, r, by simp only [List.length_cons]; omega, hq⟩
      · obtain ⟨r, hq⟩ := hc.1 q hq
        exact ⟨rest.length, r, by simp, by rw [hq]; simp⟩
    · rw [List.nodup_append]
      refine ⟨hr.2, hc.2, ?_⟩
      intro q hq1 hq2
      obtain ⟨i, r, hi, hq⟩ := hr.1 q hq1
      obtain ⟨r1, hq3⟩ := hc.1 q hq2
      rw [hq, List.append_assoc, List.append_cancel_left_eq] at hq3
      simp only [List.singleton_append, List.cons.injEq] at hq3
      omega
termination_by structural cs => cs
end

theorem preorder_screens_paths (d : Nat) : ∀ (scrs : List lv_obj_t) (s : Nat),
    (∀ q ∈ (preorder_screens d s scrs).map Prod.fst, ∃ s1 r, s ≤ s1 ∧ q = d :: s1 :: r) ∧
    ((preorder_screens d s scrs).map Prod.fst).Nodup := by
  intro scrs
  induction scrs with
  | nil => intro s; simp [preorder_screens]
  | cons scr rest ih =>
    intro s
    have hr := ih (s + 1)
    have hc := preorder_paths (skeleton scr) [d, s]
    simp only [preorder_screens, List.map_append, List.mem_append]
    refine ⟨?_, ?_⟩
    · intro q hq
      rcases hq with hq | hq
      · obtain ⟨r, hq⟩ := hc.1 q hq
        exact ⟨s, r, le_refl _, by rw [hq]; rfl⟩
      · obtain ⟨s1, r, hs, hq⟩ := hr.1 q hq
        exact ⟨s1, r, by omega, hq⟩
    · rw [List.nodup_append]
      refine ⟨hc.2, hr.2, ?_⟩
      intro q hq1 hq2
      obtain ⟨r, hq⟩ := hc.1 q hq1
      obtain ⟨s1, r1, hs, hq3⟩ := hr.1 q hq2
      rw [hq] at hq3
      simp only [List.cons_append, List.nil_append, List.cons.injEq, true_and] at hq3
      omega

theorem preorder_displays_paths : ∀ (displays : List (List lv_obj_t)) (d : Nat),
    (∀ q ∈ (preorder_displays d displays).map Prod.fst, ∃ d1 r, d ≤ d1 ∧ q = d1 :: r) ∧
    ((preorder_displays d displays).map Prod.fst).Nodup := by
  intro displays
  induction displays with
  | nil => intro d; simp [preorder_displays]
  | cons scr_ll rest ih =>
    intro d
    have hr := ih (d + 1)
    have hc := preorder_screens_paths d scr_ll 0
    simp only [preorder_displays, List.map_append, List.mem_append]
    refine ⟨?_, ?_⟩
    · intro q hq
      rcases hq with hq | hq
      · obtain ⟨s1, r, _, hq⟩ := hc.1 q hq
        exact ⟨d, s1 :: r, le_refl _, hq⟩
      · obtain ⟨d1, r, hd, hq⟩ := hr.1 q hq
        exact ⟨d1, r, by omega, hq⟩
    · rw [List.nodup_append]
      refine ⟨hc.2, hr.2, ?_⟩
      intro q hq1 hq2
      obtain ⟨s1, r, _, hq⟩ := hc.1 q hq1
      obtain ⟨d1, r1, hd, hq3⟩ := hr.1 q hq2
      rw [hq] at hq3
      simp only [List.cons.injEq] at hq3
      omega

/-- C17 (amended): `lv_obj_report_grid_change` ends on every object tree (the
recursion stays within the depth of each screen), and when it has a result its
visits are the objects of all screens of all displays, each one once and depth
first, where for a reported pointer `D` that is not `NULL` the traversal calls the
full refresh (line 547), and the call is effective, exactly on the objects whose
grid pointer is `D`, and for `NULL` the call of the traversal is effective exactly
on the objects whose grid pointer is not `NULL`. The statement is about the calls of
the traversal: the full refreshes that `item_repos` runs inside a refresh are events
of the visit of the container. -/
theorem C17_change_propagation (E : GridEnv) (S : Scratch) (c0 : lv_grid_calc_t)
    (D : Option Nat) (displays : List (List lv_obj_t)) :
    lv_obj_report_grid_change E S c0 D displays ≠ outcome.no_fuel ∧
    ∀ displays1 vs,
      lv_obj_report_grid_change E S c0 D displays = outcome.done (displays1, vs) →
      List.Forall₂ (visit_agrees D) vs (preorder_displays 0 displays) ∧
      (vs.map visit.path).Nodup := by
  have h := report_displays_spec E S c0 D displays 0
  refine ⟨h.1, ?_⟩
  intro displays1 vs hd
  have ha := h.2 displays1 vs hd
  refine ⟨ha, ?_⟩
  rw [agrees_paths D vs _ ha]
  exact (preorder_displays_paths displays 0).2

/-- C17, witness: the report of a change of `grid_2x2` on `two_displays` has a
result; it visits the ten objects depth first and refreshes the two containers
whose grid pointer is the address of `grid_2x2`, not the screen of the second
display, whose grid definition `grid_2x2_twin` has the same content at another
address. -/
theorem C17_witness :
    lv_obj_report_grid_change env16 scratch7 calc0 (some grid_2x2.addr) two_displays =
      outcome.done reported_two ∧
    (grid_2x2_twin.col_dsc = grid_2x2.col_dsc ∧ grid_2x2_twin.row_dsc = grid_2x2.row_dsc ∧
      grid_2x2_twin.addr ≠ grid_2x2.addr) ∧
    (preorder_displays 0 two_displays).map (fun o => (o.1, o.2.map lv_grid_t.addr)) =
      [([0, 0], none), ([0, 0, 0], some 8), ([0, 0, 0, 0], none), ([0, 0, 0, 1], none),
       ([0, 0, 0, 2], none), ([0, 0, 1], some 3), ([0, 1], some 8), ([0, 1, 0], some 2),
       ([1, 0], some 9), ([1, 0, 0], none)] ∧
    reported_two.2.map (fun v => (v.path, v.called, v.effective)) =
      [([0, 0], false, false), ([0, 0, 0], true, true), ([0, 0, 0, 0], false, false),
       ([0, 0, 0, 1], false, false), ([0, 0, 0, 2], false, false), ([0, 0, 1], false, false),
       ([0, 1], true, true), ([0, 1, 0], false, false), ([1, 0], false, false),
       ([1, 0, 0], false, false)] ∧
    List.Forall₂ (visit_agrees (some grid_2x2.addr)) reported_two.2
      (preorder_displays 0 two_displays) ∧
    (reported_two.2.map visit.path).Nodup :=
  ⟨rfl, by decide, by decide, by decide,
    (C17_change_propagation env16 scratch7 calc0 (some grid_2x2.addr) two_displays).2
      reported_two.1 reported_two.2 rfl⟩

/-- C17, counterexample: in `nested_displays` the only object whose grid pointer is
the address of `grid_2x2` is the screen, and the report of a change of `grid_2x2`
calls the full refresh from its traversal on the screen only; that refresh resizes
the stretched item and so runs a second full refresh, on the child of the item,
whose grid is `grid_fr`: two grid calculations and two decisions, the second one
for the grid cell of the container with `grid_fr`, which it moves to column 1 of
that grid. -/
theorem C17_counterexample :
    grid_fr.addr ≠ grid_2x2.addr ∧
    (preorder_displays 0 nested_displays).map (fun o => (o.1, o.2.map lv_grid_t.addr)) =
      [([0, 0], some grid_2x2.addr), ([0, 0, 0], none), ([0, 0, 0, 0], some grid_fr.addr),
       ([0, 0, 0, 0, 0], none)] ∧
    lv_obj_report_grid_change env16 scratch7 calc0 (some grid_2x2.addr) nested_displays =
      outcome.done reported_nested ∧
    reported_nested.2.map (fun v => (v.path, v.called, refresh_count v.events)) =
      [([0, 0], true, 2), ([0, 0, 0], false, 0), ([0, 0, 0, 0], false, 0),
       ([0, 0, 0, 0, 0], false, 0)] ∧
    (grid_cells env16 (cont_2x2 item_holder)).length = 1 ∧
    (reported_nested.2.map (fun v => (decisions (v.events.map grid_event.base)).map
        (fun r => (r.cell, r.x, r.y, r.resized, r.moved)))) =
      [[(⟨1, 1, 0, 1⟩, 30, 0, true, true), (⟨1, 1, 0, 1⟩, 10, 0, false, true)], [], [], []] :=
  ⟨by decide, by decide, rfl, by decide, by decide, by decide⟩

/-! ## Fractional division in the integer types -/

theorem fr_signed_range_ok (E : GridEnv) (dsc : List Int) (fit : Int) (hne : dsc ≠ [])
    (hr : fr_signed_range E dsc fit) (auto_sz : Bool) : explicit_ok E dsc auto_sz := by
  obtain ⟨_, _, hW, hW0, _⟩ := hr
  refine ⟨hne, fun _ hex => ?_⟩
  have hpos := hW0 hex
  rw [u32_of_in hpos.le hW]
  exact hpos.ne'

theorem u32_of_neg {v : Int} (h1 : -4294967296 ≤ v) (h2 : v < 0) : u32 v = v + 4294967296 := by
  unfold u32
  rw [← Int.add_emod_self]
  exact Int.emod_eq_of_lt (by omega) (by omega)

theorem calc_explicit_fr_quotient (E : GridEnv) (hb : 1 ≤ E.coord_bits) (dsc : List Int)
    (fit : Int) (off sz : Buf) (hne : dsc ≠ []) (hr : fr_signed_range E dsc fit) :
    ∃ off1 sz1, calc_explicit E dsc false fit off sz = some (off1, sz1) ∧
      fr_unsigned_quotient E dsc fit sz1 := by
  obtain ⟨off1, sz1, h1, h2, _⟩ :=
    calc_explicit_spec E dsc false fit off sz (fr_signed_range_ok E dsc fit hne hr false)
  refine ⟨off1, sz1, h1, ?_⟩
  intro i x hi hx
  have hmem : x ∈ dsc := List.getElem?_mem hi
  obtain ⟨hF, hw, hW, hW0, hP⟩ := hr
  have hWpos : 0 < fr_total E dsc := hW0 ⟨x, hmem, hx⟩
  have hval : sz1.mem i =
      E.coord (u32 (free_space E dsc fit * E.get_fr x) / fr_total E dsc) := by
    rw [h2 i x hi]
    simp only [hx, if_true]
    unfold fr_value
    simp only [Bool.false_eq_true, if_false]
    rw [coord_of_in E hb hF, coord_of_in E hb (hw x hmem hx).2, u32_of_in hWpos.le hW]
  refine ⟨hval, ?_, ?_⟩
  · intro hF0
    have hin : fr_in_range E dsc fit :=
      ⟨hF0, hF, hw, hW, hW0, fun y hy hfr => (hP y hy hfr).2⟩
    have h3 := fr_value_in_range E hb dsc fit hin x hmem hx
    have hp0 : 0 ≤ free_space E dsc fit * E.get_fr x := mul_nonneg hF0 (hw x hmem hx).1
    rw [h2 i x hi]
    simp only [hx, if_true]
    rw [h3, Int.fdiv_eq_ediv _ hWpos.le, Int.tdiv_eq_ediv hp0 hWpos.le]
  · intro hneg
    rw [hval, u32_of_neg (by linarith [(hP x hmem hx).1]) hneg]

/-- C21, the code at every input in the range of the machine types
(`fr_signed_range`, the free space `F` of either sign): on an explicit axis (columns
by `calc_explicit_cols`, rows by `calc_explicit_rows`) with at least one track,
whose container is not `LV_SIZE_AUTO` on that axis, the function returns and every
fractional track `i` gets the quotient by the weight sum `W` of the product
`F * w_i` converted to `uint32_t`, stored in an `lv_coord_t`: with `F ≥ 0` it is
`F * w_i / W` truncated toward zero, as the specification states; with a negative
product it is the quotient of `F * w_i + 2^32` by `W`, where the specification
states the quotient of `F * w_i` truncated toward zero. -/
theorem C21_fractional_division (E : GridEnv) (S : Scratch) (cont : lv_obj_t)
    (g : lv_grid_t) (c : lv_grid_calc_t) (dsc : List Int) (hb : 1 ≤ E.coord_bits)
    (hne : dsc ≠ []) :
    (g.col_dsc = some dsc → cont.w_set ≠ E.size_auto → fr_signed_range E dsc cont.width_fit →
      ∃ c1, calc_explicit_cols E S cont g c = some c1 ∧
        fr_unsigned_quotient E dsc cont.width_fit c1.w) ∧
    (g.row_dsc = some dsc → cont.h_set ≠ E.size_auto → fr_signed_range E dsc cont.height_fit →
      ∃ c1, calc_explicit_rows E S cont g c = some c1 ∧
        fr_unsigned_quotient E dsc cont.height_fit c1.h) := by
  constructor
  · intro hd ha hr
    have hdec : decide (cont.w_set = E.size_auto) = false := by simpa using ha
    obtain ⟨off1, sz1, h1, h2⟩ := calc_explicit_fr_quotient E hb dsc cont.width_fit
      (Buf.get S.x dsc.length) (Buf.get S.w dsc.length) hne hr
    rw [← hdec] at h1
    exact ⟨_, calc_explicit_cols_eq E S cont g c dsc hd off1 sz1 h1, h2⟩
  · intro hd ha hr
    have hdec : decide (cont.h_set = E.size_auto) = false := by simpa using ha
    obtain ⟨off1, sz1, h1, h2⟩ := calc_explicit_fr_quotient E hb dsc cont.height_fit
      (Buf.get S.y dsc.length) (Buf.get S.h dsc.length) hne hr
    rw [← hdec] at h1
    exact ⟨_, calc_explicit_rows_eq E S cont g c dsc hd off1 sz1 h1, h2⟩

/-- C21, the failing input: with a fixed column of 110 and three columns of weight
1 in a content width of 100 the free space is -10 and the weight sum 3; the quotient
of -10 by 3 truncated toward zero is -3, and each fractional track gets 21842: the
product is converted to `uint32_t` before the division,
`(2^32 - 10) / 3 = 1431655762`, which stored in the 16 bits of `lv_coord_t` is
21842. With the rows 20, 1fr in a content height of 80 the free space is 60 and the
fractional row gets 60. -/
theorem C21_witness :
    ((∃ c1, calc_explicit_cols env16 scratch7 cont_over grid_over calc0 = some c1 ∧
        fr_unsigned_quotient env16 [110, 24577, 24577, 24577] 100 c1.w) ∧
      cont_over.w_set ≠ env16.size_auto ∧
      free_space env16 [110, 24577, 24577, 24577] cont_over.width_fit = -10 ∧
      env16.get_fr 24577 = 1 ∧ fr_total env16 [110, 24577, 24577, 24577] = 3 ∧
      Int.tdiv (-10 * 1) 3 = -3 ∧
      (4294967296 - 10) / 3 = (1431655762 : Int) ∧ env16.coord 1431655762 = 21842 ∧
      (calc_explicit_cols env16 scratch7 cont_over grid_over calc0).map
          (fun c1 => (c1.w.mem 0, c1.w.mem 1, c1.w.mem 2, c1.w.mem 3)) =
        some (110, 21842, 21842, 21842)) ∧
    ((∃ c1, calc_explicit_rows env16 scratch7 cont_fr grid_fr calc0 = some c1 ∧
        fr_unsigned_quotient env16 [20, 24577] 80 c1.h) ∧
      (calc_explicit_rows env16 scratch7 cont_fr grid_fr calc0).map
          (fun c1 => (c1.h.mem 0, c1.h.mem 1)) = some (20, 60)) :=
  ⟨⟨(C21_fractional_division env16 scratch7 cont_over grid_over calc0
      [110, 24577, 24577, 24577] (by decide) (by decide)).1 rfl (by decide)
      (by unfold fr_signed_range GridEnv.in_coord; decide),
    by decide, by decide, by decide, by decide, by decide, by decide, by decide, by decide⟩,
   ⟨(C21_fractional_division env16 scratch7 cont_fr grid_fr calc0 [20, 24577]
      (by decide) (by decide)).2 rfl (by decide)
      (by unfold fr_signed_range GridEnv.in_coord; decide), by decide⟩⟩

/-! ## The indices written by the implicit resolution -/

theorem implicit_scan_writes (E : GridEnv) (n : Nat) (f : lv_obj_t → Int)
    (children : List lv_obj_t) :
    ∀ (e t : Nat) (sz : Buf),
      (implicit_scan E n f children e t sz).2.2.cap = sz.cap ∧
      t ≤ (implicit_scan E n f children e t sz).2.1 ∧
      ∀ i ∈ (implicit_scan E n f children e t sz).2.2.writes,
        i ∈ sz.writes ∨ (t ≤ i ∧ i ≤ (implicit_scan E n f children e t sz).2.1) := by
  induction children with
  | nil =>
    intro e t sz
    exact ⟨rfl, le_refl _, fun i hi => Or.inl hi⟩
  | cons x rest ih =>
    intro e t sz
    by_cases hx : is_grid_cell E x = true
    · by_cases hwrap : e + 1 = n
      · have hscan : implicit_scan E n f (x :: rest) e t sz =
            implicit_scan E n f rest 0 (t + 1)
              ((sz.write t (max (sz.mem t) (f x))).write (t + 1) 0) := by
          simp [implicit_scan, hx, hwrap]
        rw [hscan]
        obtain ⟨h1, h2, h3⟩ := ih 0 (t + 1) ((sz.write t (max (sz.mem t) (f x))).write (t + 1) 0)
        refine ⟨h1, by omega, ?_⟩
        intro i hi
        rcases h3 i hi with h | h
        · simp only [Buf.write, List.mem_cons] at h
          rcases h with h | h | h
          · right; omega
          · right; omega
          · left; exact h
        · right; omega
      · have hscan : implicit_scan E n f (x :: rest) e t sz =
            implicit_scan E n f rest (e + 1) t (sz.write t (max (sz.mem t) (f x))) := by
          simp [implicit_scan, hx, hwrap]
        rw [hscan]
        obtain ⟨h1, h2, h3⟩ := ih (e + 1) t (sz.write t (max (sz.mem t) (f x)))
        refine ⟨h1, h2, ?_⟩
        intro i hi
        rcases h3 i hi with h | h
        · simp only [Buf.write, List.mem_cons] at h
          rcases h with h | h
          · right; omega
          · left; exact h
        · right; exact h
    · have hscan : implicit_scan E n f (x :: rest) e t sz = implicit_scan E n f rest e t sz := by
        simp [implicit_scan, hx]
      rw [hscan]
      exact ih e t sz

theorem prefix_loop_writes (E : GridEnv) (sz : Buf) :
    ∀ (k i : Nat) (off : Buf),
      (prefix_loop E sz k i off).cap = off.cap ∧
      (∀ j ∈ (prefix_loop E sz k i off).writes, j ∈ off.writes ∨ (i + 1 ≤ j ∧ j ≤ i + k)) ∧
      (1 ≤ k → i + k ∈ (prefix_loop E sz k i off).writes) := by
  intro k
  induction k with
  | zero =>
    intro i off
    exact ⟨rfl, fun j hj => Or.inl hj, fun h => absurd h (by omega)⟩
  | succ k ih =>
    intro i off
    simp only [prefix_loop]
    obtain ⟨h1, h2, h3⟩ := ih (i + 1) (off.write (i + 1) (E.coord (off.mem i + sz.mem i)))
    refine ⟨h1, ?_, ?_⟩
    · intro j hj
      rcases h2 j hj with h | h
      · simp only [Buf.write, List.mem_cons] at h
        rcases h with h | h
        · right; omega
        · left; exact h
      · right; omega
    · intro _
      by_cases hk : 1 ≤ k
      · have := h3 hk
        have he : i + (k + 1) = i + 1 + k := by omega
        rw [he]
        exact this
      · have hk0 : k = 0 := by omega
        subst hk0
        simp [prefix_loop, Buf.write]

theorem implicit_scan_last (E : GridEnv) (n : Nat) (hn : n ≠ 0) (f : lv_obj_t → Int)
    (children : List lv_obj_t) (sz : Buf) :
    (implicit_scan E n f children 0 0 sz).2.1 < (children.length + n - 1) / n + 1 := by
  have hpos : 0 < n := Nat.pos_of_ne_zero hn
  have hinv := implicit_scan_inv E n f children 0 0 sz hpos
  obtain ⟨h1, -⟩ := hinv
  simp only [Nat.zero_mul, Nat.zero_add] at h1
  have hlen : (children.filter (is_grid_cell E)).length ≤ children.length :=
    List.length_filter_le _ _
  have h2 : (implicit_scan E n f children 0 0 sz).2.1 * n ≤ children.length := by omega
  have h3 : (implicit_scan E n f children 0 0 sz).2.1 ≤ children.length / n :=
    (Nat.le_div_iff_mul_le hpos).mpr h2
  have h4 : children.length / n ≤ (children.length + n - 1) / n :=
    Nat.div_le_div_right (by omega)
  omega

theorem calc_implicit_rows_bufs (E : GridEnv) (S : Scratch) (cont : lv_obj_t) (g : lv_grid_t)
    (c : lv_grid_calc_t) (h : g.col_dsc_len ≠ 0) :
    ∃ c1, calc_implicit_rows E S cont g c = some c1 ∧
      c1.row_num = (cont.children.length + g.col_dsc_len - 1) / g.col_dsc_len + 1 ∧
      c1.h = (implicit_scan E g.col_dsc_len (natural_height E) cont.children 0 0
        ((Buf.get S.h ((cont.children.length + g.col_dsc_len - 1) / g.col_dsc_len + 1)).write
          0 0)).2.2 ∧
      c1.y = prefix_loop E c1.h c1.row_num 0
        ((Buf.get S.y ((cont.children.length + g.col_dsc_len - 1) / g.col_dsc_len + 1)).write
          0 0) := by
  unfold calc_implicit_rows
  rw [if_neg h]
  exact ⟨_, rfl, rfl, rfl, rfl⟩

theorem calc_implicit_cols_bufs (E : GridEnv) (S : Scratch) (cont : lv_obj_t) (g : lv_grid_t)
    (c : lv_grid_calc_t) (h : g.row_dsc_len ≠ 0) :
    ∃ c1, calc_implicit_cols E S cont g c = some c1 ∧
      c1.col_num = (cont.children.length + g.row_dsc_len - 1) / g.row_dsc_len + 1 ∧
      c1.w = (implicit_scan E g.row_dsc_len (natural_width E) cont.children 0 0
        ((Buf.get S.w ((cont.children.length + g.row_dsc_len - 1) / g.row_dsc_len + 1)).write
          0 0)).2.2 ∧
      c1.x = prefix_loop E c1.w (c1.col_num - 1) 0
        ((Buf.get S.x ((cont.children.length + g.row_dsc_len - 1) / g.row_dsc_len + 1)).write
          0 0) := by
  unfold calc_implicit_cols
  rw [if_neg h]
  exact ⟨_, rfl, rfl, rfl, rfl⟩

/-- C22, the code at every input: for a container with at least one explicit column
and implicit rows `calc_implicit_rows` asks for `row_num` entries for `h` and for
`y`, writes `h` below `row_num` only, and writes `y[row_num]`, one entry after the
end of the buffer (the loop of line 389 runs to `i < row_num` and stores
`y[i + 1]`); for a container with at least one explicit row and implicit columns
`calc_implicit_cols` writes `w` and `x` below `col_num` only. -/
theorem C22_row_offsets_written_past_end (E : GridEnv) (S : Scratch) (cont : lv_obj_t)
    (g : lv_grid_t) (c : lv_grid_calc_t) (dsc : List Int) (hne : dsc ≠ []) :
    (g.col_dsc = some dsc →
      ∃ c1, calc_implicit_rows E S cont g c = some c1 ∧
        c1.h.cap = c1.row_num ∧ c1.y.cap = c1.row_num ∧
        (∀ i ∈ c1.h.writes, i < c1.row_num) ∧
        c1.row_num ∈ c1.y.writes ∧ (∀ i ∈ c1.y.writes, i ≤ c1.row_num)) ∧
    (g.row_dsc = some dsc →
      ∃ c1, calc_implicit_cols E S cont g c = some c1 ∧
        c1.w.cap = c1.col_num ∧ c1.x.cap = c1.col_num ∧
        (∀ i ∈ c1.w.writes, i < c1.col_num) ∧ (∀ i ∈ c1.x.writes, i < c1.col_num)) := by
  have hn : dsc.length ≠ 0 := fun h => hne (List.length_eq_zero.mp h)
  constructor
  · intro hd
    have hlen : g.col_dsc_len = dsc.length := by
      simp only [lv_grid_t.col_dsc_len, hd, Option.getD_some]
    obtain ⟨c1, h1, hnum, hh, hy⟩ := calc_implicit_rows_bufs E S cont g c (by rw [hlen]; exact hn)
    rw [hlen] at hnum hh hy
    have hw := implicit_scan_writes E dsc.length (natural_height E) cont.children 0 0
      ((Buf.get S.h ((cont.children.length + dsc.length - 1) / dsc.length + 1)).write 0 0)
    have hl := implicit_scan_last E dsc.length hn (natural_height E) cont.children
      ((Buf.get S.h ((cont.children.length + dsc.length - 1) / dsc.length + 1)).write 0 0)
    have hp := prefix_loop_writes E c1.h c1.row_num 0
      ((Buf.get S.y ((cont.children.length + dsc.length - 1) / dsc.length + 1)).write 0 0)
    rw [← hh] at hw
    rw [← hy] at hp
    refine ⟨c1, h1, ?_, ?_, ?_, ?_, ?_⟩
    · rw [hw.1, hnum]; rfl
    · rw [hp.1, hnum]; rfl
    · intro i hi
      rcases hw.2.2 i hi with h | h
      · simp only [Buf.write, Buf.get, List.mem_cons, List.not_mem_nil, or_false] at h
        omega
      · omega
    · have := hp.2.2 (by omega)
      simp only [Nat.zero_add] at this
      exact this
    · intro i hi
      rcases hp.2.1 i hi with h | h
      · simp only [Buf.write, Buf.get, List.mem_cons, List.not_mem_nil, or_false] at h
        omega
      · omega
  · intro hd
    have hlen : g.row_dsc_len = dsc.length := by
      simp only [lv_grid_t.row_dsc_len, hd, Option.getD_some]
    obtain ⟨c1, h1, hnum, hh, hy⟩ := calc_implicit_cols_bufs E S cont g c (by rw [hlen]; exact hn)
    rw [hlen] at hnum hh hy
    have hw := implicit_scan_writes E dsc.length (natural_width E) cont.children 0 0
      ((Buf.get S.w ((cont.children.length + dsc.length - 1) / dsc.length + 1)).write 0 0)
    have hl := implicit_scan_last E dsc.length hn (natural_width E) cont.children
      ((Buf.get S.w ((cont.children.length + dsc.length - 1) / dsc.length + 1)).write 0 0)
    have hp := prefix_loop_writes E c1.w (c1.col_num - 1) 0
      ((Buf.get S.x ((cont.children.length + dsc.length - 1) / dsc.length + 1)).write 0 0)
    rw [← hh] at hw
    rw [← hy] at hp
    refine ⟨c1, h1, ?_, ?_, ?_, ?_⟩
    · rw [hw.1, hnum]; rfl
    · rw [hp.1, hnum]; rfl
    · intro i hi
      rcases hw.2.2 i hi with h | h
      · simp only [Buf.write, Buf.get, List.mem_cons, List.not_mem_nil, or_false] at h
        omega
      · omega
    · intro i hi
      rcases hp.2.1 i hi with h | h
      · simp only [Buf.write, Buf.get, List.mem_cons, List.not_mem_nil, or_false] at h
        omega
      · omega

/-- C22, the failing input: the container `cont_cols5`, two explicit columns and five
grid cells: `row_num` is 4, the buffers `h` and `y` have 4 entries, the indices
written into `y` are 0, 1, 2, 3 and 4. For `cont_rows5`, two explicit rows, `col_num`
is 4 and the indices written into `x` are 0, 1, 2 and 3. -/
theorem C22_witness :
    ((∃ c1, calc_implicit_rows env16 scratch7 cont_cols5 grid_cols2 calc0 = some c1 ∧
        c1.h.cap = c1.row_num ∧ c1.y.cap = c1.row_num ∧
        (∀ i ∈ c1.h.writes, i < c1.row_num) ∧
        c1.row_num ∈ c1.y.writes ∧ (∀ i ∈ c1.y.writes, i ≤ c1.row_num)) ∧
      (calc_implicit_rows env16 scratch7 cont_cols5 grid_cols2 calc0).map
          (fun c1 => (c1.row_num, c1.y.cap, c1.y.writes, c1.h.cap, c1.h.writes)) =
        some (4, 4, [4, 3, 2, 1, 0], 4, [2, 2, 1, 1, 1, 0, 0, 0])) ∧
    ((∃ c1, calc_implicit_cols env16 scratch7 cont_rows5 grid_rows2 calc0 = some c1 ∧
        c1.w.cap = c1.col_num ∧ c1.x.cap = c1.col_num ∧
        (∀ i ∈ c1.w.writes, i < c1.col_num) ∧ (∀ i ∈ c1.x.writes, i < c1.col_num)) ∧
      (calc_implicit_cols env16 scratch7 cont_rows5 grid_rows2 calc0).map
          (fun c1 => (c1.col_num, c1.x.cap, c1.x.writes, c1.w.cap, c1.w.writes)) =
        some (4, 4, [3, 2, 1, 0], 4, [2, 2, 1, 1, 1, 0, 0, 0])) :=
  ⟨⟨(C22_row_offsets_written_past_end env16 scratch7 cont_cols5 grid_cols2 calc0 [10, 24577]
      (by decide)).1 rfl, by decide⟩,
   ⟨(C22_row_offsets_written_past_end env16 scratch7 cont_rows5 grid_rows2 calc0 [10, 24577]
      (by decide)).2 rfl, by decide⟩⟩

/-! ## Placement and measure of the auto-placed items -/

theorem implicit_scan_tracks_eq (E : GridEnv) (n : Nat) (children : List lv_obj_t) :
    ∀ (e t : Nat), e < n →
      implicit_scan_tracks E n children e t =
        (List.range (children.filter (is_grid_cell E)).length).map
          (fun k => (t * n + e + k) / n) := by
  induction children with
  | nil => intro e t _; simp [implicit_scan_tracks]
  | cons x rest ih =>
    intro e t he
    rw [implicit_scan_tracks]
    by_cases hx : is_grid_cell E x = true
    · have hfilter : (x :: rest).filter (is_grid_cell E) = x :: rest.filter (is_grid_cell E) := by
        simp [List.filter_cons, hx]
      rw [hfilter, List.length_cons, List.range_succ_eq_map, List.map_cons, List.map_map]
      have hdiv : (t * n + e) / n = t := div_of_cursor _ _ _ he
      simp only [hx, if_true, Nat.add_zero, hdiv]
      by_cases hwrap : e + 1 = n
      · simp only [hwrap, if_true]
        rw [ih 0 (t + 1) (by omega)]
        congr 1
        apply List.map_congr_left
        intro k _
        simp only [Function.comp, Nat.succ_eq_add_one]
        have hp : (t + 1) * n + 0 + k = t * n + e + (k + 1) := by
          rw [Nat.add_mul]
          omega
        rw [hp]
      · simp only [hwrap, if_false]
        rw [ih (e + 1) t (by omega)]
        congr 1
        apply List.map_congr_left
        intro k _
        simp only [Function.comp, Nat.succ_eq_add_one]
        have hp : t * n + (e + 1) + k = t * n + e + (k + 1) := by omega
        rw [hp]
    · have hfilter : (x :: rest).filter (is_grid_cell E) = rest.filter (is_grid_cell E) := by
        simp [List.filter_cons, hx]
      simp only [hx, Bool.false_eq_true, if_false]
      rw [hfilter]
      exact ih e t he

/-- The row heights of the result of `_lv_grid_calc` on a container with explicit
columns and implicit rows are those of the scan of the children. -/
theorem lv_grid_calc_implicit_h (E : GridEnv) (S : Scratch) (cont : lv_obj_t) (g : lv_grid_t)
    (c : lv_grid_calc_t) (cd : List Int) (hg : cont.grid = some g) (hc : g.col_dsc = some cd)
    (hr : g.row_dsc = none) (hok : explicit_ok E cd (decide (cont.w_set = E.size_auto))) :
    ∃ c1, _lv_grid_calc E S cont c = some c1 ∧
      c1.h = (implicit_scan E cd.length (natural_height E) cont.children 0 0
        ((Buf.get S.h ((cont.children.length + cd.length - 1) / cd.length + 1)).write
          0 0)).2.2 := by
  obtain ⟨off, sz, h1, -⟩ := calc_explicit_spec E cd _ cont.width_fit
    (Buf.get S.x cd.length) (Buf.get S.w cd.length) hok
  have hlen : g.col_dsc_len = cd.length := by
    simp only [lv_grid_t.col_dsc_len, hc, Option.getD_some]
  have hne : g.col_dsc_len ≠ 0 := by
    rw [hlen]
    exact fun h => hok.1 (List.length_eq_zero.mp h)
  obtain ⟨c2, h2, -, hh⟩ := calc_implicit_rows_num E S cont g
    { c with col_num := cd.length, x := off, w := sz } hne
  unfold _lv_grid_calc
  simp only [hg, hc, hr]
  rw [calc_explicit_cols_eq E S cont g c cd hc off sz h1]
  simp only [Option.some_bind, h2, Option.map_some']
  refine ⟨_, rfl, ?_⟩
  rw [← hlen, ← hh]
  rfl

/-! ## The cells given by the sweep of the refresh -/

theorem decisions_nested (ev : List grid_event) :
    decisions (ev.map grid_event.nested) = [] := by
  induction ev with
  | nil => rfl
  | cons e rest ih => simp [decisions, ih]

/-- The cells of the decisions that the sweep of `_lv_grid_full_refresh` takes for
the children of the container, in the order of the visit, are the cells of
`full_refresh_cells`. -/
theorem refresh_items_cells (E : GridEnv) (S : Scratch) (c0 : lv_grid_calc_t) (cont : lv_obj_t)
    (grid : lv_grid_t) (c : lv_grid_calc_t) (children : List lv_obj_t) :
    ∀ (before before0 : List lv_obj_t) (hint : item_repos_hint_t) (cs1 : List lv_obj_t)
      (ev : List grid_event),
      refresh_items E S c0 cont grid c children before hint = some (cs1, ev) →
      (decisions ev).map (fun r => r.cell) = full_refresh_cells E grid children before0 hint := by
  induction children with
  | nil =>
    intro before before0 hint cs1 ev h
    simp only [refresh_items, Option.some.injEq, Prod.mk.injEq] at h
    rw [← h.2]
    rfl
  | cons item rest ih =>
    intro before before0 hint cs1 ev h
    rw [refresh_items] at h
    rw [full_refresh_cells]
    by_cases hcell : is_grid_cell E item = true
    · simp only [hcell, if_true] at h
      split at h
      · exact absurd h (by simp)
      · rename_i item1 hint1 e1 hrun
        split at h
        · exact absurd h (by simp)
        · rename_i rest1 e2 hrest
          simp only [Option.some.injEq, Prod.mk.injEq] at h
          obtain ⟨-, hev⟩ := h
          obtain ⟨cs2, e3, -, hh1, he1, -⟩ := item_repos_run_cell E S c0 cont grid c before
            (some hint) item hcell item1 hint1 e1 hrun
          obtain ⟨hn1, hsh, -⟩ := item_repos_cell_hint E grid before item hint
          have hc := item_repos_cell_congr E grid before before0 item item hint rfl rfl
          have hhint : hint1.getD hint = hn1 := by rw [hh1, hsh]; rfl
          rw [hhint] at hrest
          have hpair : item_repos_cell E grid before0 item (some hint) =
              ((item_repos_cell E grid before item (some hint)).1, some hn1) := by
            rw [hc, ← hsh]
          have hitem : ¬ _lv_obj_is_grid_item E item = false := by
            rw [_lv_obj_is_grid_item, hcell]
            simp
          simp only [hcell, if_true, if_neg hitem, hpair]
          rw [← hev, he1, List.cons_append, decisions, List.map_cons, decisions_append,
            decisions_nested, List.nil_append, ih _ (before0 ++ [item]) hn1 rest1 e2 hrest]
          rfl
    · simp only [hcell, Bool.false_eq_true, if_false] at h ⊢
      split at h
      · exact absurd h (by simp)
      · rename_i rest1 e2 hrest
        simp only [Option.some.injEq, Prod.mk.injEq] at h
        rw [← h.2]
        exact ih _ _ hint rest1 e2 hrest

/-- The cells of the decisions that `_lv_grid_full_refresh` takes for the children
of a container with a grid are the cells of `_lv_grid_full_refresh_cells`. -/
theorem full_refresh_cells_link (E : GridEnv) (S : Scratch) (c0 : lv_grid_calc_t)
    (cont cont1 : lv_obj_t) (ev : List grid_event)
    (h : _lv_grid_full_refresh E S c0 cont = some (cont1, ev)) :
    _lv_grid_full_refresh_cells E S cont c0 = some ((decisions ev).map (fun r => r.cell)) := by
  cases cont with
  | mk a xs ys ws hs g wf hf aw ah pl pt sl st cs =>
    cases g with
    | none =>
      simp only [_lv_grid_full_refresh, Option.some.injEq, Prod.mk.injEq] at h
      rw [← h.2]
      rfl
    | some grid =>
      simp only [_lv_grid_full_refresh] at h
      split at h
      · exact absurd h (by simp)
      · rename_i c hcalc
        split at h
        · exact absurd h (by simp)
        · rename_i cs1 e hsweep
          simp only [Option.some.injEq, Prod.mk.injEq] at h
          have hcells := refresh_items_cells E S c0 _ grid c cs [] [] _ cs1 e hsweep
          simp only [_lv_grid_full_refresh_cells, lv_obj_t.grid, hcalc, lv_obj_t.children]
          rw [← hcells, ← h.2]
          simp only [decisions, decisions_append]
          split <;> simp [decisions]

theorem refresh_fr_children_no_fr (E : GridEnv) (S : Scratch) (c0 : lv_grid_calc_t) :
    ∀ cs : List lv_obj_t,
      (∀ ch ∈ cs, _lv_grid_has_fr_col E ch = false ∧ _lv_grid_has_fr_row E ch = false) →
      refresh_fr_children E S c0 cs = some (cs, []) := by
  intro cs
  induction cs with
  | nil => intro _; simp only [refresh_fr_children]
  | cons ch rest ih =>
    intro h
    have h1 := h ch (List.mem_cons_self _ _)
    have h2 := ih (fun x hx => h x (List.mem_cons_of_mem _ hx))
    simp only [refresh_fr_children, h2, h1.1, h1.2, Bool.or_self, Bool.false_eq_true, if_false]

/-- What `item_repos` does to a grid cell none of whose children is a grid with a
fractional track: the decision is the only event. -/
theorem item_repos_run_leaf (E : GridEnv) (S : Scratch) (c0 : lv_grid_calc_t)
    (cont : lv_obj_t) (grid : lv_grid_t) (c : lv_grid_calc_t) (before : List lv_obj_t)
    (hint : Option item_repos_hint_t) (item : lv_obj_t) (hcell : is_grid_cell E item = true)
    (hwr : span_wraps (item_repos_cell E grid before item hint).1 = false)
    (hleaf : ∀ ch ∈ item.children,
      _lv_grid_has_fr_col E ch = false ∧ _lv_grid_has_fr_row E ch = false) :
    ∃ item1, item_repos_run E S c0 cont grid c before hint item =
      some (item1, (item_repos_cell E grid before item hint).2,
        [grid_event.repos (grid_origin E cont)
          (item_repos_geom E c item (item_repos_cell E grid before item hint).1 hint)]) := by
  have hsome := item_repos_some E grid c before item hint hcell hwr
  cases item with
  | mk a xs ys ws hs g wf hf aw ah pl pt sl st cs =>
    have hcell2 : ¬ _lv_obj_is_grid_item E
        (lv_obj_t.mk a xs ys ws hs g wf hf aw ah pl pt sl st cs) = false := by
      rw [_lv_obj_is_grid_item, hcell]
      simp
    have hfr := refresh_fr_children_no_fr E S c0 cs hleaf
    simp only [item_repos_run]
    rw [if_neg hcell2]
    simp only [hsome]
    by_cases hres : (item_repos_geom E c (lv_obj_t.mk a xs ys ws hs g wf hf aw ah pl pt sl st cs)
        (item_repos_cell E grid before
          (lv_obj_t.mk a xs ys ws hs g wf hf aw ah pl pt sl st cs) hint).1 hint).resized = true
    · simp only [hres, if_true, hfr, List.map_nil]
      exact ⟨_, rfl⟩
    · simp only [hres, Bool.false_eq_true, if_false, List.map_nil]
      exact ⟨_, rfl⟩

/-- With explicit columns and implicit rows, fewer children than a `uint32_t` counts
and no grid with a fractional track among the children of the children, the sweep of
`_lv_grid_full_refresh` has a result. -/
theorem refresh_items_rows_some (E : GridEnv) (S : Scratch) (c0 : lv_grid_calc_t)
    (cont : lv_obj_t) (g : lv_grid_t) (c : lv_grid_calc_t) (dsc : List Int)
    (hc : g.col_dsc = some dsc) (hr : g.row_dsc = none) (children : List lv_obj_t) :
    ∀ (before : List lv_obj_t) (hint : item_repos_hint_t),
      hint.col + hint.row + children.length < 4294967295 →
      (∀ item ∈ children, ∀ ch ∈ item.children,
        _lv_grid_has_fr_col E ch = false ∧ _lv_grid_has_fr_row E ch = false) →
      ∃ cs1 ev, refresh_items E S c0 cont g c children before hint = some (cs1, ev) := by
  induction children with
  | nil => intro before hint _ _; exact ⟨[], [], by simp only [refresh_items]⟩
  | cons item rest ih =>
    intro before hint hbound hleaf
    simp only [List.length_cons] at hbound
    rw [refresh_items]
    by_cases hcell : is_grid_cell E item = true
    · have hcellv : (item_repos_cell E g before item (some hint)).1 =
          ⟨hint.col, 1, hint.row, 1⟩ := by
        simp [item_repos_cell, hc, hr]
      have hwr : span_wraps (item_repos_cell E g before item (some hint)).1 = false := by
        rw [hcellv]
        apply span_ok_wraps
        unfold span_ok
        simp only
        omega
      obtain ⟨item1, hrun⟩ := item_repos_run_leaf E S c0 cont g c before (some hint) item hcell
        hwr (hleaf item (List.mem_cons_self _ _))
      obtain ⟨hn1, hsh, -⟩ := item_repos_cell_hint E g before item hint
      have hn1v : hn1.col + hn1.row ≤ hint.col + hint.row + 1 := by
        have h2 : (item_repos_cell E g before item (some hint)).2 = some hn1 := hsh
        simp only [item_repos_cell, hc, hr, Option.isSome_none, Option.isSome_some,
          Bool.false_and, Bool.false_eq_true, if_false, Option.isNone_none, if_true,
          Option.some.injEq] at h2
        rw [← h2]
        split <;> simp only <;> omega
      obtain ⟨rest1, ev2, hrest⟩ := ih (before ++ [item1]) hn1 (by omega)
        (fun x hx => hleaf x (List.mem_cons_of_mem _ hx))
      simp only [hcell, if_true, hrun, hsh, Option.getD_some, hrest]
      exact ⟨_, _, rfl⟩
    · obtain ⟨rest1, ev2, hrest⟩ := ih (before ++ [item]) hint (by omega)
        (fun x hx => hleaf x (List.mem_cons_of_mem _ hx))
      simp only [hcell, Bool.false_eq_true, if_false, hrest]
      exact ⟨_, _, rfl⟩

/-- With explicit columns, resolved to their end, and implicit rows, fewer children
than a `uint32_t` counts and no grid with a fractional track among the children of
the children, `_lv_grid_full_refresh` has a result. -/
theorem full_refresh_rows_some (E : GridEnv) (S : Scratch) (cont : lv_obj_t) (g : lv_grid_t)
    (c : lv_grid_calc_t) (dsc : List Int) (hg : cont.grid = some g)
    (hc : g.col_dsc = some dsc) (hr : g.row_dsc = none)
    (hok : explicit_ok E dsc (decide (cont.w_set = E.size_auto)))
    (hcount : cont.children.length < 4294967295)
    (hleaf : ∀ item ∈ cont.children, ∀ ch ∈ item.children,
      _lv_grid_has_fr_col E ch = false ∧ _lv_grid_has_fr_row E ch = false) :
    ∃ cont1 ev, _lv_grid_full_refresh E S c cont = some (cont1, ev) := by
  obtain ⟨c1, h1, -⟩ := lv_grid_calc_row_num E S cont g c dsc hg hc hr hok
  cases cont with
  | mk a xs ys ws hs g0 wf hf aw ah pl pt sl st cs =>
    have hg0 : g0 = some g := hg
    subst hg0
    obtain ⟨cs1, ev, hsweep⟩ := refresh_items_rows_some E S c
      (lv_obj_t.mk a xs ys ws hs (some g) wf hf aw ah pl pt sl st cs) g c1 dsc hc hr cs []
      (full_refresh_hint E (lv_obj_t.mk a xs ys ws hs (some g) wf hf aw ah pl pt sl st cs))
      (by simp only [full_refresh_hint]; simpa using hcount) hleaf
    simp only [_lv_grid_full_refresh, h1, hsweep]
    exact ⟨_, _, rfl⟩

/-- C9: for a container with `n ≥ 1` explicit columns, resolved to their end, and
implicit rows, every result of `_lv_grid_full_refresh` holds one decision of
`item_repos` for each grid-cell child, and the decision for the `k`-th of them (from
0, in the order of `lv_obj_get_child_back`) has the cell of column `k mod n` and row
`k div n`, with spans 1; with 5 grid-cell children and 2 columns the positions are
(0,0), (1,0), (0,1), (1,1), (0,2). The refresh has a result when the container has
fewer children than a `uint32_t` counts and no child of a child is a grid with a
fractional track (no refresh inside the refresh). -/
theorem C9_row_major_placement (E : GridEnv) (S : Scratch) (cont : lv_obj_t) (g : lv_grid_t)
    (c : lv_grid_calc_t) (dsc : List Int) (hg : cont.grid = some g)
    (hc : g.col_dsc = some dsc) (hr : g.row_dsc = none)
    (hok : explicit_ok E dsc (decide (cont.w_set = E.size_auto))) :
    (∀ cont1 ev, _lv_grid_full_refresh E S c cont = some (cont1, ev) →
      (decisions ev).length = (grid_cells E cont).length ∧
      (∀ k, k < (grid_cells E cont).length →
        (decisions ev)[k]?.map (fun r => r.cell) = some ⟨k % dsc.length, 1, k / dsc.length, 1⟩) ∧
      ((grid_cells E cont).length = 5 → dsc.length = 2 →
        (decisions ev).map (fun r => (r.cell.col_pos, r.cell.row_pos)) =
          [(0, 0), (1, 0), (0, 1), (1, 1), (0, 2)])) ∧
    (cont.children.length < 4294967295 →
      (∀ item ∈ cont.children, ∀ ch ∈ item.children,
        _lv_grid_has_fr_col E ch = false ∧ _lv_grid_has_fr_row E ch = false) →
      ∃ cont1 ev, _lv_grid_full_refresh E S c cont = some (cont1, ev)) := by
  have hn : 0 < dsc.length := List.length_pos.mpr hok.1
  refine ⟨?_, fun hcount hleaf =>
    full_refresh_rows_some E S cont g c dsc hg hc hr hok hcount hleaf⟩
  intro cont1 ev h
  have hlink := full_refresh_cells_link E S c cont cont1 ev h
  have hcells := full_refresh_cells_rows E g dsc hc hr cont.children []
    (full_refresh_hint E cont) hn
  simp only [full_refresh_hint, Nat.zero_mul, Nat.zero_add] at hcells
  obtain ⟨c1, h1, -⟩ := lv_grid_calc_row_num E S cont g c dsc hg hc hr hok
  have hmap : (decisions ev).map (fun r => r.cell) =
      (List.range (grid_cells E cont).length).map
        (fun k => (⟨k % dsc.length, 1, k / dsc.length, 1⟩ : cell_span_t)) := by
    unfold _lv_grid_full_refresh_cells at hlink
    simp only [hg, h1, Option.some.injEq] at hlink
    rw [← hlink, full_refresh_hint, hcells]
    rfl
  have hlen : (decisions ev).length = (grid_cells E cont).length := by
    have := congrArg List.length hmap
    simpa using this
  refine ⟨hlen, ?_, ?_⟩
  · intro k hk
    rw [← List.getElem?_map, hmap, List.getElem?_map, List.getElem?_range hk]
    rfl
  · intro h5 h2
    have : (decisions ev).map (fun r => (r.cell.col_pos, r.cell.row_pos)) =
        ((decisions ev).map (fun r => r.cell)).map (fun s => (s.col_pos, s.row_pos)) := by
      rw [List.map_map]
      rfl
    rw [this, hmap, h5, h2]
    decide

/-- C9, witness: the container `cont_cols5`, five grid cells in the two explicit
columns 10 and 1fr: the refresh has a result, with the decisions at the cells
(0,0), (1,0), (0,1), (1,1), (0,2). -/
theorem C9_witness :
    (∃ cont1 ev, _lv_grid_full_refresh env16 scratch7 calc0 cont_cols5 = some (cont1, ev)) ∧
    ((_lv_grid_full_refresh env16 scratch7 calc0 cont_cols5).map
        (fun res => (decisions res.2).map (fun r => (r.cell.col_pos, r.cell.row_pos))) =
      some [(0, 0), (1, 0), (0, 1), (1, 1), (0, 2)]) :=
  ⟨(C9_row_major_placement env16 scratch7 cont_cols5 grid_cols2 calc0 [10, 24577] rfl rfl rfl
      (by unfold explicit_ok; decide)).2 (by decide) (by decide), by decide⟩

/-- C23: for a container with `n ≥ 1` explicit columns, resolved to their end, and
implicit rows, in every result of `_lv_grid_full_refresh` the rows of the decisions
of `item_repos` for the grid-cell children, in the order of the visit, are the rows
at which the scan of `calc_implicit_rows` measured them, and the resolved height of
the row of a grid-cell child whose y flag is not STRETCH is at least the current
height of the child. The refresh has a result when the container has fewer children
than a `uint32_t` counts and no child of a child is a grid with a fractional track
(no refresh inside the refresh). -/
theorem C23_auto_placed_items_fit (E : GridEnv) (S : Scratch) (cont : lv_obj_t)
    (g : lv_grid_t) (c : lv_grid_calc_t) (dsc : List Int) (hg : cont.grid = some g)
    (hc : g.col_dsc = some dsc) (hr : g.row_dsc = none)
    (hok : explicit_ok E dsc (decide (cont.w_set = E.size_auto))) :
    (∀ cont1 ev, _lv_grid_full_refresh E S c cont = some (cont1, ev) →
      ∃ c1, _lv_grid_calc E S cont c = some c1 ∧
        (decisions ev).length = (grid_cells E cont).length ∧
        (decisions ev).map (fun r => r.cell.row_pos) =
          implicit_scan_tracks E dsc.length cont.children 0 0 ∧
        ∀ (k : Nat) (item : lv_obj_t) (r : repos_t),
          (grid_cells E cont)[k]? = some item → (decisions ev)[k]? = some r →
          E.get_cell_flag item.y_set ≠ lv_grid_align.STRETCH →
          lv_obj_get_height E item ≤ c1.h.mem r.cell.row_pos) ∧
    (cont.children.length < 4294967295 →
      (∀ item ∈ cont.children, ∀ ch ∈ item.children,
        _lv_grid_has_fr_col E ch = false ∧ _lv_grid_has_fr_row E ch = false) →
      ∃ cont1 ev, _lv_grid_full_refresh E S c cont = some (cont1, ev)) := by
  have hn : 0 < dsc.length := List.length_pos.mpr hok.1
  refine ⟨?_, fun hcount hleaf =>
    full_refresh_rows_some E S cont g c dsc hg hc hr hok hcount hleaf⟩
  intro cont1 ev h
  obtain ⟨c1, h1, hh⟩ := lv_grid_calc_implicit_h E S cont g c dsc hg hc hr hok
  have hlink := full_refresh_cells_link E S c cont cont1 ev h
  have hcells := full_refresh_cells_rows E g dsc hc hr cont.children []
    (full_refresh_hint E cont) hn
  simp only [full_refresh_hint, Nat.zero_mul, Nat.zero_add] at hcells
  have hmap : (decisions ev).map (fun r => r.cell) =
      (List.range (grid_cells E cont).length).map
        (fun k => (⟨k % dsc.length, 1, k / dsc.length, 1⟩ : cell_span_t)) := by
    unfold _lv_grid_full_refresh_cells at hlink
    simp only [hg, h1, Option.some.injEq] at hlink
    rw [← hlink, full_refresh_hint, hcells]
    rfl
  have hlen : (decisions ev).length = (grid_cells E cont).length := by
    have := congrArg List.length hmap
    simpa using this
  have htracks := implicit_scan_tracks_eq E dsc.length cont.children 0 0 hn
  simp only [Nat.zero_mul, Nat.zero_add] at htracks
  have hinv := implicit_scan_inv E dsc.length (natural_height E) cont.children 0 0
    ((Buf.get S.h ((cont.children.length + dsc.length - 1) / dsc.length + 1)).write 0 0) hn
  obtain ⟨-, -, -, -, hge, -⟩ := hinv
  simp only [Nat.zero_mul, Nat.zero_add] at hge
  refine ⟨c1, h1, hlen, ?_, ?_⟩
  · have : (decisions ev).map (fun r => r.cell.row_pos) =
        ((decisions ev).map (fun r => r.cell)).map (fun s => s.row_pos) := by
      rw [List.map_map]
      rfl
    rw [this, hmap, htracks, List.map_map]
    rfl
  · intro k item r hk hr2 hflag
    have hlt : k < (grid_cells E cont).length := by
      rcases Nat.lt_or_ge k (grid_cells E cont).length with h | h
      · exact h
      · rw [List.getElem?_eq_none h] at hk
        cases hk
    have hcell : ((decisions ev).map (fun r => r.cell))[k]? = some r.cell := by
      rw [List.getElem?_map, hr2]
      rfl
    rw [hmap, List.getElem?_map, List.getElem?_range hlt] at hcell
    simp only [Option.map_some', Option.some.injEq] at hcell
    rw [← hcell, hh]
    have := hge k item hk
    unfold natural_height at this
    rw [if_neg hflag] at this
    exact this

/-- C23, witness: the container `cont_cols5`, two explicit columns and five grid
cells of the heights 6, 3, 9, 4, 2 with the y flag START: the refresh has a result,
the cells are measured and placed in the rows 0, 0, 1, 1, 2, whose heights are 6, 9
and 2. -/
theorem C23_witness :
    (∃ cont1 ev, _lv_grid_full_refresh env16 scratch7 calc0 cont_cols5 = some (cont1, ev)) ∧
    (_lv_grid_full_refresh env16 scratch7 calc0 cont_cols5).map
        (fun res => (decisions res.2).map (fun r => r.cell.row_pos)) = some [0, 0, 1, 1, 2] ∧
    implicit_scan_tracks env16 2 cont_cols5.children 0 0 = [0, 0, 1, 1, 2] ∧
    (grid_cells env16 cont_cols5).map
        (fun item => (decide (env16.get_cell_flag item.y_set ≠ lv_grid_align.STRETCH),
          lv_obj_get_height env16 item)) =
      [(true, 6), (true, 3), (true, 9), (true, 4), (true, 2)] ∧
    (_lv_grid_calc env16 scratch7 cont_cols5 calc0).map
        (fun c1 => (c1.h.mem 0, c1.h.mem 1, c1.h.mem 2)) = some (6, 9, 2) :=
  ⟨(C23_auto_placed_items_fit env16 scratch7 cont_cols5 grid_cols2 calc0 [10, 24577] rfl rfl rfl
      (by unfold explicit_ok; decide)).2 (by decide) (by decide),
    by decide, by decide, by decide, by decide⟩

/-- The refresh of `cont_rows5` (two explicit rows, implicit columns) has a result,
and the cells of its decisions are those of `_lv_grid_full_refresh_cells`: column 0
and row 0 for each of the five children. -/
theorem full_refresh_rows5_cells :
    (_lv_grid_full_refresh env16 scratch7 calc0 cont_rows5).map
        (fun res => (decisions res.2).map (fun r => r.cell)) =
      some [⟨0, 1, 0, 1⟩, ⟨0, 1, 0, 1⟩, ⟨0, 1, 0, 1⟩, ⟨0, 1, 0, 1⟩, ⟨0, 1, 0, 1⟩] ∧
    _lv_grid_full_refresh_cells env16 scratch7 cont_rows5 calc0 =
      some [⟨0, 1, 0, 1⟩, ⟨0, 1, 0, 1⟩, ⟨0, 1, 0, 1⟩, ⟨0, 1, 0, 1⟩, ⟨0, 1, 0, 1⟩] := by
  decide

/-- A grid item at position 0 with a span of 0 on the x axis: the index
`col_pos + col_span - 1` of line 462 wraps around to 4294967295 and `item_repos` has
no result. -/
theorem item_repos_span_zero :
    _lv_obj_is_grid_item env16 (mk_item (cell16 0 0 1) (cell16 0 1 1) 10 10) = true ∧
    (item_repos_cell env16 grid_2x2 [] (mk_item (cell16 0 0 1) (cell16 0 1 1) 10 10) none).1 =
      ⟨0, 0, 0, 1⟩ ∧
    span_last 0 0 = 4294967295 ∧
    item_repos env16 grid_2x2 calc_2x2 [] (mk_item (cell16 0 0 1) (cell16 0 1 1) 10 10) none =
      none := by
  decide

end LvGrid
